import Mathlib

/-! Thirteen: a shallow embedding of `thirteen.h`.

The header keeps all presenter state in the globals of `namespace Internal` and
talks to Win32 / Direct3D 12 through API calls.  The embedding below

* bundles the globals into the structure `Internal` (one field per global, same
  names and startup values), extended by one ghost field `calls` that logs the
  API calls issued so far, in order;
* turns every function of the header into a function on `Internal`; whatever the
  operating system or the GPU answers (handles, failures, pending window
  messages, timer readings) is an explicit environment argument;
* returns `none` where the C++ code would dereference a null pointer or copy
  past the end of a buffer (undefined behaviour), so `some` means "the call
  returned".

Machine integers are naturals/integers with explicit wrap-around, except where a
definition says that it leaves a signed computation without a range; `float` and
`double` are modelled as binary floating point values with round-to-nearest-even
(exponent range unbounded, no signed zero).
-/

namespace Thirteen

/-! ## Machine arithmetic -/

/-- Arithmetic on `uint32` wraps modulo `2^32`. -/
def wrap32 (n : Nat) : Nat := n % 2 ^ 32

/-- Arithmetic on `UINT64` wraps modulo `2^64`. -/
def wrap64 (n : Nat) : Nat := n % 2 ^ 64

/-- Conversion of an integer value to a 32-bit signed `int` / `LONG`. -/
def toInt32 (n : Int) : Int := (n + 2 ^ 31) % 2 ^ 32 - 2 ^ 31

/-- Conversion `(short)` of a 16-bit word: two's complement reinterpretation. -/
def toInt16 (n : Nat) : Int :=
  if n % 65536 < 32768 then ((n % 65536 : Nat) : Int) else ((n % 65536 : Nat) : Int) - 65536

/-- The Win32 `LOWORD` of a message parameter (given as its unsigned bit pattern). -/
def LOWORD (l : Nat) : Nat := l % 65536

/-- The Win32 `HIWORD` of a message parameter (given as its unsigned bit pattern). -/
def HIWORD (l : Nat) : Nat := (l / 65536) % 65536

/-! ## Binary floating point -/

/-- Floor of the base-2 logarithm, by halving (`fuel` bounds the number of halvings). -/
def log2Fuel : Nat → Nat → Nat
  | 0, _ => 0
  | fuel + 1, n => if 2 ≤ n then log2Fuel fuel (n / 2) + 1 else 0

/-- Floor of the base-2 logarithm of `n` (`0` for `n = 0`). -/
def ilog2 (n : Nat) : Nat := log2Fuel n n

/-- Rounds the positive rational `n / d` to `p` significant bits, to nearest with ties to
even.  The result `(m, k)` denotes `m * 2 ^ k`. -/
def roundPos (p n d : Nat) : Nat × Int :=
  let e0 : Int := (ilog2 n : Int) - (ilog2 d : Int)
  let below : Bool :=
    if 0 ≤ e0 then decide (n < d * 2 ^ e0.toNat) else decide (n * 2 ^ (-e0).toNat < d)
  let e : Int := if below then e0 - 1 else e0
  let k : Int := e - ((p : Int) - 1)
  let N : Nat := if 0 ≤ k then n else n * 2 ^ (-k).toNat
  let D : Nat := if 0 ≤ k then d * 2 ^ k.toNat else d
  let f : Nat := N / D
  let r2 : Nat := 2 * (N % D)
  let m : Nat := if r2 < D then f else if D < r2 then f + 1 else if f % 2 = 0 then f else f + 1
  (m, k)

/-- A binary floating point value: the finite number `m * 2 ^ e`, an infinity or a NaN. -/
inductive Fp where
  | fin (m : Int) (e : Int)
  | inf (neg : Bool)
  | nan
  deriving DecidableEq, Repr

namespace Fp

/-- The floating point number nearest to `± (n / d) * 2 ^ e` with `p` significant bits. -/
def mk (p : Nat) (neg : Bool) (n d : Nat) (e : Int) : Fp :=
  if n = 0 then fin 0 0
  else
    let r := roundPos p n d
    fin (if neg then -(r.1 : Int) else (r.1 : Int)) (r.2 + e)

/-- Conversion of an integer to floating point with `p` significant bits. -/
def ofInt (p : Nat) (i : Int) : Fp := mk p (decide (i < 0)) i.natAbs 1 0

/-- Floating point multiplication with `p` significant bits. -/
def mul (p : Nat) : Fp → Fp → Fp
  | fin m1 e1, fin m2 e2 => mk p (decide (m1 * m2 < 0)) (m1 * m2).natAbs 1 (e1 + e2)
  | fin m _, inf s => if m = 0 then nan else inf (s != decide (m < 0))
  | inf s, fin m _ => if m = 0 then nan else inf (s != decide (m < 0))
  | inf s1, inf s2 => inf (s1 != s2)
  | _, _ => nan

/-- Floating point division with `p` significant bits. -/
def div (p : Nat) : Fp → Fp → Fp
  | fin m1 e1, fin m2 e2 =>
    if m2 = 0 then (if m1 = 0 then nan else inf (decide (m1 < 0)))
    else mk p (decide (m1 < 0) != decide (m2 < 0)) m1.natAbs m2.natAbs (e1 - e2)
  | fin _ _, inf _ => fin 0 0
  | inf s, fin m _ => inf (s != decide (m < 0))
  | _, _ => nan

/-- Floating point addition with `p` significant bits. -/
def add (p : Nat) : Fp → Fp → Fp
  | fin m1 e1, fin m2 e2 =>
    let e := min e1 e2
    let s := m1 * 2 ^ (e1 - e).toNat + m2 * 2 ^ (e2 - e).toNat
    mk p (decide (s < 0)) s.natAbs 1 e
  | fin _ _, inf s => inf s
  | inf s, fin _ _ => inf s
  | inf s1, inf s2 => if s1 = s2 then inf s1 else nan
  | _, _ => nan

/-- The comparison `a >= b` (false when either side is a NaN). -/
def ge : Fp → Fp → Bool
  | fin m1 e1, fin m2 e2 =>
    let e := min e1 e2
    decide (m2 * 2 ^ (e2 - e).toNat ≤ m1 * 2 ^ (e1 - e).toNat)
  | fin _ _, inf s => s
  | inf s, fin _ _ => !s
  | inf s1, inf s2 => !s1 || s2
  | _, _ => false

/-- Whether the value is a zero. -/
def isZero : Fp → Bool
  | fin m _ => decide (m = 0)
  | _ => false

/-- Conversion `(int)` of a floating point value: truncation toward zero.  Values that do
not fit (and infinities, NaN) give `INT_MIN`, the x86 "integer indefinite" result. -/
def toInt (x : Fp) : Int :=
  match x with
  | fin m e =>
    let t : Int := if 0 ≤ e then m * 2 ^ e.toNat else Int.tdiv m (2 ^ (-e).toNat)
    if -(2 ^ 31) ≤ t ∧ t < 2 ^ 31 then t else -(2 ^ 31)
  | _ => -(2 ^ 31)

end Fp

/-- Significand width of `float`. -/
def f32 : Nat := 24

/-- Significand width of `double`. -/
def f64 : Nat := 53

/-! ## Window messages -/

/-- The message identifiers `WndProc` switches on; everything else is `WM_OTHER`. -/
inductive Message where
  | WM_DESTROY | WM_CLOSE | WM_MOUSEMOVE
  | WM_LBUTTONDOWN | WM_LBUTTONUP | WM_RBUTTONDOWN | WM_RBUTTONUP
  | WM_MBUTTONDOWN | WM_MBUTTONUP | WM_KEYDOWN | WM_KEYUP
  | WM_OTHER (code : Nat)
  deriving DecidableEq, Repr

/-- The Win32 `RECT`. -/
structure RECT where
  left : Int
  top : Int
  right : Int
  bottom : Int
  deriving DecidableEq, Repr

/-- One invocation of the window procedure: message, parameters (as unsigned bit patterns)
and the client rectangle `GetClientRect` reports while the message is handled. -/
structure MSG where
  message : Message
  wParam : Nat
  lParam : Nat
  clientRect : RECT
  deriving DecidableEq, Repr

/-! ## Presenter state -/

/-- A pointer or handle: `none` is `nullptr`. -/
abbrev Ptr := Option Nat

/-- A byte buffer behind a pointer: address, size in bytes, contents by offset. -/
structure Block where
  addr : Nat
  size : Nat
  data : Nat → Nat

/-- The Direct3D / DXGI objects the header creates and releases. -/
inductive Obj where
  | device | commandQueue | factory | factory5 | swapChain1 | swapChain | rtvHeap
  | renderTarget0 | renderTarget1 | commandAllocator | commandList | uploadBuffer | fence
  deriving DecidableEq, Repr

/-- API calls with an effect outside `Internal`, as logged in `Internal.calls`. -/
inductive Api where
  | malloc (size : Nat) (ret : Ptr)
  | realloc (old : Ptr) (size : Nat) (ret : Ptr)
  | free (p : Ptr)
  | RegisterClassExW
  | CreateWindowExW (cx cy : Int) (ret : Ptr)
  | ShowWindow (hwnd : Ptr)
  | DestroyWindow (hwnd : Ptr)
  | UnregisterClassW
  | SetWindowTextA (hwnd : Ptr) (name : String) (fps ms : Fp)
  | SetWindowLongW (hwnd : Ptr) (style : Nat)
  | SetWindowPos (hwnd : Ptr) (x y cx cy : Int)
  | Create (o : Obj) (ret : Ptr)
  | CreateSwapChainForHwnd (width height flags : Nat) (ret : Ptr)
  | ResizeBuffers (width height flags : Nat) (ok : Bool)
  | CreateRenderTargetView (o : Obj)
  | CreateCommittedResource (width : Nat) (ret : Ptr)
  | CreateEvent (ret : Ptr)
  | Release (o : Obj)
  | CloseHandle (h : Ptr)
  | Signal (value : Nat)
  | GetCompletedValue (ret : Nat)
  | SetEventOnCompletion (value : Nat)
  | WaitForSingleObject
  | GetCurrentBackBufferIndex
  | Map (ok : Bool)
  | memcpy (n : Nat)
  | Unmap
  | AllocatorReset
  | ListReset
  | ResourceBarrier (target : Nat) (toCopyDest : Bool)
  | CopyTextureRegion (target width height rowPitch : Nat)
  | ListClose
  | ExecuteCommandLists
  | Present (syncInterval flags : Nat)
  deriving DecidableEq, Repr

/-- The globals of `namespace Internal`, with their startup values, plus the ghost log
`calls`.  `Pixels` and `uploadBuffer` carry the buffer they point to. -/
structure Internal where
  hwnd : Ptr := none
  width : Nat := 320
  height : Nat := 200
  shouldQuit : Bool := false
  vsyncEnabled : Bool := true
  tearingSupported : Bool := false
  isFullscreen : Bool := false
  appName : String := "ThirteenApp"
  perfFrequency : Int := 0
  lastFrameTime : Int := 0
  lastDeltaTime : Fp := Fp.fin 0 0
  frameTimeSum : Fp := Fp.fin 0 0
  frameCount : Int := 0
  averageFPS : Fp := Fp.fin 0 0
  titleUpdateTimer : Fp := Fp.fin 0 0
  mouseX : Int := 0
  mouseY : Int := 0
  prevMouseX : Int := 0
  prevMouseY : Int := 0
  mouseButtons : Fin 3 → Bool := fun _ => false
  prevMouseButtons : Fin 3 → Bool := fun _ => false
  keys : Fin 256 → Bool := fun _ => false
  prevKeys : Fin 256 → Bool := fun _ => false
  device : Ptr := none
  commandQueue : Ptr := none
  swapChain : Ptr := none
  rtvHeap : Ptr := none
  renderTargets0 : Ptr := none
  renderTargets1 : Ptr := none
  commandAllocator : Ptr := none
  commandList : Ptr := none
  uploadBuffer : Option Block := none
  fence : Ptr := none
  fenceEvent : Ptr := none
  fenceValue : Nat := 0
  frameIndex : Nat := 0
  rtvDescriptorSize : Nat := 0
  Pixels : Option Block := none
  calls : List Api := []

/-- The state of a process that has not called anything yet. -/
def startup : Internal := {}

/-! ## The window procedure -/

/-- The mouse coordinate rescaling of the fullscreen branch:
`(int)((float)raw * (float)size / (float)window)`. -/
def scaleMouse (raw : Int) (size : Nat) (window : Int) : Int :=
  Fp.toInt (Fp.div f32 (Fp.mul f32 (Fp.ofInt f32 raw) (Fp.ofInt f32 size)) (Fp.ofInt f32 window))

/-- The window procedure `WndProc`: the effect of one message on the globals.  Messages
outside the `switch` go to `DefWindowProcW` and leave the globals alone. -/
def WndProc (g : Internal) (m : MSG) : Internal :=
  match m.message with
  | .WM_DESTROY => { g with shouldQuit := true }
  | .WM_CLOSE => { g with shouldQuit := true }
  | .WM_MOUSEMOVE =>
    let rawX : Int := toInt16 (LOWORD m.lParam)
    let rawY : Int := toInt16 (HIWORD m.lParam)
    if g.isFullscreen then
      let windowWidth : Int := toInt32 (m.clientRect.right - m.clientRect.left)
      let windowHeight : Int := toInt32 (m.clientRect.bottom - m.clientRect.top)
      { g with mouseX := scaleMouse rawX g.width windowWidth,
               mouseY := scaleMouse rawY g.height windowHeight }
    else
      { g with mouseX := rawX, mouseY := rawY }
  | .WM_LBUTTONDOWN => { g with mouseButtons := Function.update g.mouseButtons 0 true }
  | .WM_LBUTTONUP => { g with mouseButtons := Function.update g.mouseButtons 0 false }
  | .WM_RBUTTONDOWN => { g with mouseButtons := Function.update g.mouseButtons 1 true }
  | .WM_RBUTTONUP => { g with mouseButtons := Function.update g.mouseButtons 1 false }
  | .WM_MBUTTONDOWN => { g with mouseButtons := Function.update g.mouseButtons 2 true }
  | .WM_MBUTTONUP => { g with mouseButtons := Function.update g.mouseButtons 2 false }
  | .WM_KEYDOWN =>
    if h : m.wParam < 256 then { g with keys := Function.update g.keys ⟨m.wParam, h⟩ true }
    else g
  | .WM_KEYUP =>
    if h : m.wParam < 256 then { g with keys := Function.update g.keys ⟨m.wParam, h⟩ false }
    else g
  | .WM_OTHER _ => g

/-! ## Input queries -/

/-- The query `GetMousePosition`: the current mouse position. -/
def GetMousePosition (g : Internal) : Int × Int := (g.mouseX, g.mouseY)

/-- The query `GetMousePositionLastFrame`: the mouse position of the previous frame. -/
def GetMousePositionLastFrame (g : Internal) : Int × Int := (g.prevMouseX, g.prevMouseY)

/-- The query `GetMouseButton`: guarded read of `mouseButtons[button]`. -/
def GetMouseButton (g : Internal) (button : Int) : Bool :=
  if h : 0 ≤ button ∧ button < 3 then g.mouseButtons ⟨button.toNat, by omega⟩ else false

/-- The query `GetMouseButtonLastFrame`: guarded read of `prevMouseButtons[button]`. -/
def GetMouseButtonLastFrame (g : Internal) (button : Int) : Bool :=
  if h : 0 ≤ button ∧ button < 3 then g.prevMouseButtons ⟨button.toNat, by omega⟩ else false

/-- The query `GetKey`: guarded read of `keys[keyCode]`. -/
def GetKey (g : Internal) (keyCode : Int) : Bool :=
  if h : 0 ≤ keyCode ∧ keyCode < 256 then g.keys ⟨keyCode.toNat, by omega⟩ else false

/-- The query `GetKeyLastFrame`: guarded read of `prevKeys[keyCode]`. -/
def GetKeyLastFrame (g : Internal) (keyCode : Int) : Bool :=
  if h : 0 ≤ keyCode ∧ keyCode < 256 then g.prevKeys ⟨keyCode.toNat, by omega⟩ else false

/-- The query `GetWidth`. -/
def GetWidth (g : Internal) : Nat := g.width

/-- The query `GetHeight`. -/
def GetHeight (g : Internal) : Nat := g.height

/-- The query `GetDeltaTime`. -/
def GetDeltaTime (g : Internal) : Fp := g.lastDeltaTime

/-- The setter `SetVSync`. -/
def SetVSync (g : Internal) (enabled : Bool) : Internal := { g with vsyncEnabled := enabled }

/-- The query `GetVSync`. -/
def GetVSync (g : Internal) : Bool := g.vsyncEnabled

/-- The setter `SetApplicationName`. -/
def SetApplicationName (g : Internal) (name : String) : Internal := { g with appName := name }

/-- The query `GetFullscreen`. -/
def GetFullscreen (g : Internal) : Bool := g.isFullscreen

/-! ## Environment -/

/-- The window style `WS_OVERLAPPEDWINDOW & ~(WS_THICKFRAME | WS_MAXIMIZEBOX)`. -/
def windowedStyle : Nat := 0x00CA0000

/-- The window style bit `WS_VISIBLE`. -/
def WS_VISIBLE : Nat := 0x10000000

/-- The window style bit `WS_POPUP`. -/
def WS_POPUP : Nat := 0x80000000

/-- The swap chain flag `DXGI_SWAP_CHAIN_FLAG_ALLOW_TEARING`. -/
def DXGI_SWAP_CHAIN_FLAG_ALLOW_TEARING : Nat := 2048

/-- The present flag `DXGI_PRESENT_ALLOW_TEARING`. -/
def DXGI_PRESENT_ALLOW_TEARING : Nat := 0x200

/-- Answers of the desktop to geometry queries: `AdjustWindowRect`, `GetSystemMetrics`
for `SM_CXSCREEN` / `SM_CYSCREEN`, and the monitor rectangle of `GetMonitorInfo`. -/
structure Desktop where
  adjustWindowRect : RECT → Nat → RECT
  screenWidth : Int
  screenHeight : Int
  monitor : RECT

/-- What the system answers during one `Render` call. -/
structure RenderEnv where
  /-- The reading of `QueryPerformanceCounter`. -/
  currentTime : Int
  /-- The window procedure invocations caused by the `PeekMessageW` loop, in order. -/
  messages : List MSG
  /-- The answer of `fence->GetCompletedValue()`. -/
  completedValue : Nat
  /-- The answer of `swapChain->GetCurrentBackBufferIndex()`. -/
  backBufferIndex : Nat
  /-- Whether `uploadBuffer->Map` yields a pointer. -/
  mapOk : Bool

/-- Appends API calls to the ghost log. -/
def logCalls (g : Internal) (cs : List Api) : Internal := { g with calls := g.calls ++ cs }

/-! ## Fullscreen -/

/-- The function `SetFullscreen`. -/
def SetFullscreen (desk : Desktop) (fullscreen : Bool) (g : Internal) : Internal :=
  if g.isFullscreen = fullscreen then g
  else
    let g := { g with isFullscreen := fullscreen }
    if fullscreen then
      let mi := desk.monitor
      logCalls g [.SetWindowLongW g.hwnd (WS_POPUP ||| WS_VISIBLE),
                  .SetWindowPos g.hwnd mi.left mi.top (mi.right - mi.left) (mi.bottom - mi.top)]
    else
      let style := windowedStyle
      let rect := desk.adjustWindowRect ⟨0, 0, toInt32 g.width, toInt32 g.height⟩ style
      let windowWidth := rect.right - rect.left
      let windowHeight := rect.bottom - rect.top
      let x := Int.tdiv (desk.screenWidth - windowWidth) 2
      let y := Int.tdiv (desk.screenHeight - windowHeight) 2
      logCalls g [.SetWindowLongW g.hwnd (style ||| WS_VISIBLE),
                  .SetWindowPos g.hwnd x y windowWidth windowHeight]

/-! ## Render -/

/-- First step of `Render`: copy the current input state to the previous one. -/
def copyInputState (g : Internal) : Internal :=
  { g with prevMouseX := g.mouseX, prevMouseY := g.mouseY,
           prevMouseButtons := g.mouseButtons, prevKeys := g.keys }

/-- Second step of `Render`: frame time, averaged FPS and the title bar update.  The counter
difference and the frame counter are taken as integers without a range: this is the code
as long as two counter readings are less than `2^63` apart and fewer than `2^31` frames
fall into one accumulated second.  The formatting of the title into its 256-character
buffer is not modelled. -/
def frameTiming (currentTime : Int) (g : Internal) : Internal :=
  let lastDeltaTime :=
    Fp.div f64 (Fp.ofInt f64 (currentTime - g.lastFrameTime)) (Fp.ofInt f64 g.perfFrequency)
  let g := { g with lastDeltaTime := lastDeltaTime, lastFrameTime := currentTime }
  let g := { g with frameTimeSum := Fp.add f64 g.frameTimeSum g.lastDeltaTime,
                    frameCount := g.frameCount + 1 }
  let g :=
    if Fp.ge g.frameTimeSum (Fp.fin 1 0) then
      { g with averageFPS := Fp.div f64 (Fp.ofInt f64 g.frameCount) g.frameTimeSum,
               frameTimeSum := Fp.fin 0 0, frameCount := 0 }
    else g
  let g := { g with titleUpdateTimer := Fp.add f64 g.titleUpdateTimer g.lastDeltaTime }
  if Fp.ge g.titleUpdateTimer (Fp.fin 1 (-2)) then
    logCalls { g with titleUpdateTimer := Fp.fin 0 0 }
      [.SetWindowTextA g.hwnd g.appName g.averageFPS (Fp.div f64 (Fp.fin 1000 0) g.averageFPS)]
  else g

/-- Third step of `Render`: the message loop hands each pending message to `WndProc`. -/
def processMessages (msgs : List MSG) (g : Internal) : Internal := msgs.foldl WndProc g

/-- The fence handshake "signal the current fence value, increment it, wait until the GPU
has reached it", as written in `Render`, `SetSize` and `Shutdown`: the wait is skipped when
`GetCompletedValue` already answers a value that is not below the signalled one. -/
def waitForGpu (completedValue : Nat) (g : Internal) : Internal :=
  let currentFenceValue := g.fenceValue
  { g with fenceValue := wrap64 (g.fenceValue + 1),
           calls := g.calls ++ [.Signal currentFenceValue, .GetCompletedValue completedValue] ++
             (if completedValue < currentFenceValue then
                [.SetEventOnCompletion currentFenceValue, .WaitForSingleObject]
              else []) }

/-- The GPU part of `Render`, after the quit check: wait for the previous frame, upload the
pixels, record and execute the copy, present.  `none` where a null object would be
dereferenced or the copy would leave a buffer. -/
def presentFrame (env : RenderEnv) (g : Internal) : Option (Bool × Internal) :=
  match g.commandQueue, g.fence, g.swapChain with
  | some _, some _, some _ =>
    let g := waitForGpu env.completedValue g
    let g := logCalls { g with frameIndex := env.backBufferIndex } [.GetCurrentBackBufferIndex]
    match g.uploadBuffer, g.Pixels, g.commandAllocator, g.commandList with
    | some up, some px, some _, some _ =>
      let n := wrap32 (g.width * g.height * 4)
      if env.mapOk = true ∧ n ≤ up.size ∧ n ≤ px.size ∧ g.frameIndex < 2 then
        let up := { up with data := fun i => if i < n then px.data i else up.data i }
        let syncInterval : Nat := if g.vsyncEnabled then 1 else 0
        let presentFlags : Nat :=
          if !g.vsyncEnabled && g.tearingSupported then DXGI_PRESENT_ALLOW_TEARING else 0
        let g := logCalls { g with uploadBuffer := some up }
          [.Map true, .memcpy n, .Unmap, .AllocatorReset, .ListReset,
           .ResourceBarrier g.frameIndex true,
           .CopyTextureRegion g.frameIndex g.width g.height (wrap32 (g.width * 4)),
           .ResourceBarrier g.frameIndex false,
           .ListClose, .ExecuteCommandLists, .Present syncInterval presentFlags]
        some (!g.shouldQuit, g)
      else none
    | _, _, _, _ => none
  | _, _, _ => none

/-- The part of `Render` before the quit check: copy the input state, measure the frame
time, process the pending messages. -/
def pollFrame (env : RenderEnv) (g : Internal) : Internal :=
  processMessages env.messages (frameTiming env.currentTime (copyInputState g))

/-- The function `Render`. -/
def Render (env : RenderEnv) (g : Internal) : Option (Bool × Internal) :=
  let g := pollFrame env g
  if g.shouldQuit then some (false, g) else presentFrame env g

/-! ## Init -/

/-- What the system answers during one `Init` call: every creation call yields a handle or
fails (`none`). -/
structure InitEnv where
  desk : Desktop
  /-- The address returned by `malloc` (`none`: null). -/
  malloc : Option Nat
  /-- The indeterminate contents of freshly allocated memory. -/
  garbage : Nat → Nat
  hwnd : Ptr
  device : Ptr
  commandQueue : Ptr
  factory : Ptr
  /-- The answer of `QueryInterface` for `IDXGIFactory5`. -/
  factory5 : Ptr
  /-- The answer of `CheckFeatureSupport` (`none`: the call failed). -/
  allowTearing : Option Bool
  swapChain1 : Ptr
  /-- The answer of `QueryInterface` for `IDXGISwapChain3`. -/
  swapChain : Ptr
  backBufferIndex : Nat
  rtvHeap : Ptr
  rtvDescriptorSize : Nat
  renderTarget0 : Ptr
  renderTarget1 : Ptr
  commandAllocator : Ptr
  commandList : Ptr
  uploadBuffer : Option Nat
  fence : Ptr
  fenceEvent : Ptr
  perfFrequency : Int
  perfCounter : Int

/-- The section of `Init` up to `CreateWindowExW`: store the size, allocate the pixels,
register the window class, create the window. -/
def initWindow (env : InitEnv) (width height : Nat) (g : Internal) : Internal :=
  let size := wrap32 (width * height * 4)
  let rect := env.desk.adjustWindowRect ⟨0, 0, toInt32 width, toInt32 height⟩ windowedStyle
  logCalls
    { g with width := width, height := height,
             Pixels := env.malloc.map fun a => ⟨a, size, env.garbage⟩,
             hwnd := env.hwnd }
    [.malloc size env.malloc, .RegisterClassExW,
     .CreateWindowExW (rect.right - rect.left) (rect.bottom - rect.top) env.hwnd]

/-- The section of `Init` that shows the window and creates the device. -/
def initDevice (env : InitEnv) (g : Internal) : Internal :=
  logCalls { g with device := env.device } [.ShowWindow g.hwnd, .Create .device env.device]

/-- The section `Create command queue` of `Init`. -/
def initCommandQueue (env : InitEnv) (g : Internal) : Internal :=
  logCalls { g with commandQueue := env.commandQueue } [.Create .commandQueue env.commandQueue]

/-- The call `CreateDXGIFactory1` of `Init`. -/
def initFactory (env : InitEnv) (g : Internal) : Internal :=
  logCalls g [.Create .factory env.factory]

/-- The section `Check for tearing support` of `Init`. -/
def initTearing (env : InitEnv) (g : Internal) : Internal :=
  match env.factory5 with
  | some _ =>
    logCalls
      (match env.allowTearing with
       | some b => { g with tearingSupported := b }
       | none => g)
      [.Release .factory5]
  | none => g

/-- The call `CreateSwapChainForHwnd` of `Init`, followed by the release of the factory. -/
def initSwapChain1 (env : InitEnv) (width height : Nat) (g : Internal) : Internal :=
  let flags := if g.tearingSupported then DXGI_SWAP_CHAIN_FLAG_ALLOW_TEARING else 0
  logCalls g [.CreateSwapChainForHwnd width height flags env.swapChain1, .Release .factory]

/-- The `QueryInterface` call of `Init` that yields `swapChain`. -/
def initSwapChain (env : InitEnv) (g : Internal) : Internal :=
  logCalls { g with swapChain := env.swapChain }
    [.Create .swapChain env.swapChain, .Release .swapChain1]

/-- The section `Create RTV descriptor heap` of `Init`, after reading the back buffer
index. -/
def initRtvHeap (env : InitEnv) (g : Internal) : Internal :=
  logCalls { g with frameIndex := env.backBufferIndex, rtvHeap := env.rtvHeap }
    [.GetCurrentBackBufferIndex, .Create .rtvHeap env.rtvHeap]

/-- The first round of the loop `Create RTVs` of `Init`, up to `GetBuffer`. -/
def initRenderTarget0 (env : InitEnv) (g : Internal) : Internal :=
  logCalls { g with rtvDescriptorSize := env.rtvDescriptorSize,
                    renderTargets0 := env.renderTarget0 }
    [.Create .renderTarget0 env.renderTarget0]

/-- The second round of the loop `Create RTVs` of `Init`, up to `GetBuffer`. -/
def initRenderTarget1 (env : InitEnv) (g : Internal) : Internal :=
  logCalls { g with renderTargets1 := env.renderTarget1 }
    [.CreateRenderTargetView .renderTarget0, .Create .renderTarget1 env.renderTarget1]

/-- The section `Create command allocator` of `Init`. -/
def initCommandAllocator (env : InitEnv) (g : Internal) : Internal :=
  logCalls { g with commandAllocator := env.commandAllocator }
    [.CreateRenderTargetView .renderTarget1, .Create .commandAllocator env.commandAllocator]

/-- The section `Create command list` of `Init`, up to `CreateCommandList`. -/
def initCommandList (env : InitEnv) (g : Internal) : Internal :=
  logCalls { g with commandList := env.commandList } [.Create .commandList env.commandList]

/-- The section `Create upload buffer` of `Init`, after closing the command list. -/
def initUploadBuffer (env : InitEnv) (width height : Nat) (g : Internal) : Internal :=
  let size := wrap32 (width * height * 4)
  logCalls { g with uploadBuffer := env.uploadBuffer.map fun a => ⟨a, size, env.garbage⟩ }
    [.ListClose, .CreateCommittedResource size env.uploadBuffer]

/-- The call `CreateFence` of `Init`. -/
def initFence (env : InitEnv) (g : Internal) : Internal :=
  logCalls { g with fence := env.fence } [.Create .fence env.fence]

/-- The assignment `fenceValue = 1` and the call `CreateEvent` of `Init`. -/
def initFenceEvent (env : InitEnv) (g : Internal) : Internal :=
  logCalls { g with fenceValue := 1, fenceEvent := env.fenceEvent } [.CreateEvent env.fenceEvent]

/-- The end of `Init`: frame timing, and the switch to fullscreen if requested. -/
def initFinish (env : InitEnv) (fullscreen : Bool) (g : Internal) : Internal :=
  let g := { g with perfFrequency := env.perfFrequency, lastFrameTime := env.perfCounter }
  if fullscreen then SetFullscreen env.desk true g else g

/-- The function `Init`.  The result is the returned pixel pointer (`none`: `nullptr`) and
the state left behind; the outer `none` is a null dereference. -/
def Init (env : InitEnv) (width height : Nat) (fullscreen : Bool) (g : Internal) :
    Option (Option Block × Internal) :=
  let g := initWindow env width height g
  if g.hwnd.isNone then some (none, g) else
  let g := initDevice env g
  if env.device.isNone then some (none, g) else
  let g := initCommandQueue env g
  if env.commandQueue.isNone then some (none, g) else
  let g := initFactory env g
  if env.factory.isNone then some (none, g) else
  let g := initTearing env g
  let g := initSwapChain1 env width height g
  if env.swapChain1.isNone then some (none, g) else
  let g := initSwapChain env g
  if g.swapChain.isNone then none else
  let g := initRtvHeap env g
  if env.rtvHeap.isNone then some (none, g) else
  let g := initRenderTarget0 env g
  if env.renderTarget0.isNone then some (none, g) else
  let g := initRenderTarget1 env g
  if env.renderTarget1.isNone then some (none, g) else
  let g := initCommandAllocator env g
  if env.commandAllocator.isNone then some (none, g) else
  let g := initCommandList env g
  if env.commandList.isNone then some (none, g) else
  let g := initUploadBuffer env width height g
  if env.uploadBuffer.isNone then some (none, g) else
  let g := initFence env g
  if env.fence.isNone then some (none, g) else
  let g := initFenceEvent env g
  if env.fenceEvent.isNone then some (none, g) else
  let g := initFinish env fullscreen g
  some (g.Pixels, g)

/-! ## SetSize -/

/-- What the system answers during one `SetSize` call. -/
structure SetSizeEnv where
  desk : Desktop
  completedValue : Nat
  /-- The address returned by `realloc` (`none`: null). -/
  realloc : Option Nat
  garbage : Nat → Nat
  /-- Whether `ResizeBuffers` succeeds. -/
  resizeOk : Bool
  renderTarget0 : Ptr
  renderTarget1 : Ptr
  uploadBuffer : Option Nat
  backBufferIndex : Nat

/-- The function `SetSize`.  The result is the returned pixel pointer (`none`: `nullptr`)
and the state left behind; the outer `none` is a null dereference.  The placement of the
window is computed in integers without a range, which is the `int` arithmetic of the code
for sizes in the range of `int`; it only enters the logged `SetWindowPos` call. -/
def SetSize (env : SetSizeEnv) (width height : Nat) (g : Internal) :
    Option (Option Block × Internal) :=
  if width = g.width ∧ height = g.height then some (g.Pixels, g) else
  -- Wait for GPU to finish
  let g := if g.fence.isSome ∧ g.commandQueue.isSome then waitForGpu env.completedValue g else g
  -- Release old render targets
  let g := if g.renderTargets0.isSome then
      logCalls { g with renderTargets0 := none } [.Release .renderTarget0] else g
  let g := if g.renderTargets1.isSome then
      logCalls { g with renderTargets1 := none } [.Release .renderTarget1] else g
  -- Release old upload buffer
  let g := if g.uploadBuffer.isSome then
      logCalls { g with uploadBuffer := none } [.Release .uploadBuffer] else g
  -- Reallocate pixel buffer
  let size := wrap32 (width * height * 4)
  let old := g.Pixels
  let g := logCalls
    { g with Pixels := env.realloc.map fun a =>
        ⟨a, size, fun i => match old with
                           | some b => if i < b.size then b.data i else env.garbage i
                           | none => env.garbage i⟩ }
    [.realloc (old.map Block.addr) size env.realloc]
  if g.Pixels.isNone then some (none, g) else
  -- Update dimensions
  let g := { g with width := width, height := height }
  -- Resize swap chain buffers
  if g.swapChain.isNone then none else
  let flags := if g.tearingSupported then DXGI_SWAP_CHAIN_FLAG_ALLOW_TEARING else 0
  let g := logCalls g [.ResizeBuffers width height flags env.resizeOk]
  if !env.resizeOk then some (none, g) else
  -- Recreate render target views
  if g.rtvHeap.isNone then none else
  let g := logCalls { g with renderTargets0 := env.renderTarget0 }
    [.Create .renderTarget0 env.renderTarget0]
  if env.renderTarget0.isNone then some (none, g) else
  if g.device.isNone then none else
  let g := logCalls { g with renderTargets1 := env.renderTarget1 }
    [.CreateRenderTargetView .renderTarget0, .Create .renderTarget1 env.renderTarget1]
  if env.renderTarget1.isNone then some (none, g) else
  -- Recreate upload buffer
  let g := logCalls
    { g with uploadBuffer := env.uploadBuffer.map fun a => ⟨a, size, env.garbage⟩ }
    [.CreateRenderTargetView .renderTarget1, .CreateCommittedResource size env.uploadBuffer]
  if env.uploadBuffer.isNone then some (none, g) else
  let g := logCalls { g with frameIndex := env.backBufferIndex } [.GetCurrentBackBufferIndex]
  -- Resize window if not fullscreen
  let g :=
    if !g.isFullscreen then
      let rect := env.desk.adjustWindowRect ⟨0, 0, toInt32 width, toInt32 height⟩ windowedStyle
      let windowWidth := rect.right - rect.left
      let windowHeight := rect.bottom - rect.top
      let x := Int.tdiv (env.desk.screenWidth - windowWidth) 2
      let y := Int.tdiv (env.desk.screenHeight - windowHeight) 2
      logCalls g [.SetWindowPos g.hwnd x y windowWidth windowHeight]
    else g
  some (g.Pixels, g)

/-! ## Shutdown -/

/-- What the system answers during one `Shutdown` call. -/
structure ShutdownEnv where
  completedValue : Nat
  /-- The messages the system hands to the window procedure from inside `DestroyWindow`. -/
  destroyMessages : List MSG

/-- The guarded call `if (p) p->Release();` of `Shutdown` (the pointer is kept). -/
def releaseIf (p : Bool) (o : Obj) (g : Internal) : Internal :=
  if p then logCalls g [.Release o] else g

/-- The function `Shutdown`. -/
def Shutdown (env : ShutdownEnv) (g : Internal) : Internal :=
  -- Wait for GPU to finish
  let g := if g.fence.isSome ∧ g.commandQueue.isSome then waitForGpu env.completedValue g else g
  -- Release resources
  let g := if g.fenceEvent.isSome then logCalls g [.CloseHandle g.fenceEvent] else g
  let g := releaseIf g.fence.isSome .fence g
  let g := releaseIf g.uploadBuffer.isSome .uploadBuffer g
  let g := releaseIf g.commandList.isSome .commandList g
  let g := releaseIf g.commandAllocator.isSome .commandAllocator g
  let g := releaseIf g.renderTargets0.isSome .renderTarget0 g
  let g := releaseIf g.renderTargets1.isSome .renderTarget1 g
  let g := releaseIf g.rtvHeap.isSome .rtvHeap g
  let g := releaseIf g.swapChain.isSome .swapChain g
  let g := releaseIf g.commandQueue.isSome .commandQueue g
  let g := releaseIf g.device.isSome .device g
  let g :=
    if g.hwnd.isSome then
      logCalls (processMessages env.destroyMessages (logCalls g [.DestroyWindow g.hwnd]))
        [.UnregisterClassW]
    else g
  logCalls { g with Pixels := none } [.free (g.Pixels.map Block.addr)]

/-! ## Vocabulary of the statements -/

/-- The message `WM_KEYDOWN` for key code `k`. -/
def keyDown (k : Nat) : MSG := ⟨.WM_KEYDOWN, k, 0, ⟨0, 0, 0, 0⟩⟩

/-- The message `WM_KEYUP` for key code `k`. -/
def keyUp (k : Nat) : MSG := ⟨.WM_KEYUP, k, 0, ⟨0, 0, 0, 0⟩⟩

/-- Whether a message is a key-down or key-up message for key code `k`. -/
def isKeyEvent (k : Nat) (m : MSG) : Bool :=
  (m.message = .WM_KEYDOWN ∨ m.message = .WM_KEYUP) ∧ m.wParam = k

/-- The button-down message of mouse button `b` (0 left, 1 right, 2 middle). -/
def buttonDown (b : Fin 3) : Message :=
  match b with
  | 0 => .WM_LBUTTONDOWN
  | 1 => .WM_RBUTTONDOWN
  | 2 => .WM_MBUTTONDOWN

/-- The button-up message of mouse button `b` (0 left, 1 right, 2 middle). -/
def buttonUp (b : Fin 3) : Message :=
  match b with
  | 0 => .WM_LBUTTONUP
  | 1 => .WM_RBUTTONUP
  | 2 => .WM_MBUTTONUP

/-- Whether a message is a button-down or button-up message for mouse button `b`. -/
def isButtonEvent (b : Fin 3) (m : MSG) : Bool :=
  m.message = buttonDown b ∨ m.message = buttonUp b

/-- Whether an API call gives up something the presenter owns: frees memory, destroys the
window or its class, closes a handle, or releases an object other than the temporaries
`factory`, `factory5` and `swapChain1`. -/
def isTeardown (c : Api) : Bool :=
  match c with
  | .free _ => true
  | .DestroyWindow _ => true
  | .UnregisterClassW => true
  | .CloseHandle _ => true
  | .Release o => !(o = .factory || o = .factory5 || o = .swapChain1)
  | _ => false

/-- The log `new` continues `old` with calls among which there is no teardown. -/
def Keeps (old new : List Api) : Prop :=
  ∃ cs, new = old ++ cs ∧ cs.all (fun c => !isTeardown c) = true

/-- The log `new` continues `old` without teardown and with a `ShowWindow` call for `hw`. -/
def Shows (hw : Ptr) (old new : List Api) : Prop :=
  ∃ cs, new = old ++ cs ∧ Api.ShowWindow hw ∈ cs ∧ cs.all (fun c => !isTeardown c) = true

/-- During `Init`, once the window exists: `hwnd` holds the window handle, `Pixels` the
block obtained from `malloc`, and nothing has been torn down since the call began. -/
def Held0 (env : InitEnv) (width height : Nat) (old : List Api) (x : Internal) : Prop :=
  x.hwnd = env.hwnd ∧
  x.Pixels = env.malloc.map (fun a => ⟨a, wrap32 (width * height * 4), env.garbage⟩) ∧
  Keeps old x.calls

/-- During `Init`, once the window is shown: as `Held0`, and the window has been shown. -/
def Held (env : InitEnv) (width height : Nat) (old : List Api) (x : Internal) : Prop :=
  x.hwnd = env.hwnd ∧
  x.Pixels = env.malloc.map (fun a => ⟨a, wrap32 (width * height * 4), env.garbage⟩) ∧
  Shows env.hwnd old x.calls

/-- Whether every creation call of `Init` (window, device, queue, factory, swap chain,
descriptor heap, render targets, command allocator and list, upload buffer, fence, fence
event) succeeds in the environment. -/
def InitEnv.created (env : InitEnv) : Bool :=
  env.hwnd.isSome && env.device.isSome && env.commandQueue.isSome && env.factory.isSome &&
  env.swapChain1.isSome && env.rtvHeap.isSome && env.renderTarget0.isSome &&
  env.renderTarget1.isSome && env.commandAllocator.isSome && env.commandList.isSome &&
  env.uploadBuffer.isSome && env.fence.isSome && env.fenceEvent.isSome

/-- Whether a message is a close or destroy message. -/
def isQuitEvent (m : MSG) : Bool := m.message = .WM_CLOSE ∨ m.message = .WM_DESTROY

/-- The objects `Render` dereferences are present, the staging buffer can be mapped, the
pixel and staging buffers hold the `width * height * 4` bytes that are copied, and the
back buffer index is one of the two render targets. -/
def RenderReady (env : RenderEnv) (g : Internal) : Prop :=
  g.commandQueue.isSome ∧ g.fence.isSome ∧ g.swapChain.isSome ∧
  g.commandAllocator.isSome ∧ g.commandList.isSome ∧
  env.mapOk = true ∧ env.backBufferIndex < 2 ∧
  (∃ up px, g.uploadBuffer = some up ∧ g.Pixels = some px ∧
    wrap32 (g.width * g.height * 4) ≤ up.size ∧ wrap32 (g.width * g.height * 4) ≤ px.size)

/-- The state with the fields written by `WndProc` blanked out. -/
def eraseInput (g : Internal) : Internal :=
  { g with shouldQuit := false, mouseX := 0, mouseY := 0,
           mouseButtons := fun _ => false, keys := fun _ => false }

/-- The state with the frame timing fields and the call log blanked out. -/
def eraseTiming (g : Internal) : Internal :=
  { g with lastDeltaTime := Fp.nan, lastFrameTime := 0, frameTimeSum := Fp.nan, frameCount := 0,
           averageFPS := Fp.nan, titleUpdateTimer := Fp.nan, calls := [] }

/-! ## A concrete run -/

/-- A desktop of 1920 x 1080 whose windows have no border. -/
def demoDesk : Desktop :=
  { adjustWindowRect := fun r _ => r, screenWidth := 1920, screenHeight := 1080,
    monitor := ⟨0, 0, 1920, 1080⟩ }

/-- An `Init` environment in which every creation succeeds. -/
def demoInitEnv : InitEnv :=
  { desk := demoDesk, malloc := some 4096, garbage := fun _ => 0, hwnd := some 1,
    device := some 2, commandQueue := some 3, factory := some 4, factory5 := some 5,
    allowTearing := some true, swapChain1 := some 6, swapChain := some 7,
    backBufferIndex := 0, rtvHeap := some 8, rtvDescriptorSize := 32,
    renderTarget0 := some 9, renderTarget1 := some 10, commandAllocator := some 11,
    commandList := some 12, uploadBuffer := some 13, fence := some 14,
    fenceEvent := some 15, perfFrequency := 10, perfCounter := 100 }

/-- The state after `Init(4, 2, false)` at process start in `demoInitEnv`. -/
def demoState : Internal :=
  match Init demoInitEnv 4 2 false startup with
  | some (_, g) => g
  | none => startup

/-- The environment `demoInitEnv`, except that `D3D12CreateDevice` fails. -/
def noDeviceEnv : InitEnv := { demoInitEnv with device := none }

/-- A `Render` environment delivering the given messages one timer tick after `Init`. -/
def demoRenderEnv (msgs : List MSG) : RenderEnv :=
  { currentTime := 101, messages := msgs, completedValue := 0, backBufferIndex := 1,
    mapOk := true }

/-- A frame in which key 65 and the left button go down and the mouse moves to (3, 1). -/
def demoInputEnv : RenderEnv :=
  demoRenderEnv [keyDown 65, ⟨.WM_LBUTTONDOWN, 0, 0, ⟨0, 0, 0, 0⟩⟩,
    ⟨.WM_MOUSEMOVE, 0, 65539, ⟨0, 0, 0, 0⟩⟩]

/-- A `SetSize` environment in which the allocation and every GPU operation succeed. -/
def demoSizeEnv : SetSizeEnv :=
  { desk := demoDesk, completedValue := 0, realloc := some 8192, garbage := fun _ => 0,
    resizeOk := true, renderTarget0 := some 16, renderTarget1 := some 17,
    uploadBuffer := some 18, backBufferIndex := 0 }

/-- The close message. -/
def closeMsg : MSG := ⟨.WM_CLOSE, 0, 0, ⟨0, 0, 0, 0⟩⟩

/-- A `Shutdown` environment in which `DestroyWindow` hands no message to `WndProc`. -/
def demoShutdownEnv : ShutdownEnv := { completedValue := 0, destroyMessages := [] }

/-- The state left by `Render` (the state itself where `Render` does not return). -/
def afterRender (env : RenderEnv) (g : Internal) : Internal :=
  match Render env g with
  | some (_, g1) => g1
  | none => g

/-- Whether an API call sets the style or the placement of the window. -/
def isWindowCall (c : Api) : Bool :=
  match c with
  | .SetWindowLongW _ _ => true
  | .SetWindowPos _ _ _ _ _ => true
  | _ => false

/-- No window, no GPU object, no fence event and no pixel buffer is held: every handle and
pointer that `Shutdown` tests is null. -/
def NoResources (g : Internal) : Prop :=
  g.hwnd = none ∧ g.device = none ∧ g.commandQueue = none ∧ g.swapChain = none ∧
  g.rtvHeap = none ∧ g.renderTargets0 = none ∧ g.renderTargets1 = none ∧
  g.commandAllocator = none ∧ g.commandList = none ∧ g.uploadBuffer = none ∧
  g.fence = none ∧ g.fenceEvent = none ∧ g.Pixels = none

/-- The guarded fence handshake at the start of `SetSize`. -/
def setSizeWait (env : SetSizeEnv) (g : Internal) : Internal :=
  if g.fence.isSome ∧ g.commandQueue.isSome then waitForGpu env.completedValue g else g

/-- The guarded releases of `SetSize`: both render targets and the upload buffer. -/
def setSizeRelease (g : Internal) : Internal :=
  let g := if g.renderTargets0.isSome then
      logCalls { g with renderTargets0 := none } [.Release .renderTarget0] else g
  let g := if g.renderTargets1.isSome then
      logCalls { g with renderTargets1 := none } [.Release .renderTarget1] else g
  if g.uploadBuffer.isSome then
    logCalls { g with uploadBuffer := none } [.Release .uploadBuffer] else g

/-- The reallocation of the pixel buffer in `SetSize`. -/
def setSizeRealloc (env : SetSizeEnv) (width height : Nat) (g : Internal) : Internal :=
  let size := wrap32 (width * height * 4)
  let old := g.Pixels
  logCalls
    { g with Pixels := env.realloc.map fun a =>
        ⟨a, size, fun i => match old with
                           | some b => if i < b.size then b.data i else env.garbage i
                           | none => env.garbage i⟩ }
    [.realloc (old.map Block.addr) size env.realloc]

/-- The update of the dimensions and the call `ResizeBuffers` of `SetSize`. -/
def setSizeResize (env : SetSizeEnv) (width height : Nat) (g : Internal) : Internal :=
  let g := { g with width := width, height := height }
  let flags := if g.tearingSupported then DXGI_SWAP_CHAIN_FLAG_ALLOW_TEARING else 0
  logCalls g [.ResizeBuffers width height flags env.resizeOk]

/-- The first `GetBuffer` of `SetSize`. -/
def setSizeTarget0 (env : SetSizeEnv) (g : Internal) : Internal :=
  logCalls { g with renderTargets0 := env.renderTarget0 }
    [.Create .renderTarget0 env.renderTarget0]

/-- The second `GetBuffer` of `SetSize`. -/
def setSizeTarget1 (env : SetSizeEnv) (g : Internal) : Internal :=
  logCalls { g with renderTargets1 := env.renderTarget1 }
    [.CreateRenderTargetView .renderTarget0, .Create .renderTarget1 env.renderTarget1]

/-- The recreation of the upload buffer in `SetSize`. -/
def setSizeUpload (env : SetSizeEnv) (width height : Nat) (g : Internal) : Internal :=
  let size := wrap32 (width * height * 4)
  logCalls
    { g with uploadBuffer := env.uploadBuffer.map fun a => ⟨a, size, env.garbage⟩ }
    [.CreateRenderTargetView .renderTarget1, .CreateCommittedResource size env.uploadBuffer]

/-- The end of `SetSize`: frame index, and the window resize when not fullscreen. -/
def setSizeFinish (env : SetSizeEnv) (width height : Nat) (g : Internal) : Internal :=
  let g := logCalls { g with frameIndex := env.backBufferIndex } [.GetCurrentBackBufferIndex]
  if !g.isFullscreen then
    let rect := env.desk.adjustWindowRect ⟨0, 0, toInt32 width, toInt32 height⟩ windowedStyle
    let windowWidth := rect.right - rect.left
    let windowHeight := rect.bottom - rect.top
    let x := Int.tdiv (env.desk.screenWidth - windowWidth) 2
    let y := Int.tdiv (env.desk.screenHeight - windowHeight) 2
    logCalls g [.SetWindowPos g.hwnd x y windowWidth windowHeight]
  else g

/-- The function `SetSize`, written with its sections. -/
def setSizeSections (env : SetSizeEnv) (width height : Nat) (g : Internal) :
    Option (Option Block × Internal) :=
  if width = g.width ∧ height = g.height then some (g.Pixels, g) else
  let g := setSizeRealloc env width height (setSizeRelease (setSizeWait env g))
  if g.Pixels.isNone then some (none, g) else
  if g.swapChain.isNone then none else
  let g := setSizeResize env width height g
  if !env.resizeOk then some (none, g) else
  if g.rtvHeap.isNone then none else
  let g := setSizeTarget0 env g
  if env.renderTarget0.isNone then some (none, g) else
  if g.device.isNone then none else
  let g := setSizeTarget1 env g
  if env.renderTarget1.isNone then some (none, g) else
  let g := setSizeUpload env width height g
  if env.uploadBuffer.isNone then some (none, g) else
  let g := setSizeFinish env width height g
  some (g.Pixels, g)

/-- Whether an API call is a `Present`. -/
def isPresent (c : Api) : Bool :=
  match c with
  | .Present _ _ => true
  | _ => false

/-- The fence value `Shutdown` leaves: incremented when the fence handshake runs. -/
def shutdownFenceValue (g : Internal) : Nat :=
  if g.fence.isSome ∧ g.commandQueue.isSome then wrap64 (g.fenceValue + 1) else g.fenceValue

/-- The calls of the fence handshake `waitForGpu` at fence value `v`. -/
def waitCalls (completedValue v : Nat) : List Api :=
  [.Signal v, .GetCompletedValue completedValue] ++
    (if completedValue < v then [.SetEventOnCompletion v, .WaitForSingleObject] else [])

/-- The calls of the fence handshake guarded by `if (fence && commandQueue)`, as issued by
`SetSize` and `Shutdown` in state `g`. -/
def guardedWaitCalls (completedValue : Nat) (g : Internal) : List Api :=
  if g.fence.isSome ∧ g.commandQueue.isSome then waitCalls completedValue g.fenceValue else []

/-- The call `Release` on object `o`, issued when the guard `p` holds. -/
def releaseCall (p : Bool) (o : Obj) : List Api := if p then [.Release o] else []

/-- The calls `Shutdown` issues in state `g`, in order: the guarded fence handshake, the
guarded `CloseHandle` and `Release` calls, the guarded `DestroyWindow` and
`UnregisterClassW`, and `free`. -/
def shutdownCalls (env : ShutdownEnv) (g : Internal) : List Api :=
  guardedWaitCalls env.completedValue g ++
  (if g.fenceEvent.isSome then [.CloseHandle g.fenceEvent] else []) ++
  releaseCall g.fence.isSome .fence ++
  releaseCall g.uploadBuffer.isSome .uploadBuffer ++
  releaseCall g.commandList.isSome .commandList ++
  releaseCall g.commandAllocator.isSome .commandAllocator ++
  releaseCall g.renderTargets0.isSome .renderTarget0 ++
  releaseCall g.renderTargets1.isSome .renderTarget1 ++
  releaseCall g.rtvHeap.isSome .rtvHeap ++
  releaseCall g.swapChain.isSome .swapChain ++
  releaseCall g.commandQueue.isSome .commandQueue ++
  releaseCall g.device.isSome .device ++
  (if g.hwnd.isSome then [.DestroyWindow g.hwnd, .UnregisterClassW] else []) ++
  [.free (g.Pixels.map Block.addr)]

/-- The calls of the GPU part of `Render` in state `g`: the fence handshake, the back buffer
query, the upload of `n` bytes, the recording and execution of the copy, the present. -/
def presentCalls (env : RenderEnv) (g : Internal) : List Api :=
  waitCalls env.completedValue g.fenceValue ++
  [.GetCurrentBackBufferIndex, .Map true, .memcpy (wrap32 (g.width * g.height * 4)), .Unmap,
   .AllocatorReset, .ListReset,
   .ResourceBarrier env.backBufferIndex true,
   .CopyTextureRegion env.backBufferIndex g.width g.height (wrap32 (g.width * 4)),
   .ResourceBarrier env.backBufferIndex false,
   .ListClose, .ExecuteCommandLists,
   .Present (if g.vsyncEnabled then 1 else 0)
     (if !g.vsyncEnabled && g.tearingSupported then DXGI_PRESENT_ALLOW_TEARING else 0)]

/-- The state after a frame of `demoState` in which key 65 goes down and the window is
closed. -/
def demoClosed : Internal := afterRender (demoRenderEnv [keyDown 65, closeMsg]) demoState

/-- The state after `Init(4, 2, false)` in `demoInitEnv`, called in state `g`. -/
def reinit (g : Internal) : Internal :=
  match Init demoInitEnv 4 2 false g with
  | some (_, g1) => g1
  | none => g

/-- The state with the fields written by `SetSize` blanked out. -/
def eraseSize (g : Internal) : Internal :=
  { g with width := 0, height := 0, renderTargets0 := none, renderTargets1 := none,
           uploadBuffer := none, fenceValue := 0, frameIndex := 0, Pixels := none, calls := [] }

/-- Whether an API call submits a command list to the GPU. -/
def isExecute (c : Api) : Bool :=
  match c with
  | .ExecuteCommandLists => true
  | _ => false

/-- Whether an API call is the fence `Signal`. -/
def isSignal (c : Api) : Bool :=
  match c with
  | .Signal _ => true
  | _ => false

/-- Whether an API call rewrites or releases a resource that a submitted command list
uses: the `memcpy` into the staging buffer, the resets of the command allocator and of the
command list, the releases of the two render targets and of the upload buffer. -/
def isHazard (c : Api) : Bool :=
  match c with
  | .memcpy _ => true
  | .AllocatorReset => true
  | .ListReset => true
  | .Release o => o = .renderTarget0 || o = .renderTarget1 || o = .uploadBuffer
  | _ => false

/-- Whether an API call is `CreateFence`, which makes `fence` point to a new fence whose
value is 0. -/
def isFenceCreate (c : Api) : Bool :=
  match c with
  | .Create o _ => o = .fence
  | _ => false

/-- What the call log says about the GPU and the fence that `fence` points to.
`inFlight`: a command list has been submitted and the CPU has not yet seen the fence reach a
value signalled after that submission.  `safe`: so far no command list was submitted and no
resource of a command list was rewritten or released while one was in flight.
`increasing`: so far every `Signal` passed a value above every value the fence had held.
`top`: the largest value the fence has held or been signalled.  `marker`: the value of a
`Signal` issued after the last submission and above every earlier value of the fence, so
that the fence reaches it only when the submitted command list has completed.  `armed`:
the value for which `SetEventOnCompletion` has set the fence event to fire. -/
structure GpuTrack where
  inFlight : Bool
  safe : Bool
  increasing : Bool
  top : Nat
  marker : Option Nat
  armed : Option Nat
  deriving DecidableEq, Repr

/-- Whether a fence value `c` that the CPU has observed shows that the marker is reached. -/
def markerReached (marker : Option Nat) (c : Nat) : Bool :=
  match marker with
  | some m => decide (m ≤ c)
  | none => false

/-- One call of the log.  A submission puts a command list in flight.  Only an observation
ends that: `GetCompletedValue` answering a value not below the marker, or
`WaitForSingleObject` returning on the event armed for such a value.  A bare `Signal` only
sets the marker, and only if its value is above every earlier value of the fence. -/
def gpuStep (t : GpuTrack) (c : Api) : GpuTrack :=
  match c with
  | .ExecuteCommandLists =>
    { t with inFlight := true, safe := t.safe && !t.inFlight, marker := none }
  | .Signal v =>
    if t.top < v then { t with top := v, marker := some v } else { t with increasing := false }
  | .GetCompletedValue cv =>
    if markerReached t.marker cv then { t with inFlight := false } else t
  | .SetEventOnCompletion v => { t with armed := some v }
  | .WaitForSingleObject =>
    match t.armed with
    | some a =>
      if markerReached t.marker a then { t with inFlight := false, armed := none }
      else { t with armed := none }
    | none => t
  | c =>
    if isFenceCreate c then { t with top := 0, marker := none, armed := none }
    else if isHazard c then { t with safe := t.safe && !t.inFlight }
    else t

/-- The GPU state after a call log, starting from an idle GPU and a fence at 0. -/
def gpuTrack (calls : List Api) : GpuTrack :=
  calls.foldl gpuStep ⟨false, true, true, 0, none, none⟩

/-- The values passed to `Signal`, in order. -/
def signalsOf (calls : List Api) : List Nat :=
  calls.filterMap fun c =>
    match c with
    | .Signal v => some v
    | _ => none

/-- Whether an API call neither submits a command list, nor signals the fence, nor creates
a fence. -/
def isQuiet (c : Api) : Bool := !isExecute c && !isSignal c && !isFenceCreate c

/-- The log `new` continues `old` with calls that neither submit, nor signal, nor create a
fence. -/
def Follows (old new : List Api) : Prop :=
  ∃ cs, new = old ++ cs ∧ cs.all isQuiet = true

/-- The log `new` continues `old` with such calls, among them one `CreateFence` call
answering `f`. -/
def FollowsFence (f : Ptr) (old new : List Api) : Prop :=
  ∃ cs1 cs2, new = old ++ cs1 ++ [.Create .fence f] ++ cs2 ∧ cs1.all isQuiet = true ∧
    cs2.all isQuiet = true

/-- The fence invariant of a state.  Nothing unsafe has happened: whenever a command list
was submitted, or a resource of a command list rewritten or released, the CPU had seen the
fence reach a value signalled after the previous submission.  The values signalled to each
fence were increasing.  A command list is in flight only while the fence and the command
queue are held, and the stored fence value is above every value of the fence. -/
def FenceInv (g : Internal) : Prop :=
  (gpuTrack g.calls).safe = true ∧ (gpuTrack g.calls).increasing = true ∧
  ((gpuTrack g.calls).inFlight = true → g.fence.isSome = true ∧ g.commandQueue.isSome = true) ∧
  (g.fence.isSome = true → (gpuTrack g.calls).top < g.fenceValue)

/-- A call of one of the four functions, with the answers of the system. -/
inductive Call where
  | init (env : InitEnv) (width height : Nat) (fullscreen : Bool)
  | render (env : RenderEnv)
  | setSize (env : SetSizeEnv) (width height : Nat)
  | shutdown (env : ShutdownEnv)

/-- Whether a call is a call of `Init`. -/
def Call.isInit (c : Call) : Bool :=
  match c with
  | .init _ _ _ _ => true
  | _ => false

/-- The state after a call (`none`: the call dereferences a null pointer). -/
def perform (g : Internal) (c : Call) : Option Internal :=
  match c with
  | .init env width height fullscreen => (Init env width height fullscreen g).map Prod.snd
  | .render env => (Render env g).map Prod.snd
  | .setSize env width height => (SetSize env width height g).map Prod.snd
  | .shutdown env => some (Shutdown env g)

/-- The state after a sequence of calls. -/
def performAll (g : Internal) (cs : List Call) : Option Internal :=
  match cs with
  | [] => some g
  | c :: cs => (perform g c).bind fun g1 => performAll g1 cs

/-- Whether, in a sequence of calls, `Init` is only called while no command list is in
flight. -/
def orderly (g : Internal) (cs : List Call) : Bool :=
  match cs with
  | [] => true
  | c :: cs =>
    (!c.isInit || !(gpuTrack g.calls).inFlight) &&
    match perform g c with
    | some g1 => orderly g1 cs
    | none => true

/-- During `SetSize`, after the fence handshake: the calls since then neither submit nor
signal, the fence value is `v`, and the globals that `SetSize` does not write are those of
`g`. -/
def Resizing (g : Internal) (base : List Api) (v : Nat) (x : Internal) : Prop :=
  Follows base x.calls ∧ x.fenceValue = v ∧ eraseSize x = eraseSize g

/-- A run: `Init`, a frame, a resize to 8 x 2, a frame, `Shutdown`, `Init` again, a frame. -/
def demoCalls : List Call :=
  [.init demoInitEnv 4 2 false, .render (demoRenderEnv []), .setSize demoSizeEnv 8 2,
   .render (demoRenderEnv []), .shutdown demoShutdownEnv, .init demoInitEnv 4 2 false,
   .render (demoRenderEnv [])]

/-- The state after the run `demoCalls` from the startup state. -/
def demoRun : Internal := (performAll startup demoCalls).getD startup

/-- A run without `Init`: a frame, a resize to 8 x 2, a frame. -/
def demoFrames : List Call :=
  [.render (demoRenderEnv []), .setSize demoSizeEnv 8 2, .render (demoRenderEnv [])]

/-- The state after the run `demoFrames` from `demoState`. -/
def demoFramesRun : Internal := (performAll demoState demoFrames).getD demoState

/-- The floating point value `x` is the natural number `c`, held exactly with a
non-positive exponent. -/
def Exact (c : Nat) (x : Fp) : Prop :=
  ∃ j : Nat, x = Fp.fin ((c * 2 ^ j : Nat) : Int) (-(j : Int))

/-- A fullscreen state with a buffer of 4099 x 4099 pixels. -/
def wideState : Internal := { startup with isFullscreen := true, width := 4099, height := 4099 }

/-- A mouse move to the raw position (4095, 4095) in a client area of 4099 x 4099. -/
def wideMove : MSG := ⟨.WM_MOUSEMOVE, 0, 4095 + 65536 * 4095, ⟨0, 0, 4099, 4099⟩⟩

/-- A fullscreen state with a buffer of 7680 x 2160 pixels. -/
def ultraState : Internal := { startup with isFullscreen := true, width := 7680, height := 2160 }

/-- A mouse move to the raw position (7679, 2159) in a client area of 7680 x 2160. -/
def ultraMove : MSG := ⟨.WM_MOUSEMOVE, 0, 7679 + 65536 * 2159, ⟨0, 0, 7680, 2160⟩⟩

/-- A mouse move whose `lParam` is `0xFFFF8000`: low word `0x8000`,
high word `0xFFFF`. -/
def signedMove : MSG := ⟨.WM_MOUSEMOVE, 0, 4294934528, ⟨0, 0, 0, 0⟩⟩

/-! ## Vocabulary of the frame timing -/

/-- The frame time that `Render` computes at performance counter value `currentTime`. -/
def frameDelta (currentTime : Int) (g : Internal) : Fp :=
  Fp.div f64 (Fp.ofInt f64 (currentTime - g.lastFrameTime)) (Fp.ofInt f64 g.perfFrequency)

/-- Whether the accumulated frame time reaches one second in this `Render` call, so that
the average FPS is computed. -/
def secondElapsed (currentTime : Int) (g : Internal) : Bool :=
  Fp.ge (Fp.add f64 g.frameTimeSum (frameDelta currentTime g)) (Fp.fin 1 0)

/-- Whether the title timer reaches 0.25 s in this `Render` call, so that the title is
updated. -/
def titleDue (currentTime : Int) (g : Internal) : Bool :=
  Fp.ge (Fp.add f64 g.titleUpdateTimer (frameDelta currentTime g)) (Fp.fin 1 (-2))

/-- Whether an API call sets the window title. -/
def isTitleCall (c : Api) : Bool :=
  match c with
  | .SetWindowTextA _ _ _ _ => true
  | _ => false

/-- The floating point value is finite. -/
def Fp.Finite (x : Fp) : Prop := ∃ m e, x = Fp.fin m e

/-- The floating point value is finite and not zero. -/
def Fp.Regular (x : Fp) : Prop := ∃ m e, x = Fp.fin m e ∧ m ≠ 0

/-- The frame timing globals are in order: the performance frequency is not zero, the frame
counter is not negative, the accumulated frame time is finite. -/
def Timed (g : Internal) : Prop :=
  g.perfFrequency ≠ 0 ∧ 0 ≤ g.frameCount ∧ Fp.Finite g.frameTimeSum

/-- A frame half a second after `Init`, with no message. -/
def slowFrameEnv : RenderEnv :=
  { currentTime := 105, messages := [], completedValue := 0, backBufferIndex := 1,
    mapOk := true }

/-- A frame a second and a half after `Init`, with no message. -/
def fullSecondEnv : RenderEnv :=
  { currentTime := 115, messages := [], completedValue := 0, backBufferIndex := 1,
    mapOk := true }

/-! ## Minesweeper: the class `Board` of `Examples/Minesweeper/main.cpp` -/

/-- The static arrays `s_mines`, `s_revealed` and `s_flagged` of class `Board`, of `16 * 16`
elements each.  An array is given by its elements; the indexes from 256 on are outside the
array. -/
structure Board where
  s_mines : Nat → Bool
  s_revealed : Nat → Bool
  s_flagged : Nat → Bool

/-- The enumeration `GameResult`. -/
inductive GameResult where
  | Undecided | Win | Lose
  deriving DecidableEq, Repr

/-- The index expression `y * c_boardSize[0] + x`, evaluated in `unsigned int`. -/
def cellIndex (x y : Int) : Nat := ((y * 16 + x) % 2 ^ 32).toNat

/-- Read of element `i` of an array of 256 elements (`none`: out of bounds). -/
def readCell (a : Nat → Bool) (i : Nat) : Option Bool :=
  if i < 256 then some (a i) else none

/-- Write of element `i` of an array of 256 elements (`none`: out of bounds). -/
def writeCell (a : Nat → Bool) (i : Nat) (v : Bool) : Option (Nat → Bool) :=
  if i < 256 then some (Function.update a i v) else none

/-- The function `Board::Revealed`. -/
def Board.Revealed (b : Board) (x y : Int) : Option Bool := readCell b.s_revealed (cellIndex x y)

/-- The function `Board::Flagged`. -/
def Board.Flagged (b : Board) (x y : Int) : Option Bool := readCell b.s_flagged (cellIndex x y)

/-- The function `Board::Mine`. -/
def Board.Mine (b : Board) (x y : Int) : Option Bool := readCell b.s_mines (cellIndex x y)

/-- The function `Board::GetGameResult`: two loops over `i = 0, ..., 255`, each returning
at the first index at which its test holds. -/
def Board.GetGameResult (b : Board) : GameResult :=
  if (List.range 256).any (fun i => b.s_revealed i && b.s_mines i) then .Lose
  else if (List.range 256).any (fun i => !b.s_revealed i && !b.s_mines i) then .Undecided
  else .Win

/-- The function `Board::OnRightClick`. -/
def Board.OnRightClick (b : Board) (x y : Int) : Option Board :=
  (readCell b.s_flagged (cellIndex x y)).bind fun f =>
    (writeCell b.s_flagged (cellIndex x y) (!f)).map fun a => { b with s_flagged := a }

/-- The test `x < 0 || x >= 16 || y < 0 || y >= 16` of the neighbour loops. -/
def offBoard (x y : Int) : Bool := decide (x < 0) || decide (x ≥ 16) || decide (y < 0) || decide (y ≥ 16)

/-- The function `Board::NumNeighbors`: the loops over `iy = -1, 0, 1` and
`ix = -1, 0, 1`. -/
def Board.NumNeighbors (b : Board) (cellX cellY : Int) : Option Int :=
  ([-1, 0, 1] : List Int).foldlM (fun ret iy =>
    ([-1, 0, 1] : List Int).foldlM (fun ret ix =>
      if ix = 0 ∧ iy = 0 then some ret
      else
        let x := cellX + ix
        let y := cellY + iy
        if offBoard x y then some ret
        else (b.Mine x y).map fun m => if m then ret + 1 else ret) ret) 0

/-- The state of the worklist loop of `OnLeftClick`: the array `s_revealed`, the vector
`checkForReveal` (its back first), and two records that the program does not keep: the
indexes pushed so far (the latest first) and the number of iterations begun. -/
structure Flood where
  s_revealed : Nat → Bool
  checkForReveal : List Nat
  pushed : List Nat
  iterations : Nat

/-- The body of the neighbour loops of `OnLeftClick` for the offset `(ix, iy)`. -/
def revealNeighbor (checkX checkY iy ix : Int) (s : Flood) : Option Flood :=
  if ix = 0 ∧ iy = 0 then some s
  else
    let newX := checkX + ix
    let newY := checkY + iy
    if offBoard newX newY then some s
    else
      (readCell s.s_revealed (cellIndex newX newY)).bind fun r =>
        if !r then
          (writeCell s.s_revealed (cellIndex newX newY) true).map fun a =>
            { s with s_revealed := a,
                     checkForReveal := cellIndex newX newY :: s.checkForReveal,
                     pushed := cellIndex newX newY :: s.pushed }
        else some s

/-- One iteration of the loop `while (!checkForReveal.empty())`. -/
def floodStep (b : Board) (s : Flood) : Option Flood :=
  match s.checkForReveal with
  | [] => none
  | checkIndex :: rest =>
    let s := { s with checkForReveal := rest, iterations := s.iterations + 1 }
    let checkX : Int := ((checkIndex % 16 : Nat) : Int)
    let checkY : Int := ((checkIndex / 16 : Nat) : Int)
    (b.NumNeighbors checkX checkY).bind fun n =>
      if n = 0 then
        ([-1, 0, 1] : List Int).foldlM (fun s iy =>
          ([-1, 0, 1] : List Int).foldlM (fun s ix =>
            revealNeighbor checkX checkY iy ix s) s) s
      else some s

/-- The loop `while (!checkForReveal.empty())`, for at most `fuel` iterations (`none`: the
vector is not empty after `fuel` iterations, or an index was out of bounds). -/
def floodLoop (b : Board) : Nat → Flood → Option Flood
  | 0, s => if s.checkForReveal.isEmpty then some s else none
  | fuel + 1, s =>
    if s.checkForReveal.isEmpty then some s else (floodStep b s).bind (floodLoop b fuel)

/-- The function `Board::OnLeftClick`, its loop run for at most `fuel` iterations.  The
result is the board and the final state of the loop. -/
def Board.OnLeftClick (fuel : Nat) (b : Board) (x y : Int) : Option (Board × Flood) :=
  (writeCell b.s_revealed (cellIndex x y) true).bind fun a =>
    let b := { b with s_revealed := a }
    (b.Mine x y).bind fun m =>
      if m then some (b, ⟨a, [], [], 0⟩)
      else
        (floodLoop b fuel ⟨a, [cellIndex x y], [cellIndex x y], 0⟩).map fun s =>
          ({ b with s_revealed := s.s_revealed }, s)

/-- The invariant of the worklist loop, for the mines `mines`, the array `rev0` at the entry
of the loop and the clicked index `c`: no revealed cell is cleared; a cell revealed since is
on the board and no mine; the vector holds indexes of the board; the indexes pushed are
distinct, on the board and revealed, and all but the first were unrevealed at the entry; as
many indexes were pushed as were popped or are in the vector. -/
def FloodInv (mines rev0 : Nat → Bool) (c : Nat) (s : Flood) : Prop :=
  (∀ i, rev0 i = true → s.s_revealed i = true) ∧
  (∀ i, s.s_revealed i = true → rev0 i = true ∨ (i < 256 ∧ mines i = false)) ∧
  (∀ i ∈ s.checkForReveal, i < 256) ∧
  s.pushed.Nodup ∧
  (∀ i ∈ s.pushed, i < 256 ∧ s.s_revealed i = true) ∧
  (∃ l, s.pushed = l ++ [c] ∧ ∀ i ∈ l, rev0 i = false) ∧
  s.pushed.length = s.checkForReveal.length + s.iterations

/-- A board whose cells are mines except the four cells of the corner `x < 2`, `y < 2`;
nothing revealed, nothing flagged. -/
def cornerBoard : Board :=
  { s_mines := fun i => decide (2 ≤ i % 16 ∨ 2 ≤ i / 16),
    s_revealed := fun _ => false,
    s_flagged := fun _ => false }

/-! # Theorems -/

/-! ## The window procedure and the message loop -/

theorem eraseInput_WndProc (g : Internal) (m : MSG) : eraseInput (WndProc g m) = eraseInput g := by
  unfold WndProc
  split <;> (try split) <;> rfl

theorem eraseInput_processMessages (msgs : List MSG) (g : Internal) :
    eraseInput (processMessages msgs g) = eraseInput g := by
  induction msgs generalizing g with
  | nil => rfl
  | cons m ms ih =>
    show eraseInput (processMessages ms (WndProc g m)) = eraseInput g
    rw [ih, eraseInput_WndProc]

theorem eraseTiming_frameTiming (t : Int) (g : Internal) :
    eraseTiming (frameTiming t g) = eraseTiming g := by
  unfold frameTiming
  simp only []
  split <;> split <;> rfl

theorem processMessages_append (xs ys : List MSG) (g : Internal) :
    processMessages (xs ++ ys) g = processMessages ys (processMessages xs g) := by
  simp [processMessages, List.foldl_append]

theorem processMessages_cons (m : MSG) (ms : List MSG) (g : Internal) :
    processMessages (m :: ms) g = processMessages ms (WndProc g m) := rfl

/-- The effect of `WndProc` on the key array only depends on the key array. -/
theorem WndProc_keys_congr {g1 g2 : Internal} (m : MSG) (h : g1.keys = g2.keys) :
    (WndProc g1 m).keys = (WndProc g2 m).keys := by
  unfold WndProc
  cases m.message <;> simp only [] <;> (try split) <;> (try split) <;>
    first | exact h | contradiction | simp [h]

theorem processMessages_keys_congr (msgs : List MSG) {g1 g2 : Internal} (h : g1.keys = g2.keys) :
    (processMessages msgs g1).keys = (processMessages msgs g2).keys := by
  induction msgs generalizing g1 g2 with
  | nil => exact h
  | cons m ms ih => exact ih (WndProc_keys_congr m h)

theorem WndProc_mouseButtons_congr {g1 g2 : Internal} (m : MSG)
    (h : g1.mouseButtons = g2.mouseButtons) :
    (WndProc g1 m).mouseButtons = (WndProc g2 m).mouseButtons := by
  unfold WndProc
  cases m.message <;> simp only [] <;> (try split) <;> (try split) <;>
    first | exact h | contradiction | simp [h]

theorem processMessages_mouseButtons_congr (msgs : List MSG) {g1 g2 : Internal}
    (h : g1.mouseButtons = g2.mouseButtons) :
    (processMessages msgs g1).mouseButtons = (processMessages msgs g2).mouseButtons := by
  induction msgs generalizing g1 g2 with
  | nil => exact h
  | cons m ms ih => exact ih (WndProc_mouseButtons_congr m h)

theorem WndProc_keys_of_not_event (g : Internal) (m : MSG) (k : Nat) (hk : k < 256)
    (h : isKeyEvent k m = false) : (WndProc g m).keys ⟨k, hk⟩ = g.keys ⟨k, hk⟩ := by
  have hne : m.message = .WM_KEYDOWN ∨ m.message = .WM_KEYUP → m.wParam ≠ k := by
    intro hm e
    simp [isKeyEvent, hm, e] at h
  unfold WndProc
  cases hm : m.message <;> simp only [] <;> try rfl
  case WM_MOUSEMOVE => split <;> rfl
  case WM_KEYDOWN =>
    split
    · simp only []
      rw [Function.update_noteq]
      intro e
      exact hne (Or.inl hm) (congrArg Fin.val e).symm
    · rfl
  case WM_KEYUP =>
    split
    · simp only []
      rw [Function.update_noteq]
      intro e
      exact hne (Or.inr hm) (congrArg Fin.val e).symm
    · rfl

theorem processMessages_keys_of_no_event (msgs : List MSG) (g : Internal) (k : Nat) (hk : k < 256)
    (h : ∀ x ∈ msgs, isKeyEvent k x = false) :
    (processMessages msgs g).keys ⟨k, hk⟩ = g.keys ⟨k, hk⟩ := by
  induction msgs generalizing g with
  | nil => rfl
  | cons m ms ih =>
    rw [processMessages_cons, ih _ (fun x hx => h x (List.mem_cons_of_mem _ hx)),
      WndProc_keys_of_not_event _ _ _ _ (h m (List.mem_cons_self _ _))]

theorem WndProc_keyDown (g : Internal) (m : MSG) (k : Nat) (hk : k < 256)
    (hm : m.message = .WM_KEYDOWN) (hw : m.wParam = k) : (WndProc g m).keys ⟨k, hk⟩ = true := by
  subst hw
  unfold WndProc
  simp [hm, hk]

theorem WndProc_keyUp (g : Internal) (m : MSG) (k : Nat) (hk : k < 256)
    (hm : m.message = .WM_KEYUP) (hw : m.wParam = k) : (WndProc g m).keys ⟨k, hk⟩ = false := by
  subst hw
  unfold WndProc
  simp [hm, hk]

theorem WndProc_buttons_of_not_event (g : Internal) (m : MSG) (b : Fin 3)
    (h : isButtonEvent b m = false) : (WndProc g m).mouseButtons b = g.mouseButtons b := by
  unfold isButtonEvent at h
  unfold WndProc
  split <;> (try split) <;> try rfl
  all_goals
    rename_i hm
    simp only []
    rw [Function.update_noteq]
    rintro rfl
    simp [hm, buttonDown, buttonUp] at h

theorem processMessages_buttons_of_no_event (msgs : List MSG) (g : Internal) (b : Fin 3)
    (h : ∀ x ∈ msgs, isButtonEvent b x = false) :
    (processMessages msgs g).mouseButtons b = g.mouseButtons b := by
  induction msgs generalizing g with
  | nil => rfl
  | cons m ms ih =>
    rw [processMessages_cons, ih _ (fun x hx => h x (List.mem_cons_of_mem _ hx)),
      WndProc_buttons_of_not_event _ _ _ (h m (List.mem_cons_self _ _))]

theorem WndProc_buttonDown (g : Internal) (m : MSG) (b : Fin 3)
    (hm : m.message = buttonDown b) : (WndProc g m).mouseButtons b = true := by
  unfold WndProc
  fin_cases b <;> simp [buttonDown] at hm <;> simp [hm]

theorem WndProc_buttonUp (g : Internal) (m : MSG) (b : Fin 3)
    (hm : m.message = buttonUp b) : (WndProc g m).mouseButtons b = false := by
  unfold WndProc
  fin_cases b <;> simp [buttonUp] at hm <;> simp [hm]

theorem WndProc_shouldQuit (g : Internal) (m : MSG) :
    (WndProc g m).shouldQuit = (g.shouldQuit || isQuitEvent m) := by
  unfold WndProc isQuitEvent
  split <;> (try split) <;> simp_all

theorem processMessages_shouldQuit (msgs : List MSG) (g : Internal) :
    (processMessages msgs g).shouldQuit = (g.shouldQuit || msgs.any isQuitEvent) := by
  induction msgs generalizing g with
  | nil => simp [processMessages]
  | cons m ms ih =>
    rw [processMessages_cons, ih, WndProc_shouldQuit, List.any_cons, Bool.or_assoc]

/-! ## Render -/

theorem frameTiming_lastFrameTime (t : Int) (g : Internal) :
    (frameTiming t g).lastFrameTime = t := by
  unfold frameTiming
  simp only []
  split <;> split <;> rfl

/-- The steps of `Render` before the quit check write the previous-frame snapshot, the
timing fields, the call log and the fields of `WndProc`, nothing else. -/
theorem pollFrame_eq (env : RenderEnv) (g : Internal) :
    ∃ (dt fs fps tt : Fp) (fc : Int) (cs : List Api) (q : Bool) (mx my : Int)
      (mb : Fin 3 → Bool) (ks : Fin 256 → Bool),
      pollFrame env g =
        { g with prevMouseX := g.mouseX, prevMouseY := g.mouseY,
                 prevMouseButtons := g.mouseButtons, prevKeys := g.keys,
                 lastDeltaTime := dt, lastFrameTime := env.currentTime, frameTimeSum := fs,
                 frameCount := fc, averageFPS := fps, titleUpdateTimer := tt, calls := cs,
                 shouldQuit := q, mouseX := mx, mouseY := my, mouseButtons := mb, keys := ks } := by
  have e1 := eraseInput_processMessages env.messages (frameTiming env.currentTime (copyInputState g))
  have e2 := eraseTiming_frameTiming env.currentTime (copyInputState g)
  have e3 := frameTiming_lastFrameTime env.currentTime (copyInputState g)
  refine ⟨(pollFrame env g).lastDeltaTime, (pollFrame env g).frameTimeSum,
    (pollFrame env g).averageFPS, (pollFrame env g).titleUpdateTimer,
    (pollFrame env g).frameCount, (pollFrame env g).calls, (pollFrame env g).shouldQuit,
    (pollFrame env g).mouseX, (pollFrame env g).mouseY, (pollFrame env g).mouseButtons,
    (pollFrame env g).keys, ?_⟩
  unfold pollFrame
  generalize processMessages env.messages (frameTiming env.currentTime (copyInputState g)) = p
    at e1 ⊢
  generalize frameTiming env.currentTime (copyInputState g) = f at e1 e2 e3
  cases p; cases f; cases g
  simp only [eraseInput, eraseTiming, copyInputState, Internal.mk.injEq] at e1 e2 e3 ⊢
  simp_all

theorem pollFrame_keys (env : RenderEnv) (g : Internal) :
    (pollFrame env g).keys = (processMessages env.messages g).keys := by
  have e0 := congrArg Internal.keys (eraseTiming_frameTiming env.currentTime (copyInputState g))
  have e : (frameTiming env.currentTime (copyInputState g)).keys = g.keys := e0
  exact processMessages_keys_congr env.messages e

theorem pollFrame_mouseButtons (env : RenderEnv) (g : Internal) :
    (pollFrame env g).mouseButtons = (processMessages env.messages g).mouseButtons := by
  have e0 := congrArg Internal.mouseButtons (eraseTiming_frameTiming env.currentTime (copyInputState g))
  have e : (frameTiming env.currentTime (copyInputState g)).mouseButtons = g.mouseButtons := e0
  exact processMessages_mouseButtons_congr env.messages e

theorem pollFrame_shouldQuit (env : RenderEnv) (g : Internal) :
    (pollFrame env g).shouldQuit = (g.shouldQuit || env.messages.any isQuitEvent) := by
  have e0 := congrArg Internal.shouldQuit (eraseTiming_frameTiming env.currentTime (copyInputState g))
  have e : (frameTiming env.currentTime (copyInputState g)).shouldQuit = g.shouldQuit := e0
  unfold pollFrame
  rw [processMessages_shouldQuit, e]

theorem presentFrame_eq {env : RenderEnv} {g g' : Internal} {r : Bool}
    (h : presentFrame env g = some (r, g')) :
    r = !g.shouldQuit ∧
    g' = { g with fenceValue := wrap64 (g.fenceValue + 1), frameIndex := env.backBufferIndex,
                  uploadBuffer := g'.uploadBuffer, calls := g'.calls } := by
  unfold presentFrame at h
  split at h
  · simp only [] at h
    split at h
    · split at h
      · simp only [Option.some.injEq, Prod.mk.injEq] at h
        obtain ⟨rfl, rfl⟩ := h
        exact ⟨rfl, rfl⟩
      · exact absurd h (by simp)
    · exact absurd h (by simp)
  · exact absurd h (by simp)

theorem presentFrame_returns {env : RenderEnv} {g : Internal} (h : RenderReady env g) :
    ∃ g', presentFrame env g = some (!g.shouldQuit, g') := by
  obtain ⟨hq, hf, hs, ha, hl, hm, hb, up, px, hup, hpx, h1, h2⟩ := h
  obtain ⟨q, hq⟩ := Option.isSome_iff_exists.mp hq
  obtain ⟨f, hf⟩ := Option.isSome_iff_exists.mp hf
  obtain ⟨s, hs⟩ := Option.isSome_iff_exists.mp hs
  obtain ⟨a, ha⟩ := Option.isSome_iff_exists.mp ha
  obtain ⟨l, hl⟩ := Option.isSome_iff_exists.mp hl
  simp [presentFrame, hq, hf, hs, ha, hl, hup, hpx, waitForGpu, logCalls, hm, hb, h1, h2]

theorem RenderReady_pollFrame {env : RenderEnv} {g : Internal} (h : RenderReady env g) :
    RenderReady env (pollFrame env g) := by
  obtain ⟨dt, fs, fps, tt, fc, cs, q, mx, my, mb, ks, e⟩ := pollFrame_eq env g
  rw [e]
  exact h

/-- In a ready state `Render` returns. -/
theorem Render_returns {env : RenderEnv} {g : Internal} (h : RenderReady env g) :
    ∃ r g', Render env g = some (r, g') := by
  unfold Render
  simp only []
  split
  · exact ⟨_, _, rfl⟩
  · obtain ⟨g', hg'⟩ := presentFrame_returns (RenderReady_pollFrame h)
    exact ⟨_, _, hg'⟩

/-- The two ways in which `Render` returns. -/
theorem Render_cases {env : RenderEnv} {g g' : Internal} {r : Bool}
    (h : Render env g = some (r, g')) :
    ((pollFrame env g).shouldQuit = true ∧ r = false ∧ g' = pollFrame env g) ∨
    ((pollFrame env g).shouldQuit = false ∧ presentFrame env (pollFrame env g) = some (r, g')) := by
  unfold Render at h
  simp only [] at h
  split at h
  · rename_i hq
    simp only [Option.some.injEq, Prod.mk.injEq] at h
    exact Or.inl ⟨hq, h.1.symm, h.2.symm⟩
  · rename_i hq
    exact Or.inr ⟨by simpa using hq, h⟩

/-- The input state `Render` leaves behind. -/
theorem Render_input {env : RenderEnv} {g g' : Internal} {r : Bool}
    (h : Render env g = some (r, g')) :
    g'.keys = (processMessages env.messages g).keys ∧ g'.prevKeys = g.keys ∧
    g'.mouseButtons = (processMessages env.messages g).mouseButtons ∧
    g'.prevMouseButtons = g.mouseButtons ∧
    g'.prevMouseX = g.mouseX ∧ g'.prevMouseY = g.mouseY ∧
    g'.shouldQuit = (g.shouldQuit || env.messages.any isQuitEvent) ∧
    r = !g'.shouldQuit := by
  have hk := pollFrame_keys env g
  have hb := pollFrame_mouseButtons env g
  have hq := pollFrame_shouldQuit env g
  obtain ⟨dt, fs, fps, tt, fc, cs, q, mx, my, mb, ks, e⟩ := pollFrame_eq env g
  have p1 : (pollFrame env g).prevKeys = g.keys := by rw [e]
  have p2 : (pollFrame env g).prevMouseButtons = g.mouseButtons := by rw [e]
  have p3 : (pollFrame env g).prevMouseX = g.mouseX := by rw [e]
  have p4 : (pollFrame env g).prevMouseY = g.mouseY := by rw [e]
  rcases Render_cases h with ⟨h1, rfl, rfl⟩ | ⟨h1, h2⟩
  · exact ⟨hk, p1, hb, p2, p3, p4, hq, by simp [h1]⟩
  · obtain ⟨hr, hg⟩ := presentFrame_eq h2
    rw [hg]
    exact ⟨hk, p1, hb, p2, p3, p4, hq, hr⟩

theorem GetKey_nat (g : Internal) (k : Nat) (hk : k < 256) :
    GetKey g (k : Int) = g.keys ⟨k, hk⟩ := by
  unfold GetKey
  have : (0 : Int) ≤ k ∧ (k : Int) < 256 := ⟨by omega, by omega⟩
  simp [this]

theorem GetKeyLastFrame_nat (g : Internal) (k : Nat) (hk : k < 256) :
    GetKeyLastFrame g (k : Int) = g.prevKeys ⟨k, hk⟩ := by
  unfold GetKeyLastFrame
  have : (0 : Int) ≤ k ∧ (k : Int) < 256 := ⟨by omega, by omega⟩
  simp [this]

theorem GetMouseButton_fin (g : Internal) (b : Fin 3) :
    GetMouseButton g ((b : Nat) : Int) = g.mouseButtons b := by
  unfold GetMouseButton
  have : (0 : Int) ≤ (b : Nat) ∧ ((b : Nat) : Int) < 3 := ⟨by omega, by omega⟩
  simp [this]

theorem GetMouseButtonLastFrame_fin (g : Internal) (b : Fin 3) :
    GetMouseButtonLastFrame g ((b : Nat) : Int) = g.prevMouseButtons b := by
  unfold GetMouseButtonLastFrame
  have : (0 : Int) ≤ (b : Nat) ∧ ((b : Nat) : Int) < 3 := ⟨by omega, by omega⟩
  simp [this]

/-- C1. After `Render` returns, the previous-frame snapshot (`GetKeyLastFrame`,
`GetMouseButtonLastFrame`, `GetMousePositionLastFrame`) reports what the current-frame
queries reported just before the call, whatever messages were processed during the call;
and in every ready state `Render` does return. -/
theorem C1_previous_snapshot (env : RenderEnv) (g : Internal) :
    (RenderReady env g → ∃ r g', Render env g = some (r, g')) ∧
    (∀ r g', Render env g = some (r, g') →
      (∀ k : Int, GetKeyLastFrame g' k = GetKey g k) ∧
      (∀ b : Int, GetMouseButtonLastFrame g' b = GetMouseButton g b) ∧
      GetMousePositionLastFrame g' = GetMousePosition g) := by
  refine ⟨Render_returns, ?_⟩
  intro r g' h
  obtain ⟨-, hk, -, hb, hx, hy, -, -⟩ := Render_input h
  refine ⟨?_, ?_, ?_⟩
  · intro k
    unfold GetKeyLastFrame GetKey
    rw [hk]
  · intro b
    unfold GetMouseButtonLastFrame GetMouseButton
    rw [hb]
  · unfold GetMousePositionLastFrame GetMousePosition
    rw [hx, hy]

theorem demo_RenderReady (msgs : List MSG) : RenderReady (demoRenderEnv msgs) demoState := by
  refine ⟨rfl, rfl, rfl, rfl, rfl, rfl, ?_, ?_⟩
  · show (1 : Nat) < 2
    omega
  · exact ⟨_, _, rfl, rfl, by decide, by decide⟩

/-- Witness for C1: a frame after `Init(4, 2)` in which key 65 and the left button go down
and the mouse moves to (3, 1); the previous-frame queries still report the state before. -/
theorem C1_previous_snapshot_witness :
    RenderReady demoInputEnv demoState ∧
    Render demoInputEnv demoState = some (true, afterRender demoInputEnv demoState) ∧
    GetKey (afterRender demoInputEnv demoState) 65 = true ∧
    GetMousePosition (afterRender demoInputEnv demoState) = (3, 1) ∧
    (∀ k : Int, GetKeyLastFrame (afterRender demoInputEnv demoState) k = GetKey demoState k) ∧
    (∀ b : Int, GetMouseButtonLastFrame (afterRender demoInputEnv demoState) b =
      GetMouseButton demoState b) ∧
    GetMousePositionLastFrame (afterRender demoInputEnv demoState) =
      GetMousePosition demoState :=
  ⟨demo_RenderReady _, rfl, by decide, by decide,
    (C1_previous_snapshot demoInputEnv demoState).2 true (afterRender demoInputEnv demoState) rfl⟩

/-! ## Input edges -/

theorem keys_after_keyDown (g : Internal) (k : Nat) (hk : k < 256) (pre post : List MSG)
    (m : MSG) (hm : m.message = .WM_KEYDOWN) (hw : m.wParam = k)
    (hpost : ∀ x ∈ post, isKeyEvent k x = false) :
    (processMessages (pre ++ m :: post) g).keys ⟨k, hk⟩ = true := by
  rw [processMessages_append, processMessages_cons,
    processMessages_keys_of_no_event _ _ _ _ hpost, WndProc_keyDown _ _ _ _ hm hw]

theorem keys_after_keyUp (g : Internal) (k : Nat) (hk : k < 256) (pre post : List MSG)
    (m : MSG) (hm : m.message = .WM_KEYUP) (hw : m.wParam = k)
    (hpost : ∀ x ∈ post, isKeyEvent k x = false) :
    (processMessages (pre ++ m :: post) g).keys ⟨k, hk⟩ = false := by
  rw [processMessages_append, processMessages_cons,
    processMessages_keys_of_no_event _ _ _ _ hpost, WndProc_keyUp _ _ _ _ hm hw]

theorem buttons_after_buttonDown (g : Internal) (b : Fin 3) (pre post : List MSG)
    (m : MSG) (hm : m.message = buttonDown b)
    (hpost : ∀ x ∈ post, isButtonEvent b x = false) :
    (processMessages (pre ++ m :: post) g).mouseButtons b = true := by
  rw [processMessages_append, processMessages_cons,
    processMessages_buttons_of_no_event _ _ _ hpost, WndProc_buttonDown _ _ _ hm]

/-- C2, counterexample.  Key 32 and the left mouse button are not pressed after `Init`.
Their down messages are delivered during the message drain of one `Render` call, and their
up messages later in the same drain.  After that call `GetKey 32` and `GetMouseButton 0` are
false, not true, and after the following call, in which no message is delivered, they are
false as well. -/
theorem C2_counterexample :
    GetKey demoState 32 = false ∧ GetKeyLastFrame demoState 32 = false ∧
    GetMouseButton demoState 0 = false ∧ GetMouseButtonLastFrame demoState 0 = false ∧
    Render (demoRenderEnv [keyDown 32, ⟨.WM_LBUTTONDOWN, 0, 0, ⟨0, 0, 0, 0⟩⟩, keyUp 32,
        ⟨.WM_LBUTTONUP, 0, 0, ⟨0, 0, 0, 0⟩⟩]) demoState =
      some (true, afterRender (demoRenderEnv [keyDown 32, ⟨.WM_LBUTTONDOWN, 0, 0, ⟨0, 0, 0, 0⟩⟩,
        keyUp 32, ⟨.WM_LBUTTONUP, 0, 0, ⟨0, 0, 0, 0⟩⟩]) demoState) ∧
    GetKey (afterRender (demoRenderEnv [keyDown 32, ⟨.WM_LBUTTONDOWN, 0, 0, ⟨0, 0, 0, 0⟩⟩,
        keyUp 32, ⟨.WM_LBUTTONUP, 0, 0, ⟨0, 0, 0, 0⟩⟩]) demoState) 32 = false ∧
    GetMouseButton (afterRender (demoRenderEnv [keyDown 32,
        ⟨.WM_LBUTTONDOWN, 0, 0, ⟨0, 0, 0, 0⟩⟩, keyUp 32,
        ⟨.WM_LBUTTONUP, 0, 0, ⟨0, 0, 0, 0⟩⟩]) demoState) 0 = false ∧
    GetKey (afterRender (demoRenderEnv []) (afterRender (demoRenderEnv [keyDown 32,
        ⟨.WM_LBUTTONDOWN, 0, 0, ⟨0, 0, 0, 0⟩⟩, keyUp 32,
        ⟨.WM_LBUTTONUP, 0, 0, ⟨0, 0, 0, 0⟩⟩]) demoState)) 32 = false ∧
    GetMouseButton (afterRender (demoRenderEnv []) (afterRender (demoRenderEnv [keyDown 32,
        ⟨.WM_LBUTTONDOWN, 0, 0, ⟨0, 0, 0, 0⟩⟩, keyUp 32,
        ⟨.WM_LBUTTONUP, 0, 0, ⟨0, 0, 0, 0⟩⟩]) demoState)) 0 = false :=
  ⟨by decide, by decide, by decide, by decide, rfl, by decide, by decide, by decide, by decide⟩

/-- C2, amended.  Input edge detection.  Take a key `k < 256` (or a mouse button `b`) that is
not pressed.  If the messages processed by one `Render` call contain its key-down message
and no later message for `k`, then after the call `GetKey k` is true and `GetKeyLastFrame k`
is false; after the following `Render` call in which no message for `k` is processed both
are true. -/
theorem C2_input_edge (g g1 : Internal) (env1 : RenderEnv) (r1 : Bool)
    (h1 : Render env1 g = some (r1, g1)) :
    (∀ (k : Nat) (pre post : List MSG) (m : MSG), k < 256 → GetKey g k = false →
      m.message = .WM_KEYDOWN → m.wParam = k → env1.messages = pre ++ m :: post →
      (∀ x ∈ post, isKeyEvent k x = false) →
      (GetKey g1 k = true ∧ GetKeyLastFrame g1 k = false) ∧
      ∀ (env2 : RenderEnv) (r2 : Bool) (g2 : Internal), Render env2 g1 = some (r2, g2) →
        (∀ x ∈ env2.messages, isKeyEvent k x = false) →
        GetKey g2 k = true ∧ GetKeyLastFrame g2 k = true) ∧
    (∀ (b : Fin 3) (pre post : List MSG) (m : MSG), GetMouseButton g (b : Nat) = false →
      m.message = buttonDown b → env1.messages = pre ++ m :: post →
      (∀ x ∈ post, isButtonEvent b x = false) →
      (GetMouseButton g1 (b : Nat) = true ∧ GetMouseButtonLastFrame g1 (b : Nat) = false) ∧
      ∀ (env2 : RenderEnv) (r2 : Bool) (g2 : Internal), Render env2 g1 = some (r2, g2) →
        (∀ x ∈ env2.messages, isButtonEvent b x = false) →
        GetMouseButton g2 (b : Nat) = true ∧ GetMouseButtonLastFrame g2 (b : Nat) = true) := by
  obtain ⟨hk1, hp1, hb1, hq1, -⟩ := Render_input h1
  constructor
  · intro k pre post m hk h0 hm hw hmsgs hpost
    rw [GetKey_nat g k hk] at h0
    have a1 : GetKey g1 k = true := by
      rw [GetKey_nat g1 k hk, hk1, hmsgs]
      exact keys_after_keyDown g k hk pre post m hm hw hpost
    have a2 : GetKeyLastFrame g1 k = false := by
      rw [GetKeyLastFrame_nat g1 k hk, hp1]
      exact h0
    refine ⟨⟨a1, a2⟩, ?_⟩
    intro env2 r2 g2 h2 hno
    obtain ⟨hk2, hp2, -⟩ := Render_input h2
    rw [GetKey_nat g1 k hk] at a1
    constructor
    · rw [GetKey_nat g2 k hk, hk2, processMessages_keys_of_no_event _ _ _ _ hno]
      exact a1
    · rw [GetKeyLastFrame_nat g2 k hk, hp2]
      exact a1
  · intro b pre post m h0 hm hmsgs hpost
    rw [GetMouseButton_fin g b] at h0
    have a1 : GetMouseButton g1 (b : Nat) = true := by
      rw [GetMouseButton_fin g1 b, hb1, hmsgs]
      exact buttons_after_buttonDown g b pre post m hm hpost
    have a2 : GetMouseButtonLastFrame g1 (b : Nat) = false := by
      rw [GetMouseButtonLastFrame_fin g1 b, hq1]
      exact h0
    refine ⟨⟨a1, a2⟩, ?_⟩
    intro env2 r2 g2 h2 hno
    obtain ⟨-, -, hb2, hq2, -⟩ := Render_input h2
    rw [GetMouseButton_fin g1 b] at a1
    constructor
    · rw [GetMouseButton_fin g2 b, hb2, processMessages_buttons_of_no_event _ _ _ hno]
      exact a1
    · rw [GetMouseButtonLastFrame_fin g2 b, hq2]
      exact a1

/-- Witness for C2: after `Init(4, 2)` one frame processes the key-down of key 65 (followed
by a button and a mouse message), the next frame processes nothing. -/
theorem C2_input_edge_witness :
    Render demoInputEnv demoState = some (true, afterRender demoInputEnv demoState) ∧
    GetKey demoState 65 = false ∧
    (GetKey (afterRender demoInputEnv demoState) 65 = true ∧
      GetKeyLastFrame (afterRender demoInputEnv demoState) 65 = false) ∧
    Render (demoRenderEnv []) (afterRender demoInputEnv demoState) =
      some (true, afterRender (demoRenderEnv []) (afterRender demoInputEnv demoState)) ∧
    (GetKey (afterRender (demoRenderEnv []) (afterRender demoInputEnv demoState)) 65 = true ∧
      GetKeyLastFrame (afterRender (demoRenderEnv []) (afterRender demoInputEnv demoState)) 65
        = true) :=
  have h := (C2_input_edge demoState (afterRender demoInputEnv demoState) demoInputEnv true
    rfl).1 65 [] [⟨.WM_LBUTTONDOWN, 0, 0, ⟨0, 0, 0, 0⟩⟩, ⟨.WM_MOUSEMOVE, 0, 65539, ⟨0, 0, 0, 0⟩⟩]
    (keyDown 65) (by decide) (by decide) rfl rfl rfl (by decide)
  ⟨rfl, by decide, h.1, rfl,
    h.2 (demoRenderEnv []) true _ rfl (by simp [demoRenderEnv])⟩

/-- C3, counterexample.  Key 65 is not pressed after `Init`; its key-down and key-up messages
are both pending when `Render` runs.  After that call `GetKeyLastFrame 65` is false, not
true: the press is lost. -/
theorem C3_counterexample :
    GetKey demoState 65 = false ∧
    Render (demoRenderEnv [keyDown 65, keyUp 65]) demoState =
      some (true, afterRender (demoRenderEnv [keyDown 65, keyUp 65]) demoState) ∧
    GetKey (afterRender (demoRenderEnv [keyDown 65, keyUp 65]) demoState) 65 = false ∧
    GetKeyLastFrame (afterRender (demoRenderEnv [keyDown 65, keyUp 65]) demoState) 65 = false :=
  ⟨by decide, rfl, by decide, by decide⟩

/-- C3, amended.  Let key `k < 256` be not pressed.  (a) If its key-down and key-up messages
are both processed by the same `Render` call (key-up being the last message for `k`), then
after the call both `GetKey k` and `GetKeyLastFrame k` are false.  (b) If the key-down is
processed by one `Render` call and the key-up by the next one, then after the second call
`GetKey k` is false and `GetKeyLastFrame k` is true, and after a third call that processes no
message for `k` both are false. -/
theorem C3_press_release (g g1 : Internal) (env1 : RenderEnv) (r1 : Bool) (k : Nat)
    (hk : k < 256) (h0 : GetKey g k = false) (h1 : Render env1 g = some (r1, g1)) :
    (∀ (pre mid post : List MSG) (d u : MSG),
      d.message = .WM_KEYDOWN → d.wParam = k → u.message = .WM_KEYUP → u.wParam = k →
      env1.messages = pre ++ d :: (mid ++ u :: post) →
      (∀ x ∈ post, isKeyEvent k x = false) →
      GetKey g1 k = false ∧ GetKeyLastFrame g1 k = false) ∧
    (∀ (pre post : List MSG) (d : MSG),
      d.message = .WM_KEYDOWN → d.wParam = k → env1.messages = pre ++ d :: post →
      (∀ x ∈ post, isKeyEvent k x = false) →
      ∀ (env2 : RenderEnv) (r2 : Bool) (g2 : Internal) (pre2 post2 : List MSG) (u : MSG),
        Render env2 g1 = some (r2, g2) →
        u.message = .WM_KEYUP → u.wParam = k → env2.messages = pre2 ++ u :: post2 →
        (∀ x ∈ post2, isKeyEvent k x = false) →
        (GetKey g2 k = false ∧ GetKeyLastFrame g2 k = true) ∧
        ∀ (env3 : RenderEnv) (r3 : Bool) (g3 : Internal), Render env3 g2 = some (r3, g3) →
          (∀ x ∈ env3.messages, isKeyEvent k x = false) →
          GetKey g3 k = false ∧ GetKeyLastFrame g3 k = false) := by
  obtain ⟨hk1, hp1, -⟩ := Render_input h1
  rw [GetKey_nat g k hk] at h0
  constructor
  · intro pre mid post d u _ _ hu hw hmsgs hpost
    constructor
    · have e : env1.messages = (pre ++ d :: mid) ++ u :: post := by simp [hmsgs]
      rw [GetKey_nat g1 k hk, hk1, e]
      exact keys_after_keyUp g k hk _ post u hu hw hpost
    · rw [GetKeyLastFrame_nat g1 k hk, hp1]
      exact h0
  · intro pre post d hd hw hmsgs hpost env2 r2 g2 pre2 post2 u h2 hu hw2 hmsgs2 hpost2
    obtain ⟨hk2, hp2, -⟩ := Render_input h2
    have a1 : g1.keys ⟨k, hk⟩ = true := by
      rw [hk1, hmsgs]
      exact keys_after_keyDown g k hk pre post d hd hw hpost
    have a2 : g2.keys ⟨k, hk⟩ = false := by
      rw [hk2, hmsgs2]
      exact keys_after_keyUp g1 k hk pre2 post2 u hu hw2 hpost2
    refine ⟨⟨?_, ?_⟩, ?_⟩
    · rw [GetKey_nat g2 k hk]
      exact a2
    · rw [GetKeyLastFrame_nat g2 k hk, hp2]
      exact a1
    · intro env3 r3 g3 h3 hno
      obtain ⟨hk3, hp3, -⟩ := Render_input h3
      constructor
      · rw [GetKey_nat g3 k hk, hk3, processMessages_keys_of_no_event _ _ _ _ hno]
        exact a2
      · rw [GetKeyLastFrame_nat g3 k hk, hp3]
        exact a2

/-- Witness for C3: key 65 after `Init(4, 2)`.  Key-down and key-up in the same frame leave
both queries false; key-down in one frame and key-up in the next give false / true after the
second frame and false / false after the third. -/
theorem C3_press_release_witness :
    GetKey demoState 65 = false ∧
    Render (demoRenderEnv [keyDown 65, keyUp 65]) demoState =
      some (true, afterRender (demoRenderEnv [keyDown 65, keyUp 65]) demoState) ∧
    (GetKey (afterRender (demoRenderEnv [keyDown 65, keyUp 65]) demoState) ((65 : Nat) : Int)
        = false ∧
      GetKeyLastFrame (afterRender (demoRenderEnv [keyDown 65, keyUp 65]) demoState)
        ((65 : Nat) : Int) = false) ∧
    (GetKey (afterRender (demoRenderEnv [keyUp 65])
        (afterRender (demoRenderEnv [keyDown 65]) demoState)) ((65 : Nat) : Int) = false ∧
      GetKeyLastFrame (afterRender (demoRenderEnv [keyUp 65])
        (afterRender (demoRenderEnv [keyDown 65]) demoState)) ((65 : Nat) : Int) = true) ∧
    (GetKey (afterRender (demoRenderEnv []) (afterRender (demoRenderEnv [keyUp 65])
        (afterRender (demoRenderEnv [keyDown 65]) demoState))) ((65 : Nat) : Int) = false ∧
      GetKeyLastFrame (afterRender (demoRenderEnv []) (afterRender (demoRenderEnv [keyUp 65])
        (afterRender (demoRenderEnv [keyDown 65]) demoState))) ((65 : Nat) : Int) = false) :=
  have hb := (C3_press_release demoState (afterRender (demoRenderEnv [keyDown 65]) demoState)
      (demoRenderEnv [keyDown 65]) true 65 (by decide) (by decide) rfl).2 [] [] (keyDown 65)
      rfl rfl rfl (by simp) (demoRenderEnv [keyUp 65]) true
      (afterRender (demoRenderEnv [keyUp 65]) (afterRender (demoRenderEnv [keyDown 65]) demoState))
      [] [] (keyUp 65) rfl rfl rfl rfl (by simp)
  ⟨by decide, rfl,
    (C3_press_release demoState _ (demoRenderEnv [keyDown 65, keyUp 65]) true 65 (by decide)
      (by decide) rfl).1 [] [] [] (keyDown 65) (keyUp 65) rfl rfl rfl rfl rfl (by simp),
    hb.1,
    hb.2 (demoRenderEnv []) true _ rfl (by simp [demoRenderEnv])⟩

/-! ## Guarded queries -/

/-- C4. For an index outside the supported range (`button < 0` or `button >= 3`, `keyCode < 0`
or `keyCode >= 256`) the four queries return false in every state, the arrays are not
indexed; for an index in range they return the stored boolean of their snapshot. -/
theorem C4_guarded_queries (g : Internal) (i : Int) :
    ((i < 0 ∨ 3 ≤ i) → GetMouseButton g i = false ∧ GetMouseButtonLastFrame g i = false) ∧
    ((i < 0 ∨ 256 ≤ i) → GetKey g i = false ∧ GetKeyLastFrame g i = false) ∧
    (∀ h : 0 ≤ i ∧ i < 3,
      GetMouseButton g i = g.mouseButtons ⟨i.toNat, by omega⟩ ∧
      GetMouseButtonLastFrame g i = g.prevMouseButtons ⟨i.toNat, by omega⟩) ∧
    (∀ h : 0 ≤ i ∧ i < 256,
      GetKey g i = g.keys ⟨i.toNat, by omega⟩ ∧
      GetKeyLastFrame g i = g.prevKeys ⟨i.toNat, by omega⟩) := by
  refine ⟨?_, ?_, ?_, ?_⟩
  · intro h
    have hn : ¬(0 ≤ i ∧ i < 3) := by omega
    simp [GetMouseButton, GetMouseButtonLastFrame, hn]
  · intro h
    have hn : ¬(0 ≤ i ∧ i < 256) := by omega
    simp [GetKey, GetKeyLastFrame, hn]
  · intro h
    simp [GetMouseButton, GetMouseButtonLastFrame, h]
  · intro h
    simp [GetKey, GetKeyLastFrame, h]

/-- Witness for C4: in the state after the frame that pressed key 65 and the left button,
indices 256, -1 and 3 give false, indices 65 and 0 give the stored values. -/
theorem C4_guarded_queries_witness :
    (GetKey (afterRender demoInputEnv demoState) 256 = false ∧
      GetKeyLastFrame (afterRender demoInputEnv demoState) 256 = false) ∧
    (GetKey (afterRender demoInputEnv demoState) (-1) = false ∧
      GetKeyLastFrame (afterRender demoInputEnv demoState) (-1) = false) ∧
    (GetMouseButton (afterRender demoInputEnv demoState) 3 = false ∧
      GetMouseButtonLastFrame (afterRender demoInputEnv demoState) 3 = false) ∧
    (GetKey (afterRender demoInputEnv demoState) 65 =
        (afterRender demoInputEnv demoState).keys 65 ∧
      GetKeyLastFrame (afterRender demoInputEnv demoState) 65 =
        (afterRender demoInputEnv demoState).prevKeys 65) ∧
    (GetMouseButton (afterRender demoInputEnv demoState) 0 =
        (afterRender demoInputEnv demoState).mouseButtons 0 ∧
      GetMouseButtonLastFrame (afterRender demoInputEnv demoState) 0 =
        (afterRender demoInputEnv demoState).prevMouseButtons 0) ∧
    (afterRender demoInputEnv demoState).keys 65 = true :=
  ⟨(C4_guarded_queries _ 256).2.1 (Or.inr (by decide)),
   (C4_guarded_queries _ (-1)).2.1 (Or.inl (by decide)),
   (C4_guarded_queries _ 3).1 (Or.inr (by decide)),
   (C4_guarded_queries _ 65).2.2.2 (by decide),
   (C4_guarded_queries _ 0).2.2.1 (by decide),
   by decide⟩

/-! ## Init -/

/-- The state a successful `Init` leaves behind: every creation succeeded, and every field
written by `Init` holds the value the environment supplied. -/
theorem Init_success {env : InitEnv} {width height : Nat} {fullscreen : Bool}
    {g g' : Internal} {blk : Block}
    (h : Init env width height fullscreen g = some (some blk, g')) :
    (∃ a up, env.malloc = some a ∧ env.uploadBuffer = some up ∧
      blk = ⟨a, wrap32 (width * height * 4), env.garbage⟩ ∧
      ∃ (ts fsn : Bool) (cs : List Api),
      g' = { g with width := width, height := height, Pixels := some blk, hwnd := env.hwnd,
                    device := env.device, commandQueue := env.commandQueue,
                    tearingSupported := ts, isFullscreen := fsn,
                    swapChain := env.swapChain, frameIndex := env.backBufferIndex,
                    rtvHeap := env.rtvHeap, rtvDescriptorSize := env.rtvDescriptorSize,
                    renderTargets0 := env.renderTarget0, renderTargets1 := env.renderTarget1,
                    commandAllocator := env.commandAllocator, commandList := env.commandList,
                    uploadBuffer := some ⟨up, wrap32 (width * height * 4), env.garbage⟩,
                    fence := env.fence, fenceValue := 1, fenceEvent := env.fenceEvent,
                    perfFrequency := env.perfFrequency, lastFrameTime := env.perfCounter,
                    calls := cs }) ∧
    env.hwnd.isSome ∧ env.device.isSome ∧ env.commandQueue.isSome ∧ env.swapChain.isSome ∧
    env.rtvHeap.isSome ∧ env.renderTarget0.isSome ∧ env.renderTarget1.isSome ∧
    env.commandAllocator.isSome ∧ env.commandList.isSome ∧ env.fence.isSome ∧
    env.fenceEvent.isSome := by
  obtain ⟨desk, malloc, garbage, hwnd, device, cq, factory, factory5, allowTearing, sc1, sc,
    bbi, rtvHeap, rds, rt0, rt1, ca, cl, ub, fence, fe, pf, pc⟩ := env
  rcases hwnd with _ | hwnd
  · cases h
  rcases device with _ | device
  · cases h
  rcases cq with _ | cq
  · cases h
  rcases factory with _ | factory
  · cases h
  rcases sc1 with _ | sc1
  · cases h
  rcases sc with _ | sc
  · cases h
  rcases rtvHeap with _ | rtvHeap
  · cases h
  rcases rt0 with _ | rt0
  · cases h
  rcases rt1 with _ | rt1
  · cases h
  rcases ca with _ | ca
  · cases h
  rcases cl with _ | cl
  · cases h
  rcases ub with _ | ub
  · cases h
  rcases fence with _ | fence
  · cases h
  rcases fe with _ | fe
  · cases h
  rcases g with ⟨_, _, _, _, _, _, isFs⟩
  rcases factory5 with _ | f5 <;> rcases allowTearing with _ | tr <;>
    rcases malloc with _ | malloc <;> cases isFs <;> cases fullscreen <;> cases h <;>
    exact ⟨⟨_, _, rfl, rfl, rfl, _, _, _, rfl⟩, rfl, rfl, rfl, rfl, rfl, rfl, rfl, rfl, rfl, rfl,
      rfl⟩

/-! ## Init: failure paths -/

theorem keeps_refl (old : List Api) : Keeps old old := ⟨[], by simp, rfl⟩

theorem keeps_step {old x cs1 : List Api} (h : Keeps old x)
    (h1 : cs1.all (fun c => !isTeardown c) = true) : Keeps old (x ++ cs1) := by
  obtain ⟨cs, rfl, hcs⟩ := h
  exact ⟨cs ++ cs1, by simp, by rw [List.all_append, hcs, h1]; rfl⟩

theorem shows_start {hw : Ptr} {old x cs1 : List Api} (h : Keeps old x)
    (h1 : cs1.all (fun c => !isTeardown c) = true) (h2 : Api.ShowWindow hw ∈ cs1) :
    Shows hw old (x ++ cs1) := by
  obtain ⟨cs, rfl, hcs⟩ := h
  exact ⟨cs ++ cs1, by simp, List.mem_append_right _ h2, by rw [List.all_append, hcs, h1]; rfl⟩

theorem shows_step {hw : Ptr} {old x cs1 : List Api} (h : Shows hw old x)
    (h1 : cs1.all (fun c => !isTeardown c) = true) : Shows hw old (x ++ cs1) := by
  obtain ⟨cs, rfl, hm, hcs⟩ := h
  exact ⟨cs ++ cs1, by simp, List.mem_append_left _ hm, by rw [List.all_append, hcs, h1]; rfl⟩

theorem held_initWindow (env : InitEnv) (width height : Nat) (g : Internal) :
    Held0 env width height g.calls (initWindow env width height g) :=
  ⟨rfl, rfl, keeps_step (keeps_refl _) rfl⟩

theorem held_initDevice {env : InitEnv} {width height : Nat} {old : List Api} {x : Internal}
    (h : Held0 env width height old x) : Held env width height old (initDevice env x) := by
  obtain ⟨h1, h2, h3⟩ := h
  refine ⟨h1, h2, shows_start h3 rfl ?_⟩
  rw [h1]
  exact List.mem_cons_self _ _

theorem held_initCommandQueue {env : InitEnv} {width height : Nat} {old : List Api} {x : Internal}
    (h : Held env width height old x) : Held env width height old (initCommandQueue env x) := by
  obtain ⟨h1, h2, h3⟩ := h
  exact ⟨h1, h2, shows_step h3 rfl⟩

theorem held_initFactory {env : InitEnv} {width height : Nat} {old : List Api} {x : Internal}
    (h : Held env width height old x) : Held env width height old (initFactory env x) := by
  obtain ⟨h1, h2, h3⟩ := h
  exact ⟨h1, h2, shows_step h3 rfl⟩

theorem held_initTearing {env : InitEnv} {width height : Nat} {old : List Api} {x : Internal}
    (h : Held env width height old x) : Held env width height old (initTearing env x) := by
  obtain ⟨h1, h2, h3⟩ := h
  unfold initTearing
  split
  · split
    · exact ⟨h1, h2, shows_step h3 rfl⟩
    · exact ⟨h1, h2, shows_step h3 rfl⟩
  · exact ⟨h1, h2, h3⟩

theorem held_initSwapChain1 {env : InitEnv} {width height : Nat} {old : List Api} {x : Internal}
    (h : Held env width height old x) : Held env width height old (initSwapChain1 env width height x) := by
  obtain ⟨h1, h2, h3⟩ := h
  exact ⟨h1, h2, shows_step h3 rfl⟩

theorem held_initSwapChain {env : InitEnv} {width height : Nat} {old : List Api} {x : Internal}
    (h : Held env width height old x) : Held env width height old (initSwapChain env x) := by
  obtain ⟨h1, h2, h3⟩ := h
  exact ⟨h1, h2, shows_step h3 rfl⟩

theorem held_initRtvHeap {env : InitEnv} {width height : Nat} {old : List Api} {x : Internal}
    (h : Held env width height old x) : Held env width height old (initRtvHeap env x) := by
  obtain ⟨h1, h2, h3⟩ := h
  exact ⟨h1, h2, shows_step h3 rfl⟩

theorem held_initRenderTarget0 {env : InitEnv} {width height : Nat} {old : List Api} {x : Internal}
    (h : Held env width height old x) : Held env width height old (initRenderTarget0 env x) := by
  obtain ⟨h1, h2, h3⟩ := h
  exact ⟨h1, h2, shows_step h3 rfl⟩

theorem held_initRenderTarget1 {env : InitEnv} {width height : Nat} {old : List Api} {x : Internal}
    (h : Held env width height old x) : Held env width height old (initRenderTarget1 env x) := by
  obtain ⟨h1, h2, h3⟩ := h
  exact ⟨h1, h2, shows_step h3 rfl⟩

theorem held_initCommandAllocator {env : InitEnv} {width height : Nat} {old : List Api} {x : Internal}
    (h : Held env width height old x) : Held env width height old (initCommandAllocator env x) := by
  obtain ⟨h1, h2, h3⟩ := h
  exact ⟨h1, h2, shows_step h3 rfl⟩

theorem held_initCommandList {env : InitEnv} {width height : Nat} {old : List Api} {x : Internal}
    (h : Held env width height old x) : Held env width height old (initCommandList env x) := by
  obtain ⟨h1, h2, h3⟩ := h
  exact ⟨h1, h2, shows_step h3 rfl⟩

theorem held_initUploadBuffer {env : InitEnv} {width height : Nat} {old : List Api} {x : Internal}
    (h : Held env width height old x) : Held env width height old (initUploadBuffer env width height x) := by
  obtain ⟨h1, h2, h3⟩ := h
  exact ⟨h1, h2, shows_step h3 rfl⟩

theorem held_initFence {env : InitEnv} {width height : Nat} {old : List Api} {x : Internal}
    (h : Held env width height old x) : Held env width height old (initFence env x) := by
  obtain ⟨h1, h2, h3⟩ := h
  exact ⟨h1, h2, shows_step h3 rfl⟩

theorem held_initFenceEvent {env : InitEnv} {width height : Nat} {old : List Api} {x : Internal}
    (h : Held env width height old x) : Held env width height old (initFenceEvent env x) := by
  obtain ⟨h1, h2, h3⟩ := h
  exact ⟨h1, h2, shows_step h3 rfl⟩

theorem held_initFinish {env : InitEnv} {width height : Nat} {old : List Api} {x : Internal}
    (fullscreen : Bool) (h : Held env width height old x) :
    Held env width height old (initFinish env fullscreen x) := by
  obtain ⟨h1, h2, h3⟩ := h
  unfold initFinish SetFullscreen
  simp only []
  split
  · split
    · exact ⟨h1, h2, h3⟩
    · split
      · exact ⟨h1, h2, shows_step h3 rfl⟩
      · exact ⟨h1, h2, shows_step h3 rfl⟩
  · exact ⟨h1, h2, h3⟩

/-- A failing `Init` keeps what it acquired: if the window was created and `Init` returns
null, `hwnd` still holds the window handle, `Pixels` still holds the block obtained from
`malloc`, the window was shown and nothing was torn down during the call. -/
theorem Init_failure {env : InitEnv} {width height : Nat} {fullscreen : Bool}
    {g g' : Internal} (hw : env.hwnd.isSome)
    (h : Init env width height fullscreen g = some (none, g')) :
    Held env width height g.calls g' := by
  obtain ⟨desk, malloc, garbage, hwnd, device, cq, factory, factory5, allowTearing, sc1, sc,
    bbi, rtvHeap, rds, rt0, rt1, ca, cl, ub, fence, fe, pf, pc⟩ := env
  rcases hwnd with _ | hwnd
  · cases hw
  rcases device with _ | device
  · cases h
    exact held_initDevice (held_initWindow _ width height g)
  have H1 := held_initDevice (held_initWindow ⟨desk, malloc, garbage, some hwnd, some device, cq,
    factory, factory5, allowTearing, sc1, sc, bbi, rtvHeap, rds, rt0, rt1, ca, cl, ub, fence, fe,
    pf, pc⟩ width height g)
  have H2 := held_initCommandQueue H1
  have H3 := held_initFactory H2
  have H4 := held_initTearing H3
  have H5 := held_initSwapChain1 H4
  have H6 := held_initSwapChain H5
  have H7 := held_initRtvHeap H6
  have H8 := held_initRenderTarget0 H7
  have H9 := held_initRenderTarget1 H8
  have H10 := held_initCommandAllocator H9
  have H11 := held_initCommandList H10
  have H12 := held_initUploadBuffer H11
  have H13 := held_initFence H12
  have H14 := held_initFenceEvent H13
  have H15 := held_initFinish fullscreen H14
  rcases cq with _ | cq
  · cases h
    exact H2
  rcases factory with _ | factory
  · cases h
    exact H3
  rcases sc1 with _ | sc1
  · cases h
    exact H5
  rcases sc with _ | sc
  · cases h
  rcases rtvHeap with _ | rtvHeap
  · cases h
    exact H7
  rcases rt0 with _ | rt0
  · cases h
    exact H8
  rcases rt1 with _ | rt1
  · cases h
    exact H9
  rcases ca with _ | ca
  · cases h
    exact H10
  rcases cl with _ | cl
  · cases h
    exact H11
  rcases ub with _ | ub
  · cases h
    exact H12
  rcases fence with _ | fence
  · cases h
    exact H13
  rcases fe with _ | fe
  · cases h
    exact H14
  injection h with h
  injection h with h1 h2
  subst h2
  exact H15

/-- If a creation call fails (and the swap chain interface query does not), `Init` returns
null. -/
theorem Init_returns_null {env : InitEnv} {width height : Nat} {fullscreen : Bool}
    {g : Internal} (hsc : env.swapChain.isSome) (hfail : env.created = false) :
    ∃ g', Init env width height fullscreen g = some (none, g') := by
  obtain ⟨desk, malloc, garbage, hwnd, device, cq, factory, factory5, allowTearing, sc1, sc,
    bbi, rtvHeap, rds, rt0, rt1, ca, cl, ub, fence, fe, pf, pc⟩ := env
  rcases sc with _ | sc
  · cases hsc
  rcases hwnd with _ | hwnd
  · exact ⟨_, rfl⟩
  rcases device with _ | device
  · exact ⟨_, rfl⟩
  rcases cq with _ | cq
  · exact ⟨_, rfl⟩
  rcases factory with _ | factory
  · exact ⟨_, rfl⟩
  rcases sc1 with _ | sc1
  · exact ⟨_, rfl⟩
  rcases rtvHeap with _ | rtvHeap
  · exact ⟨_, rfl⟩
  rcases rt0 with _ | rt0
  · exact ⟨_, rfl⟩
  rcases rt1 with _ | rt1
  · exact ⟨_, rfl⟩
  rcases ca with _ | ca
  · exact ⟨_, rfl⟩
  rcases cl with _ | cl
  · exact ⟨_, rfl⟩
  rcases ub with _ | ub
  · exact ⟨_, rfl⟩
  rcases fence with _ | fence
  · exact ⟨_, rfl⟩
  rcases fe with _ | fe
  · exact ⟨_, rfl⟩
  cases hfail

/-! ## Init: the pixel buffer -/

/-- C10, counterexample.  When `D3D12CreateDevice` fails, `Init` returns null, yet the
window handle stays in `hwnd`, the pixel buffer stays allocated, and the calls of `Init`
are: allocate, register the class, create the window, show it, try to create the device.
The window is neither destroyed nor hidden and the buffer is not freed. -/
theorem C10_counterexample :
    (Init noDeviceEnv 4 2 false startup).map
        (fun r => (r.1.map Block.addr, r.2.hwnd, r.2.Pixels.map Block.addr, r.2.calls)) =
      some (none, some 1, some 4096,
        [.malloc 32 (some 4096), .RegisterClassExW, .CreateWindowExW 4 2 (some 1),
         .ShowWindow (some 1), .Create .device none]) := by
  decide

/-- C10, amended.  If the window was created and a later creation call of `Init` fails, `Init`
returns null and gives up nothing it acquired: `hwnd` holds the handle of the window, which
was shown and is not destroyed; `Pixels` holds the buffer obtained from `malloc`, which is not
freed; and no call of `Init` releases an object, closes a handle or unregisters the window
class (the temporary factory and swap chain interfaces aside). -/
theorem C10_init_failure (env : InitEnv) (width height : Nat) (fullscreen : Bool)
    (g : Internal) (hw : env.hwnd.isSome) (hsc : env.swapChain.isSome)
    (hfail : env.created = false) :
    ∃ g', Init env width height fullscreen g = some (none, g') ∧
      g'.hwnd = env.hwnd ∧
      g'.Pixels = env.malloc.map (fun a => ⟨a, wrap32 (width * height * 4), env.garbage⟩) ∧
      ∃ cs, g'.calls = g.calls ++ cs ∧ Api.ShowWindow env.hwnd ∈ cs ∧
        cs.all (fun c => !isTeardown c) = true := by
  obtain ⟨g', hg'⟩ := @Init_returns_null env width height fullscreen g hsc hfail
  exact ⟨g', hg', Init_failure hw hg'⟩

/-- Witness for C10: `Init(4, 2)` at process start with a failing `D3D12CreateDevice`. -/
theorem C10_init_failure_witness :
    noDeviceEnv.hwnd.isSome = true ∧ noDeviceEnv.created = false ∧
    ∃ g', Init noDeviceEnv 4 2 false startup = some (none, g') ∧
      g'.hwnd = noDeviceEnv.hwnd ∧
      g'.Pixels = noDeviceEnv.malloc.map (fun a => ⟨a, wrap32 (4 * 2 * 4), noDeviceEnv.garbage⟩) ∧
      ∃ cs, g'.calls = startup.calls ++ cs ∧ Api.ShowWindow noDeviceEnv.hwnd ∈ cs ∧
        cs.all (fun c => !isTeardown c) = true :=
  ⟨rfl, rfl, C10_init_failure noDeviceEnv 4 2 false startup rfl rfl rfl⟩

/-! ## SetSize -/

/-- C6. No-op resize: `SetSize` called with the current width and height returns the current
frame buffer pointer and leaves the whole state as it is: dimensions, buffers and their
contents, every GPU object, the fence value, and the call log (no allocation, release,
creation or fence signal is issued). -/
theorem C6_noop_resize (env : SetSizeEnv) (g : Internal) :
    SetSize env (GetWidth g) (GetHeight g) g = some (g.Pixels, g) := by
  unfold SetSize GetWidth GetHeight
  simp

theorem frameTiming_calls (t : Int) (g : Internal) :
    (frameTiming t g).calls = g.calls ∨
    ∃ fps ms, (frameTiming t g).calls = g.calls ++ [.SetWindowTextA g.hwnd g.appName fps ms] := by
  unfold frameTiming
  simp only []
  split <;> split
  · exact Or.inr ⟨_, _, rfl⟩
  · exact Or.inl rfl
  · exact Or.inr ⟨_, _, rfl⟩
  · exact Or.inl rfl

theorem pollFrame_calls (env : RenderEnv) (g : Internal) :
    (pollFrame env g).calls = g.calls ∨
    ∃ fps ms, (pollFrame env g).calls = g.calls ++ [.SetWindowTextA g.hwnd g.appName fps ms] := by
  have e0 := congrArg Internal.calls
    (eraseInput_processMessages env.messages (frameTiming env.currentTime (copyInputState g)))
  have e : (pollFrame env g).calls = (frameTiming env.currentTime (copyInputState g)).calls := e0
  rw [e]
  exact frameTiming_calls env.currentTime (copyInputState g)

theorem any_isQuitEvent (msgs : List MSG) :
    msgs.any isQuitEvent = true ↔ ∃ m ∈ msgs, isQuitEvent m = true := by
  simp [List.any_eq_true]

theorem Init_ready {ie : InitEnv} {width height : Nat} {fullscreen : Bool}
    {g0 g : Internal} {blk : Block} (env : RenderEnv)
    (h : Init ie width height fullscreen g0 = some (some blk, g))
    (hm : env.mapOk = true) (hb : env.backBufferIndex < 2) : RenderReady env g := by
  obtain ⟨⟨a, up, -, -, hblk, ts, fsn, cs, hg⟩, -, -, hq, hs, -, -, -, ha, hl, hf, -⟩ :=
    Init_success h
  rw [hg, hblk]
  exact ⟨hq, hf, hs, ha, hl, hm, hb, _, _, rfl, rfl, Nat.le_refl _, Nat.le_refl _⟩

theorem Init_shouldQuit {ie : InitEnv} {width height : Nat} {fullscreen : Bool}
    {g0 g : Internal} {blk : Block}
    (h : Init ie width height fullscreen g0 = some (some blk, g)) :
    g.shouldQuit = g0.shouldQuit := by
  obtain ⟨⟨a, up, -, -, hblk, ts, fsn, cs, hg⟩, -⟩ := Init_success h
  rw [hg]

/-- C8, counterexample.  In the state after `Init(4, 2)`, a `Render` call that processes a close
message returns false; the next `Render` call, which processes no message at all, returns
false again.  The same happens after `Shutdown` and a second successful `Init`: the first
`Render` call returns false although it processes no message. -/
theorem C8_counterexample :
    Render (demoRenderEnv [closeMsg]) demoState =
      some (false, afterRender (demoRenderEnv [closeMsg]) demoState) ∧
    (demoRenderEnv []).messages = [] ∧
    (Render (demoRenderEnv []) (afterRender (demoRenderEnv [closeMsg]) demoState)).map Prod.fst =
      some false ∧
    (Init demoInitEnv 4 2 false
        (Shutdown demoShutdownEnv (afterRender (demoRenderEnv [closeMsg]) demoState))).bind
        (fun r => (Render (demoRenderEnv []) r.2).map (fun q => (r.1.isSome, q.1))) =
      some (true, false) :=
  ⟨rfl, rfl, by decide, by decide⟩

/-- C8, amended.  `Render` returns false exactly when the quit flag is set at the end of its
message processing: a close or destroy message was handled during this call, or the flag was
already set (it is never cleared, so after a false result every later `Render` call returns
false as well).  In a state whose quit flag is clear `Render` returns true unless a close or
destroy message was handled during the call, in which case it returns false; the state after a
successful `Init` in a process that has not quit is such a state, and `Render` returns
there. -/
theorem C8_render_result (env : RenderEnv) (g : Internal) :
    (∀ r g', Render env g = some (r, g') →
      (r = false ↔ (g.shouldQuit = true ∨ ∃ m ∈ env.messages, isQuitEvent m = true)) ∧
      g'.shouldQuit = !r ∧
      (g.shouldQuit = false → (r = true ↔ ∀ m ∈ env.messages, isQuitEvent m = false)) ∧
      (r = false → ∀ env2 r2 g2, Render env2 g' = some (r2, g2) → r2 = false)) ∧
    (∀ (ie : InitEnv) (width height : Nat) (fullscreen : Bool) (g0 : Internal) (blk : Block),
      g0.shouldQuit = false → Init ie width height fullscreen g0 = some (some blk, g) →
      env.mapOk = true → env.backBufferIndex < 2 →
      ∃ r g', Render env g = some (r, g') ∧
        (r = true ↔ ∀ m ∈ env.messages, isQuitEvent m = false)) := by
  have key : ∀ r g', Render env g = some (r, g') →
      (r = false ↔ (g.shouldQuit = true ∨ ∃ m ∈ env.messages, isQuitEvent m = true)) ∧
      g'.shouldQuit = !r := by
    intro r g' h
    obtain ⟨-, -, -, -, -, -, hq, hr⟩ := Render_input h
    have hq' : g'.shouldQuit = !r := by rw [hr]; simp
    refine ⟨?_, hq'⟩
    rw [← any_isQuitEvent]
    rw [hr, hq]
    cases g.shouldQuit <;> cases env.messages.any isQuitEvent <;> simp
  have clear : ∀ r g', Render env g = some (r, g') → g.shouldQuit = false →
      (r = true ↔ ∀ m ∈ env.messages, isQuitEvent m = false) := by
    intro r g' h h0
    have h1 := (key r g' h).1
    constructor
    · intro hr m hm
      cases hq : isQuitEvent m
      · rfl
      · have : r = false := h1.mpr (Or.inr ⟨m, hm, hq⟩)
        rw [hr] at this
        cases this
    · intro hall
      cases hr : r
      · rcases h1.mp hr with hs | ⟨m, hm, hq⟩
        · rw [h0] at hs
          cases hs
        · rw [hall m hm] at hq
          cases hq
      · rfl
  constructor
  · intro r g' h
    refine ⟨(key r g' h).1, (key r g' h).2, clear r g' h, ?_⟩
    intro hr env2 r2 g2 h2
    obtain ⟨-, -, -, -, -, -, hq2, hr2⟩ := Render_input h2
    have hs : g'.shouldQuit = true := by rw [(key r g' h).2, hr]; rfl
    rw [hr2, hq2, hs]
    rfl
  · intro ie width height fullscreen g0 blk h0 hi hm hb
    obtain ⟨r, g', h⟩ := Render_returns (Init_ready env hi hm hb)
    have hs : g.shouldQuit = false := by rw [Init_shouldQuit hi, h0]
    exact ⟨r, g', h, clear r g' h hs⟩

/-- Witness for C8: the first frame after `Init(4, 2)` at process start processes a close
message and returns false, and so does the frame after it; a first frame that processes
only a key-down message returns true. -/
theorem C8_render_result_witness :
    Render (demoRenderEnv [closeMsg]) demoState =
      some (false, afterRender (demoRenderEnv [closeMsg]) demoState) ∧
    (afterRender (demoRenderEnv [closeMsg]) demoState).shouldQuit = (!false) ∧
    (∀ env2 r2 g2, Render env2 (afterRender (demoRenderEnv [closeMsg]) demoState) =
      some (r2, g2) → r2 = false) ∧
    (∃ r g', Render (demoRenderEnv [keyDown 65]) demoState = some (r, g') ∧
      (r = true ↔ ∀ m ∈ (demoRenderEnv [keyDown 65]).messages, isQuitEvent m = false)) :=
  have h := (C8_render_result (demoRenderEnv [closeMsg]) demoState).1 false
    (afterRender (demoRenderEnv [closeMsg]) demoState) rfl
  ⟨rfl, h.2.1, h.2.2.2 rfl,
    (C8_render_result (demoRenderEnv [keyDown 65]) demoState).2 demoInitEnv 4 2 false startup
      ⟨4096, 32, fun _ => 0⟩ rfl rfl rfl (by decide)⟩

/-- C9. When a quit has been requested by the end of the message processing of `Render` (the
quit flag was set before, or a close or destroy message is handled), `Render` returns false
and performs none of the GPU steps: the call log grows at most by the title update (no fence
signal or wait, no back buffer index read, no map or copy, no command list, no present), the
fence value, the frame index, the staging buffer and the pixel buffer are unchanged, and the
state differs from the one before only in the previous-frame input snapshot, the timing
fields, the call log and the fields written by the window procedure. -/
theorem C9_quit_skips_gpu (env : RenderEnv) (g : Internal)
    (hq : g.shouldQuit = true ∨ ∃ m ∈ env.messages, isQuitEvent m = true) :
    ∃ g', Render env g = some (false, g') ∧
      (g'.calls = g.calls ∨
        ∃ fps ms, g'.calls = g.calls ++ [.SetWindowTextA g.hwnd g.appName fps ms]) ∧
      g'.fenceValue = g.fenceValue ∧ g'.frameIndex = g.frameIndex ∧
      g'.uploadBuffer = g.uploadBuffer ∧ g'.Pixels = g.Pixels ∧
      ∃ (dt fs fps tt : Fp) (fc : Int) (mx my : Int) (mb : Fin 3 → Bool) (ks : Fin 256 → Bool),
        g' = { g with prevMouseX := g.mouseX, prevMouseY := g.mouseY,
                      prevMouseButtons := g.mouseButtons, prevKeys := g.keys,
                      lastDeltaTime := dt, lastFrameTime := env.currentTime,
                      frameTimeSum := fs, frameCount := fc, averageFPS := fps,
                      titleUpdateTimer := tt, calls := g'.calls,
                      shouldQuit := true, mouseX := mx, mouseY := my, mouseButtons := mb,
                      keys := ks } := by
  have hs : (pollFrame env g).shouldQuit = true := by
    rw [pollFrame_shouldQuit]
    rcases hq with h | h
    · rw [h]
      rfl
    · rw [(any_isQuitEvent _).mpr h]
      simp
  have hr : Render env g = some (false, pollFrame env g) := by
    unfold Render
    simp only []
    rw [if_pos hs]
  have hc := pollFrame_calls env g
  obtain ⟨dt, fs, fps, tt, fc, cs, q, mx, my, mb, ks, e⟩ := pollFrame_eq env g
  have hq2 : q = true := by
    rw [e] at hs
    exact hs
  have hcs : cs = (pollFrame env g).calls := by rw [e]
  subst hq2
  refine ⟨pollFrame env g, hr, hc, by rw [e], by rw [e], by rw [e], by rw [e],
    dt, fs, fps, tt, fc, mx, my, mb, ks, ?_⟩
  rw [← hcs]
  exact e

/-- Witness for C9: the first frame after `Init(4, 2)` processes a close message. -/
theorem C9_quit_skips_gpu_witness :
    (∃ m ∈ (demoRenderEnv [closeMsg]).messages, isQuitEvent m = true) ∧
    ∃ g', Render (demoRenderEnv [closeMsg]) demoState = some (false, g') ∧
      (g'.calls = demoState.calls ∨
        ∃ fps ms, g'.calls =
          demoState.calls ++ [.SetWindowTextA demoState.hwnd demoState.appName fps ms]) ∧
      g'.fenceValue = demoState.fenceValue ∧ g'.frameIndex = demoState.frameIndex ∧
      g'.uploadBuffer = demoState.uploadBuffer ∧ g'.Pixels = demoState.Pixels :=
  have hq : ∃ m ∈ (demoRenderEnv [closeMsg]).messages, isQuitEvent m = true :=
    ⟨closeMsg, List.mem_cons_self _ _, rfl⟩
  have h := C9_quit_skips_gpu (demoRenderEnv [closeMsg]) demoState (Or.inr hq)
  ⟨hq, h.elim fun g' hg' => ⟨g', hg'.1, hg'.2.1, hg'.2.2.1, hg'.2.2.2.1, hg'.2.2.2.2.1,
    hg'.2.2.2.2.2.1⟩⟩

/-! ## SetSize and Shutdown in closed form -/

theorem SetSize_sections (env : SetSizeEnv) (width height : Nat) (g : Internal) :
    SetSize env width height g = setSizeSections env width height g := rfl
theorem WndProc_log (g : Internal) (m : MSG) (v : Nat) (c : List Api) :
    WndProc { g with fenceValue := v, calls := c } m =
      { WndProc g m with fenceValue := v, calls := c } := by
  unfold WndProc
  split <;> (try split) <;> rfl

theorem processMessages_log (msgs : List MSG) (g : Internal) (v : Nat) (c : List Api) :
    processMessages msgs { g with fenceValue := v, calls := c } =
      { processMessages msgs g with fenceValue := v, calls := c } := by
  induction msgs generalizing g with
  | nil => rfl
  | cons m ms ih =>
    show processMessages ms (WndProc { g with fenceValue := v, calls := c } m) = _
    rw [WndProc_log, ih]
    rfl

theorem wait_step (cv : Nat) (g : Internal) :
    (if g.fence.isSome ∧ g.commandQueue.isSome then waitForGpu cv g else g) =
      { g with fenceValue := shutdownFenceValue g,
               calls := g.calls ++ guardedWaitCalls cv g } := by
  unfold shutdownFenceValue guardedWaitCalls
  split
  · simp [waitForGpu, waitCalls, List.append_assoc]
  · simp

theorem close_step (g : Internal) (v : Nat) (L : List Api) (x : Internal)
    (h : x = { g with fenceValue := v, calls := g.calls ++ L }) :
    (if x.fenceEvent.isSome then logCalls x [.CloseHandle x.fenceEvent] else x) =
      { g with fenceValue := v,
               calls := g.calls ++
                 (L ++ if g.fenceEvent.isSome then [.CloseHandle g.fenceEvent] else []) } := by
  subst h
  simp only []
  split
  · simp [logCalls, List.append_assoc]
  · simp

theorem release_step (f : Internal → Bool) (o : Obj) (g : Internal) (v : Nat) (L : List Api)
    (x : Internal) (hf : ∀ v c, f { g with fenceValue := v, calls := c } = f g)
    (h : x = { g with fenceValue := v, calls := g.calls ++ L }) :
    releaseIf (f x) o x =
      { g with fenceValue := v, calls := g.calls ++ (L ++ releaseCall (f g) o) } := by
  subst h
  rw [hf]
  unfold releaseIf releaseCall
  split
  · simp [logCalls, List.append_assoc]
  · simp

theorem window_step (msgs : List MSG) (g : Internal) (v : Nat) (L : List Api) (x : Internal)
    (h : x = { g with fenceValue := v, calls := g.calls ++ L }) :
    (if x.hwnd.isSome then
        logCalls (processMessages msgs (logCalls x [.DestroyWindow x.hwnd])) [.UnregisterClassW]
      else x) =
      { (if g.hwnd.isSome then processMessages msgs g else g) with
          fenceValue := v,
          calls := g.calls ++
            (L ++ if g.hwnd.isSome then [.DestroyWindow g.hwnd, .UnregisterClassW] else []) } := by
  subst h
  simp only []
  split
  · show logCalls (processMessages msgs
        { g with fenceValue := v, calls := g.calls ++ L ++ [.DestroyWindow g.hwnd] })
        [.UnregisterClassW] = _
    rw [processMessages_log]
    simp [logCalls, List.append_assoc]
  · simp

theorem processMessages_Pixels (msgs : List MSG) (g : Internal) :
    (processMessages msgs g).Pixels = g.Pixels := by
  have e0 := congrArg Internal.Pixels (eraseInput_processMessages msgs g)
  exact e0

theorem free_step (g G : Internal) (v : Nat) (L : List Api) (x : Internal)
    (hG : G.Pixels = g.Pixels)
    (h : x = { G with fenceValue := v, calls := g.calls ++ L }) :
    logCalls { x with Pixels := none } [.free (x.Pixels.map Block.addr)] =
      { G with fenceValue := v, Pixels := none,
               calls := g.calls ++ (L ++ [.free (g.Pixels.map Block.addr)]) } := by
  subst h
  simp [logCalls, List.append_assoc, hG]

/-- The state `Shutdown` leaves, in closed form: the window procedure has handled the
messages of `DestroyWindow` when a window existed, the fence value is the one after the
guarded handshake, the pixel pointer is null, the calls are appended; every other global,
the handles included, is as before. -/
theorem Shutdown_eq (env : ShutdownEnv) (g : Internal) :
    Shutdown env g =
      { (if g.hwnd.isSome then processMessages env.destroyMessages g else g) with
          fenceValue := shutdownFenceValue g, Pixels := none,
          calls := g.calls ++ shutdownCalls env g } := by
  have H1 := wait_step env.completedValue g
  have H2 := close_step g _ _ _ H1
  have H3 := release_step (fun x => x.fence.isSome) .fence g _ _ _ (fun _ _ => rfl) H2
  have H4 := release_step (fun x => x.uploadBuffer.isSome) .uploadBuffer g _ _ _
    (fun _ _ => rfl) H3
  have H5 := release_step (fun x => x.commandList.isSome) .commandList g _ _ _
    (fun _ _ => rfl) H4
  have H6 := release_step (fun x => x.commandAllocator.isSome) .commandAllocator g _ _ _
    (fun _ _ => rfl) H5
  have H7 := release_step (fun x => x.renderTargets0.isSome) .renderTarget0 g _ _ _
    (fun _ _ => rfl) H6
  have H8 := release_step (fun x => x.renderTargets1.isSome) .renderTarget1 g _ _ _
    (fun _ _ => rfl) H7
  have H9 := release_step (fun x => x.rtvHeap.isSome) .rtvHeap g _ _ _ (fun _ _ => rfl) H8
  have H10 := release_step (fun x => x.swapChain.isSome) .swapChain g _ _ _ (fun _ _ => rfl) H9
  have H11 := release_step (fun x => x.commandQueue.isSome) .commandQueue g _ _ _
    (fun _ _ => rfl) H10
  have H12 := release_step (fun x => x.device.isSome) .device g _ _ _ (fun _ _ => rfl) H11
  have H13 := window_step env.destroyMessages g _ _ _ H12
  have hG : (if g.hwnd.isSome then processMessages env.destroyMessages g else g).Pixels
      = g.Pixels := by
    split
    · exact processMessages_Pixels _ _
    · rfl
  have H14 := free_step g _ _ _ _ hG H13
  exact H14

theorem presentFrame_spec {env : RenderEnv} {g g' : Internal} {r : Bool}
    (h : presentFrame env g = some (r, g')) :
    g.fence.isSome ∧ g.commandQueue.isSome ∧
    g'.calls = g.calls ++ presentCalls env g ∧
    ∃ up px, g.uploadBuffer = some up ∧ g.Pixels = some px ∧
      wrap32 (g.width * g.height * 4) ≤ up.size ∧ wrap32 (g.width * g.height * 4) ≤ px.size ∧
      g'.uploadBuffer = some { up with
        data := fun i => if i < (wrap32 (g.width * g.height * 4)) then px.data i else up.data i } := by
  unfold presentFrame at h
  split at h
  · rename_i q f s hq hf hs
    simp only [] at h
    split at h
    · rename_i up px a l hup hpx ha hl
      split at h
      · rename_i hc
        simp only [Option.some.injEq, Prod.mk.injEq] at h
        obtain ⟨-, rfl⟩ := h
        refine ⟨by simp [hf], by simp [hq], ?_, up, px, hup, hpx, hc.2.1, hc.2.2.1, rfl⟩
        simp [logCalls, waitForGpu, presentCalls, waitCalls, List.append_assoc]
      · exact absurd h (by simp)
    · exact absurd h (by simp)
  · exact absurd h (by simp)

theorem presentCalls_last (env : RenderEnv) (g : Internal) :
    ∃ cs, presentCalls env g = cs ++
      [.Present (if g.vsyncEnabled then 1 else 0)
        (if !g.vsyncEnabled && g.tearingSupported then DXGI_PRESENT_ALLOW_TEARING else 0)] ∧
      cs.all (fun c => !isPresent c) = true := by
  refine ⟨waitCalls env.completedValue g.fenceValue ++
    [.GetCurrentBackBufferIndex, .Map true, .memcpy (wrap32 (g.width * g.height * 4)), .Unmap,
     .AllocatorReset, .ListReset,
     .ResourceBarrier env.backBufferIndex true,
     .CopyTextureRegion env.backBufferIndex g.width g.height (wrap32 (g.width * 4)),
     .ResourceBarrier env.backBufferIndex false,
     .ListClose, .ExecuteCommandLists], ?_, ?_⟩
  · simp [presentCalls]
  · unfold waitCalls
    split <;> simp [isPresent]

/-! ## SetFullscreen -/

/-- C11. `SetFullscreen` is idempotent: calling `SetFullscreen(b)` a second time (whatever the
desktop answers then) leaves the state of the first call, call log included, so no further
window operation is issued; `SetFullscreen(b)` when `GetFullscreen()` already equals `b`
changes nothing; and after `SetFullscreen(b)`, `GetFullscreen()` returns `b`. -/
theorem C11_fullscreen_idempotent (desk desk2 : Desktop) (b : Bool) (g : Internal) :
    SetFullscreen desk2 b (SetFullscreen desk b g) = SetFullscreen desk b g ∧
    (GetFullscreen g = b → SetFullscreen desk b g = g) ∧
    GetFullscreen (SetFullscreen desk b g) = b := by
  have h1 : ∀ (d : Desktop) (x : Internal), x.isFullscreen = b → SetFullscreen d b x = x := by
    intro d x hx
    unfold SetFullscreen
    rw [if_pos hx]
  have h2 : (SetFullscreen desk b g).isFullscreen = b := by
    unfold SetFullscreen
    by_cases h : g.isFullscreen = b
    · rw [if_pos h]
      exact h
    · rw [if_neg h]
      cases b <;> rfl
  exact ⟨h1 desk2 _ h2, h1 desk g, h2⟩

/-- Witness for C11: entering fullscreen twice after `Init(4, 2)`; leaving fullscreen in the
windowed state after `Init` does nothing. -/
theorem C11_fullscreen_idempotent_witness :
    SetFullscreen demoDesk true (SetFullscreen demoDesk true demoState) =
      SetFullscreen demoDesk true demoState ∧
    GetFullscreen demoState = false ∧
    SetFullscreen demoDesk false demoState = demoState ∧
    GetFullscreen (SetFullscreen demoDesk true demoState) = true ∧
    (SetFullscreen demoDesk true demoState).calls =
      demoState.calls ++ [.SetWindowLongW (some 1) (WS_POPUP ||| WS_VISIBLE),
        .SetWindowPos (some 1) 0 0 1920 1080] :=
  ⟨(C11_fullscreen_idempotent demoDesk demoDesk true demoState).1, rfl,
    (C11_fullscreen_idempotent demoDesk demoDesk false demoState).2.1 rfl,
    (C11_fullscreen_idempotent demoDesk demoDesk true demoState).2.2, by decide⟩

/-- C12. `SetFullscreen` changes only the fullscreen flag and, through `SetWindowLongW` and
`SetWindowPos` calls, the style and placement of the window: every other field of the state
(pixel buffer and contents, width, height, render targets, staging buffer, fence and fence
value, vsync flag, quit flag, both input snapshots) is unchanged. -/
theorem C12_fullscreen_frame (desk : Desktop) (b : Bool) (g : Internal) :
    (∃ cs, SetFullscreen desk b g = { g with isFullscreen := b, calls := g.calls ++ cs } ∧
      cs.all isWindowCall = true) ∧
    (SetFullscreen desk b g).Pixels = g.Pixels ∧
    (SetFullscreen desk b g).width = g.width ∧ (SetFullscreen desk b g).height = g.height ∧
    (SetFullscreen desk b g).renderTargets0 = g.renderTargets0 ∧
    (SetFullscreen desk b g).renderTargets1 = g.renderTargets1 ∧
    (SetFullscreen desk b g).uploadBuffer = g.uploadBuffer ∧
    (SetFullscreen desk b g).fence = g.fence ∧
    (SetFullscreen desk b g).fenceValue = g.fenceValue ∧
    (SetFullscreen desk b g).vsyncEnabled = g.vsyncEnabled ∧
    (SetFullscreen desk b g).shouldQuit = g.shouldQuit ∧
    (SetFullscreen desk b g).keys = g.keys ∧ (SetFullscreen desk b g).prevKeys = g.prevKeys ∧
    (SetFullscreen desk b g).mouseButtons = g.mouseButtons ∧
    (SetFullscreen desk b g).prevMouseButtons = g.prevMouseButtons ∧
    GetMousePosition (SetFullscreen desk b g) = GetMousePosition g ∧
    GetMousePositionLastFrame (SetFullscreen desk b g) = GetMousePositionLastFrame g := by
  have key : ∃ cs, SetFullscreen desk b g = { g with isFullscreen := b, calls := g.calls ++ cs } ∧
      cs.all isWindowCall = true := by
    unfold SetFullscreen
    by_cases h : g.isFullscreen = b
    · rw [if_pos h]
      refine ⟨[], ?_, rfl⟩
      subst h
      simp
    · rw [if_neg h]
      cases b
      · exact ⟨_, rfl, rfl⟩
      · exact ⟨_, rfl, rfl⟩
  refine ⟨key, ?_⟩
  obtain ⟨cs, e, -⟩ := key
  rw [e]
  exact ⟨rfl, rfl, rfl, rfl, rfl, rfl, rfl, rfl, rfl, rfl, rfl, rfl, rfl, rfl, rfl, rfl⟩

/-! ## C13: the state after Shutdown -/

theorem Shutdown_shouldQuit (env : ShutdownEnv) (g : Internal) :
    (Shutdown env g).shouldQuit =
      (g.shouldQuit || (g.hwnd.isSome && env.destroyMessages.any isQuitEvent)) := by
  rw [Shutdown_eq]
  show (if g.hwnd.isSome then processMessages env.destroyMessages g else g).shouldQuit = _
  split
  · rename_i h
    rw [processMessages_shouldQuit, h]
    simp
  · rename_i h
    simp [h]

theorem Shutdown_prev (env : ShutdownEnv) (g : Internal) :
    eraseInput (Shutdown env g) =
      eraseInput { g with fenceValue := shutdownFenceValue g, Pixels := none,
                          calls := g.calls ++ shutdownCalls env g } := by
  rw [Shutdown_eq]
  split
  · have e := eraseInput_processMessages env.destroyMessages g
    generalize processMessages env.destroyMessages g = p at e
    cases p; cases g
    simp only [eraseInput, Internal.mk.injEq] at e ⊢
    simp_all
  · rfl

/-- C13, the claim refuted: after `Init`, a frame in which key 65 goes down and the window
is closed, and `Shutdown`, the quit flag is set, the fence value is 2 and key 65 is down,
none of which is so at startup; after a second successful `Init`, `Render` returns false
with no message pending. -/
theorem C13_counterexample :
    (Shutdown demoShutdownEnv demoClosed).shouldQuit = true ∧ startup.shouldQuit = false ∧
    (Shutdown demoShutdownEnv demoClosed).fenceValue = 2 ∧ startup.fenceValue = 0 ∧
    GetKey (Shutdown demoShutdownEnv demoClosed) 65 = true ∧ GetKey startup 65 = false ∧
    (Init demoInitEnv 4 2 false (Shutdown demoShutdownEnv demoClosed)).map
        (fun r => r.1.isSome) = some true ∧
    (demoRenderEnv []).messages = [] ∧
    (Render (demoRenderEnv []) (reinit (Shutdown demoShutdownEnv demoClosed))).map Prod.fst =
      some false := by
  have hi : Init demoInitEnv 4 2 false (Shutdown demoShutdownEnv demoClosed) =
      some (some ⟨4096, 32, fun _ => 0⟩, reinit (Shutdown demoShutdownEnv demoClosed)) := rfl
  refine ⟨?_, rfl, ?_, rfl, ?_, rfl, by decide, rfl, ?_⟩
  · rw [Shutdown_shouldQuit]
    rfl
  · rw [Shutdown_eq]
    rfl
  · rw [Shutdown_eq]
    rfl
  · obtain ⟨r, g3, hr⟩ := Render_returns (Init_ready (demoRenderEnv []) hi rfl (by decide))
    obtain ⟨-, -, -, -, -, -, hq, hrq⟩ := Render_input hr
    subst hrq
    rw [hr]
    show some (!g3.shouldQuit) = some false
    rw [hq, Init_shouldQuit hi, Shutdown_shouldQuit]
    rfl

/-- C13, amended: `Shutdown` nulls the pixel pointer and resets no flag.  The quit flag is
the old one, set in addition when a window existed and `DestroyWindow` delivered a close
or destroy message; the fullscreen flag, the vsync flag, the size and the previous-frame
input snapshots are unchanged; the fence value is the old one, incremented when the fence
handshake ran.  After `Shutdown` and a successful second `Init`, `Render` returns, and it
returns true exactly when the quit flag was clear on return from `Shutdown` and no close
or destroy message is pending. -/
theorem C13_shutdown_state (env : ShutdownEnv) (g : Internal) :
    (Shutdown env g).Pixels = none ∧
    (Shutdown env g).shouldQuit =
      (g.shouldQuit || (g.hwnd.isSome && env.destroyMessages.any isQuitEvent)) ∧
    (Shutdown env g).isFullscreen = g.isFullscreen ∧
    (Shutdown env g).vsyncEnabled = g.vsyncEnabled ∧
    (Shutdown env g).width = g.width ∧ (Shutdown env g).height = g.height ∧
    (Shutdown env g).fenceValue =
      (if g.fence.isSome ∧ g.commandQueue.isSome then wrap64 (g.fenceValue + 1)
       else g.fenceValue) ∧
    (Shutdown env g).prevKeys = g.prevKeys ∧
    (Shutdown env g).prevMouseButtons = g.prevMouseButtons ∧
    (Shutdown env g).prevMouseX = g.prevMouseX ∧ (Shutdown env g).prevMouseY = g.prevMouseY ∧
    (∀ (ie : InitEnv) (width height : Nat) (fullscreen : Bool) (blk : Block) (g2 : Internal)
      (re : RenderEnv),
      Init ie width height fullscreen (Shutdown env g) = some (some blk, g2) →
      re.mapOk = true → re.backBufferIndex < 2 →
      ∃ r g3, Render re g2 = some (r, g3) ∧
        (r = true ↔ ((Shutdown env g).shouldQuit = false ∧
          ∀ m ∈ re.messages, isQuitEvent m = false))) := by
  have e := Shutdown_prev env g
  have e1 := congrArg Internal.isFullscreen e
  have e2 := congrArg Internal.vsyncEnabled e
  have e3 := congrArg Internal.width e
  have e4 := congrArg Internal.height e
  have e5 := congrArg Internal.fenceValue e
  have e6 := congrArg Internal.prevKeys e
  have e7 := congrArg Internal.prevMouseButtons e
  have e8 := congrArg Internal.prevMouseX e
  have e9 := congrArg Internal.prevMouseY e
  refine ⟨by rw [Shutdown_eq], Shutdown_shouldQuit env g, e1, e2, e3, e4, e5, e6, e7, e8, e9,
    ?_⟩
  intro ie width height fullscreen blk g2 re hi hm hb
  obtain ⟨r, g3, hr⟩ := Render_returns (Init_ready re hi hm hb)
  refine ⟨r, g3, hr, ?_⟩
  obtain ⟨-, -, -, -, -, -, hq, hrq⟩ := Render_input hr
  rw [hrq, hq, Init_shouldQuit hi]
  cases (Shutdown env g).shouldQuit
  · simp [← any_isQuitEvent]
  · simp

theorem C13_shutdown_state_witness :
    Init demoInitEnv 4 2 false (Shutdown demoShutdownEnv demoState) =
      some (some ⟨4096, 32, fun _ => 0⟩, reinit (Shutdown demoShutdownEnv demoState)) ∧
    ∃ r g3, Render (demoRenderEnv []) (reinit (Shutdown demoShutdownEnv demoState)) =
        some (r, g3) ∧
      (r = true ↔ ((Shutdown demoShutdownEnv demoState).shouldQuit = false ∧
        ∀ m ∈ (demoRenderEnv []).messages, isQuitEvent m = false)) :=
  ⟨rfl, (C13_shutdown_state demoShutdownEnv demoState).2.2.2.2.2.2.2.2.2.2.2
    demoInitEnv 4 2 false ⟨4096, 32, fun _ => 0⟩ (reinit (Shutdown demoShutdownEnv demoState))
    (demoRenderEnv []) rfl rfl (by decide)⟩

/-! ## C14: Shutdown called twice -/

/-- C14, evaluated: after `Init` and `Shutdown`, a second `Shutdown` signals and queries the
released fence, closes the closed event handle, calls `Release` on each of the ten released objects
and destroys the destroyed window again; only `free` receives a null pointer.  `Shutdown`
nulls the pixel pointer and no other handle, so every other guard is still true. -/
theorem C14_second_shutdown :
    (Shutdown demoShutdownEnv demoState).calls =
      demoState.calls ++
        [.Signal 1, .GetCompletedValue 0, .SetEventOnCompletion 1, .WaitForSingleObject,
         .CloseHandle (some 15),
         .Release .fence, .Release .uploadBuffer, .Release .commandList,
         .Release .commandAllocator, .Release .renderTarget0, .Release .renderTarget1,
         .Release .rtvHeap, .Release .swapChain, .Release .commandQueue, .Release .device,
         .DestroyWindow (some 1), .UnregisterClassW, .free (some 4096)] ∧
    (Shutdown demoShutdownEnv (Shutdown demoShutdownEnv demoState)).calls =
      (Shutdown demoShutdownEnv demoState).calls ++
        [.Signal 2, .GetCompletedValue 0, .SetEventOnCompletion 2, .WaitForSingleObject,
         .CloseHandle (some 15),
         .Release .fence, .Release .uploadBuffer, .Release .commandList,
         .Release .commandAllocator, .Release .renderTarget0, .Release .renderTarget1,
         .Release .rtvHeap, .Release .swapChain, .Release .commandQueue, .Release .device,
         .DestroyWindow (some 1), .UnregisterClassW, .free none] ∧
    (Shutdown demoShutdownEnv demoState).device = some 2 ∧
    (Shutdown demoShutdownEnv demoState).hwnd = some 1 :=
  ⟨by decide, by decide, by decide, by decide⟩

/-! ## C15: Shutdown before Init -/

/-- C15: in a state that holds no window, no GPU object, no fence event and no pixel buffer
(the startup state is one), `Shutdown` signals no fence, releases nothing, closes no handle
and destroys no window: its only call is `free` on the null pointer, and every global keeps
its value. -/
theorem C15_shutdown_uninitialized (env : ShutdownEnv) (g : Internal) (h : NoResources g) :
    Shutdown env g = logCalls g [.free none] := by
  obtain ⟨h1, h2, h3, h4, h5, h6, h7, h8, h9, h10, h11, h12, h13⟩ := h
  cases g
  simp only [] at h1 h2 h3 h4 h5 h6 h7 h8 h9 h10 h11 h12 h13
  subst h1 h2 h3 h4 h5 h6 h7 h8 h9 h10 h11 h12 h13
  rw [Shutdown_eq]
  rfl

theorem C15_shutdown_uninitialized_witness :
    NoResources startup ∧
    Shutdown demoShutdownEnv startup = { startup with calls := [.free none] } :=
  ⟨⟨rfl, rfl, rfl, rfl, rfl, rfl, rfl, rfl, rfl, rfl, rfl, rfl, rfl⟩,
    C15_shutdown_uninitialized demoShutdownEnv startup
      ⟨rfl, rfl, rfl, rfl, rfl, rfl, rfl, rfl, rfl, rfl, rfl, rfl, rfl⟩⟩

/-! ## The window procedure: one boolean per message -/

/-- C18. A button message sets or clears exactly the entry of its button in `mouseButtons`, a
key message with code below 256 sets or clears exactly the entry of its code in `keys`, a key
message with code 256 or more changes nothing; everything else, in particular the other
entries of the current snapshot, the previous-frame snapshot and the quit flag, stays as it
is. -/
theorem C18_one_boolean (g : Internal) (m : MSG) :
    (∀ b : Fin 3, m.message = buttonDown b →
      WndProc g m = { g with mouseButtons := Function.update g.mouseButtons b true }) ∧
    (∀ b : Fin 3, m.message = buttonUp b →
      WndProc g m = { g with mouseButtons := Function.update g.mouseButtons b false }) ∧
    (∀ h : m.wParam < 256, m.message = .WM_KEYDOWN →
      WndProc g m = { g with keys := Function.update g.keys ⟨m.wParam, h⟩ true }) ∧
    (∀ h : m.wParam < 256, m.message = .WM_KEYUP →
      WndProc g m = { g with keys := Function.update g.keys ⟨m.wParam, h⟩ false }) ∧
    (256 ≤ m.wParam → m.message = .WM_KEYDOWN ∨ m.message = .WM_KEYUP → WndProc g m = g) := by
  refine ⟨?_, ?_, ?_, ?_, ?_⟩
  · intro b hm
    unfold WndProc
    fin_cases b <;> simp [buttonDown] at hm <;> simp [hm]
  · intro b hm
    unfold WndProc
    fin_cases b <;> simp [buttonUp] at hm <;> simp [hm]
  · intro h hm
    unfold WndProc
    simp [hm, h]
  · intro h hm
    unfold WndProc
    simp [hm, h]
  · intro h hm
    have hn : ¬ m.wParam < 256 := by omega
    unfold WndProc
    rcases hm with hm | hm <;> simp [hm, hn]

/-- Witness for C18: in the state after `Init(4, 2)`, the right-button-down message, the
key-down message of key 65 and the key-down message of code 300. -/
theorem C18_one_boolean_witness :
    WndProc demoState ⟨.WM_RBUTTONDOWN, 0, 0, ⟨0, 0, 0, 0⟩⟩ =
      { demoState with mouseButtons := Function.update demoState.mouseButtons 1 true } ∧
    WndProc demoState ⟨.WM_RBUTTONUP, 0, 0, ⟨0, 0, 0, 0⟩⟩ =
      { demoState with mouseButtons := Function.update demoState.mouseButtons 1 false } ∧
    WndProc demoState (keyDown 65) =
      { demoState with keys := Function.update demoState.keys ⟨65, by decide⟩ true } ∧
    WndProc demoState (keyUp 65) =
      { demoState with keys := Function.update demoState.keys ⟨65, by decide⟩ false } ∧
    WndProc demoState (keyDown 300) = demoState :=
  ⟨(C18_one_boolean demoState ⟨.WM_RBUTTONDOWN, 0, 0, ⟨0, 0, 0, 0⟩⟩).1 1 rfl,
   (C18_one_boolean demoState ⟨.WM_RBUTTONUP, 0, 0, ⟨0, 0, 0, 0⟩⟩).2.1 1 rfl,
   (C18_one_boolean demoState (keyDown 65)).2.2.1 (by decide) rfl,
   (C18_one_boolean demoState (keyUp 65)).2.2.2.1 (by decide) rfl,
   (C18_one_boolean demoState (keyDown 300)).2.2.2.2 (by decide) (Or.inl rfl)⟩

/-! ## C19: the present parameters -/

/-- C19: `SetVSync` only stores the flag and `GetVSync` returns it.  A `Render` call that
returns true has issued exactly one `Present`, as its last call, with sync interval 1 when
the vsync flag is set and 0 otherwise, and with the allow-tearing flag exactly when the
vsync flag is clear and tearing is supported.  Hence a `SetVSync` call decides the
parameters of the next present. -/
theorem C19_present_flags (env : RenderEnv) (g : Internal) :
    (∀ b, GetVSync (SetVSync g b) = b ∧ SetVSync g b = { g with vsyncEnabled := b }) ∧
    (∀ g', Render env g = some (true, g') →
      ∃ cs, g'.calls = g.calls ++ cs ++
          [.Present (if GetVSync g then 1 else 0)
            (if !GetVSync g && g.tearingSupported then DXGI_PRESENT_ALLOW_TEARING else 0)] ∧
        cs.all (fun c => !isPresent c) = true) ∧
    (∀ b g', Render env (SetVSync g b) = some (true, g') →
      ∃ cs, g'.calls = g.calls ++ cs ++
          [.Present (if b then 1 else 0)
            (if !b && g.tearingSupported then DXGI_PRESENT_ALLOW_TEARING else 0)] ∧
        cs.all (fun c => !isPresent c) = true) ∧
    (∀ v t : Bool, (if !v && t then DXGI_PRESENT_ALLOW_TEARING else 0) = DXGI_PRESENT_ALLOW_TEARING ↔
      v = false ∧ t = true) := by
  have key : ∀ (g g' : Internal), Render env g = some (true, g') →
      ∃ cs, g'.calls = g.calls ++ cs ++
          [.Present (if g.vsyncEnabled then 1 else 0)
            (if !g.vsyncEnabled && g.tearingSupported then DXGI_PRESENT_ALLOW_TEARING else 0)] ∧
        cs.all (fun c => !isPresent c) = true := by
    intro g g' h
    rcases Render_cases h with ⟨-, h2, -⟩ | ⟨-, h2⟩
    · cases h2
    · obtain ⟨-, -, hc, -⟩ := presentFrame_spec h2
      obtain ⟨dt, fs, fps, tt, fc, cs0, q, mx, my, mb, ks, e⟩ := pollFrame_eq env g
      have ev : (pollFrame env g).vsyncEnabled = g.vsyncEnabled := by rw [e]
      have et : (pollFrame env g).tearingSupported = g.tearingSupported := by rw [e]
      obtain ⟨cs, hcs, hall⟩ := presentCalls_last env (pollFrame env g)
      rw [hcs, ev, et] at hc
      rcases pollFrame_calls env g with hp | ⟨fps, ms, hp⟩
      · refine ⟨cs, ?_, hall⟩
        rw [hc, hp, List.append_assoc]
      · refine ⟨[.SetWindowTextA g.hwnd g.appName fps ms] ++ cs, ?_, ?_⟩
        · rw [hc, hp]
          simp [List.append_assoc]
        · simpa [isPresent] using hall
  refine ⟨fun b => ⟨rfl, rfl⟩, fun g' h => key g g' h, fun b g' h => key (SetVSync g b) g' h, ?_⟩
  intro v t
  cases v <;> cases t <;> simp [DXGI_PRESENT_ALLOW_TEARING]

theorem C19_present_flags_witness :
    (∃ g', Render (demoRenderEnv []) (SetVSync demoState false) = some (true, g')) ∧
    ∃ cs, (afterRender (demoRenderEnv []) (SetVSync demoState false)).calls =
        demoState.calls ++ cs ++ [.Present 0 DXGI_PRESENT_ALLOW_TEARING] ∧
      cs.all (fun c => !isPresent c) = true :=
  ⟨⟨_, rfl⟩, (C19_present_flags (demoRenderEnv []) demoState).2.2.1 false
    (afterRender (demoRenderEnv []) (SetVSync demoState false)) rfl⟩

/-! ## SetSize on its successful path -/

theorem eraseSize_setSizeWait (env : SetSizeEnv) (g : Internal) :
    eraseSize (setSizeWait env g) = eraseSize g := by
  unfold setSizeWait
  split <;> rfl

theorem eraseSize_setSizeRelease (g : Internal) :
    eraseSize (setSizeRelease g) = eraseSize g := by
  unfold setSizeRelease
  simp only []
  split <;> split <;> split <;> rfl

theorem eraseSize_setSizeFinish (env : SetSizeEnv) (width height : Nat) (g : Internal) :
    eraseSize (setSizeFinish env width height g) = eraseSize g := by
  unfold setSizeFinish
  simp only []
  split <;> rfl

theorem gpuTrack_append (a b : List Api) :
    gpuTrack (a ++ b) = b.foldl gpuStep (gpuTrack a) := by
  unfold gpuTrack
  rw [List.foldl_append]

/-- A call that neither submits, nor signals, nor creates a fence leaves an idle GPU idle
and keeps `safe`, `increasing` and `top`. -/
theorem gpuStep_quiet_idle (t : GpuTrack) (c : Api) (h : isQuiet c = true)
    (hi : t.inFlight = false) :
    (gpuStep t c).inFlight = false ∧ (gpuStep t c).safe = t.safe ∧
    (gpuStep t c).increasing = t.increasing ∧ (gpuStep t c).top = t.top := by
  obtain ⟨i, s, inc, top, mk, ar⟩ := t
  simp only [] at hi
  subst hi
  unfold isQuiet at h
  simp only [Bool.and_eq_true, Bool.not_eq_true'] at h
  obtain ⟨⟨h1, h2⟩, h3⟩ := h
  cases c
  case ExecuteCommandLists => exact absurd h1 (by decide)
  case Signal v => cases h2
  case GetCompletedValue cv =>
    simp only [gpuStep]
    split <;> exact ⟨rfl, rfl, rfl, rfl⟩
  case SetEventOnCompletion v => exact ⟨rfl, rfl, rfl, rfl⟩
  case WaitForSingleObject =>
    simp only [gpuStep]
    split
    · split <;> exact ⟨rfl, rfl, rfl, rfl⟩
    · exact ⟨rfl, rfl, rfl, rfl⟩
  all_goals
    simp only [gpuStep, h3]
    simp

theorem fold_quiet_idle (cs : List Api) (h : cs.all isQuiet = true) :
    ∀ t : GpuTrack, t.inFlight = false →
      (cs.foldl gpuStep t).inFlight = false ∧ (cs.foldl gpuStep t).safe = t.safe ∧
      (cs.foldl gpuStep t).increasing = t.increasing ∧ (cs.foldl gpuStep t).top = t.top := by
  induction cs with
  | nil => exact fun t hi => ⟨hi, rfl, rfl, rfl⟩
  | cons c cs ih =>
    intro t hi
    rw [List.all_cons, Bool.and_eq_true] at h
    obtain ⟨a1, a2, a3, a4⟩ := gpuStep_quiet_idle t c h.1 hi
    obtain ⟨b1, b2, b3, b4⟩ := ih h.2 (gpuStep t c) a1
    rw [List.foldl_cons]
    exact ⟨b1, b2.trans a2, b3.trans a3, b4.trans a4⟩

/-- The handshake at a value above every value of the fence leaves an idle GPU, whatever
`GetCompletedValue` answers, and the fence at that value. -/
theorem fold_waitCalls (cv v : Nat) (t : GpuTrack) (h : t.top < v) :
    ((waitCalls cv v).foldl gpuStep t).inFlight = false ∧
    ((waitCalls cv v).foldl gpuStep t).safe = t.safe ∧
    ((waitCalls cv v).foldl gpuStep t).increasing = t.increasing ∧
    ((waitCalls cv v).foldl gpuStep t).top = v := by
  obtain ⟨i, s, inc, top, mk, ar⟩ := t
  simp only [] at h
  unfold waitCalls
  by_cases hc : cv < v
  · rw [if_pos hc]
    have hn : ¬ v ≤ cv := by omega
    simp [gpuStep, markerReached, h, hn]
  · rw [if_neg hc]
    have hn : v ≤ cv := by omega
    simp [gpuStep, markerReached, h, hn]

theorem fold_presentCalls (env : RenderEnv) (g : Internal) (t : GpuTrack)
    (h : t.top < g.fenceValue) :
    ((presentCalls env g).foldl gpuStep t).inFlight = true ∧
    ((presentCalls env g).foldl gpuStep t).safe = t.safe ∧
    ((presentCalls env g).foldl gpuStep t).increasing = t.increasing ∧
    ((presentCalls env g).foldl gpuStep t).top = g.fenceValue := by
  obtain ⟨a1, a2, a3, a4⟩ := fold_waitCalls env.completedValue g.fenceValue t h
  unfold presentCalls
  rw [List.foldl_append]
  generalize (waitCalls env.completedValue g.fenceValue).foldl gpuStep t = u at a1 a2 a3 a4
  obtain ⟨i, s, inc, top, mk, ar⟩ := u
  simp only [] at a1 a2 a3 a4
  subst a1 a2 a3 a4
  simp [List.foldl, gpuStep, isFenceCreate, isHazard]

theorem fold_guardedWait (cv : Nat) (g : Internal) (t : GpuTrack)
    (h : t.inFlight = true → g.fence.isSome = true ∧ g.commandQueue.isSome = true)
    (hv : g.fence.isSome = true → t.top < g.fenceValue) :
    ((guardedWaitCalls cv g).foldl gpuStep t).inFlight = false ∧
    ((guardedWaitCalls cv g).foldl gpuStep t).safe = t.safe ∧
    ((guardedWaitCalls cv g).foldl gpuStep t).increasing = t.increasing ∧
    ((guardedWaitCalls cv g).foldl gpuStep t).top =
      (if g.fence.isSome ∧ g.commandQueue.isSome then g.fenceValue else t.top) := by
  unfold guardedWaitCalls
  by_cases hgd : g.fence.isSome ∧ g.commandQueue.isSome
  · rw [if_pos hgd, if_pos hgd]
    exact fold_waitCalls _ _ _ (hv hgd.1)
  · rw [if_neg hgd, if_neg hgd]
    refine ⟨?_, rfl, rfl, rfl⟩
    cases hi : t.inFlight
    · exact hi
    · exact absurd (h hi) hgd

theorem releaseCall_quiet (p : Bool) (o : Obj) : (releaseCall p o).all isQuiet = true := by
  cases p <;> rfl

theorem shutdownCalls_split (env : ShutdownEnv) (g : Internal) :
    ∃ cs, shutdownCalls env g = guardedWaitCalls env.completedValue g ++ cs ∧
      cs.all isQuiet = true := by
  refine ⟨(if g.fenceEvent.isSome then [.CloseHandle g.fenceEvent] else []) ++
    releaseCall g.fence.isSome .fence ++
    releaseCall g.uploadBuffer.isSome .uploadBuffer ++
    releaseCall g.commandList.isSome .commandList ++
    releaseCall g.commandAllocator.isSome .commandAllocator ++
    releaseCall g.renderTargets0.isSome .renderTarget0 ++
    releaseCall g.renderTargets1.isSome .renderTarget1 ++
    releaseCall g.rtvHeap.isSome .rtvHeap ++
    releaseCall g.swapChain.isSome .swapChain ++
    releaseCall g.commandQueue.isSome .commandQueue ++
    releaseCall g.device.isSome .device ++
    (if g.hwnd.isSome then [.DestroyWindow g.hwnd, .UnregisterClassW] else []) ++
    [.free (g.Pixels.map Block.addr)], ?_, ?_⟩
  · simp [shutdownCalls, List.append_assoc]
  · simp only [List.all_append, releaseCall_quiet, Bool.and_eq_true, and_true, true_and]
    refine ⟨⟨?_, ?_⟩, rfl⟩
    · split <;> rfl
    · split <;> rfl

theorem signalsOf_append (a b : List Api) : signalsOf (a ++ b) = signalsOf a ++ signalsOf b := by
  unfold signalsOf
  rw [List.filterMap_append]

theorem signalsOf_quiet (cs : List Api) (h : cs.all isQuiet = true) : signalsOf cs = [] := by
  induction cs with
  | nil => rfl
  | cons c cs ih =>
    rw [List.all_cons, Bool.and_eq_true] at h
    have hc := h.1
    unfold isQuiet at hc
    simp only [Bool.and_eq_true, Bool.not_eq_true'] at hc
    have e : signalsOf (c :: cs) = signalsOf cs := by
      cases c <;> first | rfl | (exact absurd hc.1.2 (by simp [isSignal]))
    rw [e]
    exact ih h.2

theorem signalsOf_waitCalls (cv v : Nat) : signalsOf (waitCalls cv v) = [v] := by
  unfold waitCalls
  split <;> rfl

theorem signalsOf_guardedWait (cv : Nat) (g : Internal) :
    signalsOf (guardedWaitCalls cv g) =
      if g.fence.isSome ∧ g.commandQueue.isSome then [g.fenceValue] else [] := by
  unfold guardedWaitCalls
  split
  · exact signalsOf_waitCalls _ _
  · rfl

theorem signalsOf_presentCalls (env : RenderEnv) (g : Internal) :
    signalsOf (presentCalls env g) = [g.fenceValue] := by
  unfold presentCalls
  rw [signalsOf_append, signalsOf_waitCalls]
  rfl

theorem follows_refl (old : List Api) : Follows old old := ⟨[], by simp, rfl⟩

theorem follows_step {old x cs1 : List Api} (h : Follows old x)
    (h1 : cs1.all isQuiet = true) : Follows old (x ++ cs1) := by
  obtain ⟨cs, rfl, hcs⟩ := h
  exact ⟨cs ++ cs1, by simp, by rw [List.all_append, hcs, h1]; rfl⟩

theorem follows_track {old new : List Api} (h : Follows old new)
    (hi : (gpuTrack old).inFlight = false) :
    (gpuTrack new).inFlight = false ∧ (gpuTrack new).safe = (gpuTrack old).safe ∧
    (gpuTrack new).increasing = (gpuTrack old).increasing ∧
    (gpuTrack new).top = (gpuTrack old).top := by
  obtain ⟨cs, rfl, hcs⟩ := h
  rw [gpuTrack_append]
  exact fold_quiet_idle cs hcs _ hi

theorem followsFence_track {f : Ptr} {old new : List Api} (h : FollowsFence f old new)
    (hi : (gpuTrack old).inFlight = false) :
    (gpuTrack new).inFlight = false ∧ (gpuTrack new).safe = (gpuTrack old).safe ∧
    (gpuTrack new).increasing = (gpuTrack old).increasing ∧ (gpuTrack new).top = 0 := by
  obtain ⟨cs1, cs2, rfl, h1, h2⟩ := h
  rw [gpuTrack_append, gpuTrack_append, gpuTrack_append]
  obtain ⟨a1, a2, a3, -⟩ := fold_quiet_idle cs1 h1 _ hi
  generalize cs1.foldl gpuStep (gpuTrack old) = u at a1 a2 a3
  have hb : ([Api.Create Obj.fence f].foldl gpuStep u).inFlight = false ∧
      ([Api.Create Obj.fence f].foldl gpuStep u).safe = u.safe ∧
      ([Api.Create Obj.fence f].foldl gpuStep u).increasing = u.increasing ∧
      ([Api.Create Obj.fence f].foldl gpuStep u).top = 0 := by
    simp [List.foldl, gpuStep, isFenceCreate, a1]
  obtain ⟨b1, b2, b3, b4⟩ := hb
  obtain ⟨c1, c2, c3, c4⟩ := fold_quiet_idle cs2 h2 _ b1
  exact ⟨c1, c2.trans (b2.trans a2), c3.trans (b3.trans a3), c4.trans b4⟩

theorem followsFence_signals {f : Ptr} {old new : List Api} (h : FollowsFence f old new) :
    signalsOf new = signalsOf old := by
  obtain ⟨cs1, cs2, rfl, h1, h2⟩ := h
  rw [signalsOf_append, signalsOf_append, signalsOf_append, signalsOf_quiet cs1 h1,
    signalsOf_quiet cs2 h2]
  simp [signalsOf]

theorem followsFence_step {f : Ptr} {old x cs : List Api} (h : FollowsFence f old x)
    (h1 : cs.all isQuiet = true) : FollowsFence f old (x ++ cs) := by
  obtain ⟨cs1, cs2, rfl, q1, q2⟩ := h
  exact ⟨cs1, cs2 ++ cs, by simp, q1, by rw [List.all_append, q2, h1]; rfl⟩

theorem follows_signals {old new : List Api} (h : Follows old new) :
    signalsOf new = signalsOf old := by
  obtain ⟨cs, rfl, hcs⟩ := h
  rw [signalsOf_append, signalsOf_quiet cs hcs, List.append_nil]

theorem pollFrame_fence (env : RenderEnv) (g : Internal) :
    (pollFrame env g).fence = g.fence ∧ (pollFrame env g).commandQueue = g.commandQueue ∧
    (pollFrame env g).fenceValue = g.fenceValue := by
  obtain ⟨dt, fs, fps, tt, fc, cs, q, mx, my, mb, ks, e⟩ := pollFrame_eq env g
  rw [e]
  exact ⟨rfl, rfl, rfl⟩

theorem pollFrame_follows (env : RenderEnv) (g : Internal) :
    Follows g.calls (pollFrame env g).calls := by
  rcases pollFrame_calls env g with hp | ⟨fps, ms, hp⟩ <;> rw [hp]
  · exact follows_refl _
  · exact follows_step (follows_refl _) rfl

theorem pollFrame_track (env : RenderEnv) (g : Internal) :
    gpuTrack (pollFrame env g).calls = gpuTrack g.calls := by
  rcases pollFrame_calls env g with hp | ⟨fps, ms, hp⟩ <;> rw [hp]
  rw [gpuTrack_append]
  rfl

/-- What `Render` does to the call log: when it quits, nothing that matters to the fence
protocol; otherwise one handshake at the stored fence value and one submission. -/
theorem Render_track {env : RenderEnv} {g g' : Internal} {r : Bool}
    (h : Render env g = some (r, g')) :
    g'.fence = g.fence ∧ g'.commandQueue = g.commandQueue ∧
    ((gpuTrack g'.calls = gpuTrack g.calls ∧ signalsOf g'.calls = signalsOf g.calls ∧
        g'.fenceValue = g.fenceValue) ∨
     (g.fence.isSome = true ∧ g.commandQueue.isSome = true ∧
        (∃ x : Internal, gpuTrack x.calls = gpuTrack g.calls ∧
          signalsOf x.calls = signalsOf g.calls ∧ x.fenceValue = g.fenceValue ∧
          g'.calls = x.calls ++ presentCalls env x) ∧
        g'.fenceValue = wrap64 (g.fenceValue + 1))) := by
  obtain ⟨p1, p2, p3⟩ := pollFrame_fence env g
  rcases Render_cases h with ⟨-, -, rfl⟩ | ⟨-, h2⟩
  · exact ⟨p1, p2, Or.inl ⟨pollFrame_track env g, follows_signals (pollFrame_follows env g), p3⟩⟩
  · obtain ⟨-, e⟩ := presentFrame_eq h2
    obtain ⟨hf, hq, hc, -⟩ := presentFrame_spec h2
    have e1 : g'.fence = (pollFrame env g).fence := by rw [e]
    have e2 : g'.commandQueue = (pollFrame env g).commandQueue := by rw [e]
    have e3 : g'.fenceValue = wrap64 ((pollFrame env g).fenceValue + 1) := by rw [e]
    rw [p1] at hf e1
    rw [p2] at hq e2
    rw [p3] at e3
    exact ⟨e1, e2, Or.inr ⟨hf, hq, ⟨pollFrame env g, pollFrame_track env g,
      follows_signals (pollFrame_follows env g), p3, hc⟩, e3⟩⟩

/-- The call log of `Shutdown`: the guarded handshake, and then calls that neither submit
nor signal. -/
theorem Shutdown_track (env : ShutdownEnv) (g : Internal) :
    (Shutdown env g).fence = g.fence ∧ (Shutdown env g).commandQueue = g.commandQueue ∧
    (Shutdown env g).fenceValue = shutdownFenceValue g ∧
    Follows (g.calls ++ guardedWaitCalls env.completedValue g) (Shutdown env g).calls := by
  have e := Shutdown_prev env g
  have e1 := congrArg Internal.fence e
  have e2 := congrArg Internal.commandQueue e
  have e3 := congrArg Internal.fenceValue e
  refine ⟨e1, e2, e3, ?_⟩
  obtain ⟨cs, hcs, hq⟩ := shutdownCalls_split env g
  have hc : (Shutdown env g).calls = g.calls ++ shutdownCalls env g := by rw [Shutdown_eq]
  rw [hc, hcs, ← List.append_assoc]
  exact ⟨cs, rfl, hq⟩

theorem follows_trans {a b c : List Api} (h1 : Follows a b) (h2 : Follows b c) :
    Follows a c := by
  obtain ⟨cs1, rfl, hq1⟩ := h1
  obtain ⟨cs2, rfl, hq2⟩ := h2
  exact ⟨cs1 ++ cs2, by simp, by rw [List.all_append, hq1, hq2]; rfl⟩

theorem resizing_of {g x y : Internal} {base : List Api} {v : Nat}
    (h1 : Follows x.calls y.calls) (h2 : y.fenceValue = x.fenceValue)
    (h3 : eraseSize y = eraseSize x) (h : Resizing g base v x) : Resizing g base v y :=
  ⟨follows_trans h.1 h1, h2.trans h.2.1, h3.trans h.2.2⟩

theorem setSizeRelease_follows (x : Internal) :
    Follows x.calls (setSizeRelease x).calls ∧ (setSizeRelease x).fenceValue = x.fenceValue := by
  unfold setSizeRelease
  simp only []
  split <;> split <;> split <;>
    first
    | exact ⟨follows_refl _, rfl⟩
    | exact ⟨follows_step (follows_refl _) rfl, rfl⟩
    | exact ⟨follows_step (follows_step (follows_refl _) rfl) rfl, rfl⟩
    | exact ⟨follows_step (follows_step (follows_step (follows_refl _) rfl) rfl) rfl, rfl⟩

theorem setSizeFinish_follows (env : SetSizeEnv) (width height : Nat) (x : Internal) :
    Follows x.calls (setSizeFinish env width height x).calls ∧
    (setSizeFinish env width height x).fenceValue = x.fenceValue := by
  unfold setSizeFinish
  simp only []
  split
  · exact ⟨follows_step (follows_step (follows_refl _) rfl) rfl, rfl⟩
  · exact ⟨follows_step (follows_refl _) rfl, rfl⟩

theorem resizing_realloc (env : SetSizeEnv) (width height : Nat) {g x : Internal}
    {base : List Api} {v : Nat} (h : Resizing g base v x) :
    Resizing g base v (setSizeRealloc env width height x) :=
  @resizing_of g x (setSizeRealloc env width height x) base v
    (follows_step (follows_refl _) rfl) rfl rfl h

theorem resizing_resize (env : SetSizeEnv) (width height : Nat) {g x : Internal}
    {base : List Api} {v : Nat} (h : Resizing g base v x) :
    Resizing g base v (setSizeResize env width height x) :=
  @resizing_of g x (setSizeResize env width height x) base v
    (follows_step (follows_refl _) rfl) rfl rfl h

theorem resizing_target0 (env : SetSizeEnv) {g x : Internal}
    {base : List Api} {v : Nat} (h : Resizing g base v x) :
    Resizing g base v (setSizeTarget0 env x) :=
  @resizing_of g x (setSizeTarget0 env x) base v
    (follows_step (follows_refl _) rfl) rfl rfl h

theorem resizing_target1 (env : SetSizeEnv) {g x : Internal}
    {base : List Api} {v : Nat} (h : Resizing g base v x) :
    Resizing g base v (setSizeTarget1 env x) :=
  @resizing_of g x (setSizeTarget1 env x) base v
    (follows_step (follows_refl _) rfl) rfl rfl h

theorem resizing_upload (env : SetSizeEnv) (width height : Nat) {g x : Internal}
    {base : List Api} {v : Nat} (h : Resizing g base v x) :
    Resizing g base v (setSizeUpload env width height x) :=
  @resizing_of g x (setSizeUpload env width height x) base v
    (follows_step (follows_refl _) rfl) rfl rfl h

/-- What `SetSize` does to the fence protocol on every path on which it returns: nothing
when the size is unchanged; otherwise the guarded handshake first, and then calls that
neither submit nor signal. -/
theorem SetSize_track {env : SetSizeEnv} {width height : Nat} {g g' : Internal}
    {p : Option Block} (h : SetSize env width height g = some (p, g')) :
    g' = g ∨ Resizing g (g.calls ++ guardedWaitCalls env.completedValue g)
      (shutdownFenceValue g) g' := by
  rw [SetSize_sections] at h
  unfold setSizeSections at h
  by_cases hsame : width = g.width ∧ height = g.height
  · rw [if_pos hsame] at h
    simp only [Option.some.injEq, Prod.mk.injEq] at h
    exact Or.inl h.2.symm
  rw [if_neg hsame] at h
  simp only [] at h
  right
  have hw : setSizeWait env g =
      { g with fenceValue := shutdownFenceValue g,
               calls := g.calls ++ guardedWaitCalls env.completedValue g } :=
    wait_step env.completedValue g
  have H0 : Resizing g (g.calls ++ guardedWaitCalls env.completedValue g)
      (shutdownFenceValue g) (setSizeWait env g) := by
    refine ⟨?_, ?_, eraseSize_setSizeWait env g⟩
    · rw [hw]
      exact follows_refl _
    · rw [hw]
  have H1 := resizing_of (setSizeRelease_follows _).1 (setSizeRelease_follows _).2
    (eraseSize_setSizeRelease _) H0
  have H2 := resizing_realloc env width height H1
  have H3 := resizing_resize env width height H2
  have H4 := resizing_target0 env H3
  have H5 := resizing_target1 env H4
  have H6 := resizing_upload env width height H5
  have H7 := resizing_of (setSizeFinish_follows env width height _).1
    (setSizeFinish_follows env width height _).2 (eraseSize_setSizeFinish env width height _) H6
  split at h
  · simp only [Option.some.injEq, Prod.mk.injEq] at h
    rw [← h.2]
    exact H2
  split at h
  · exact absurd h (by simp)
  split at h
  · simp only [Option.some.injEq, Prod.mk.injEq] at h
    rw [← h.2]
    exact H3
  split at h
  · exact absurd h (by simp)
  split at h
  · simp only [Option.some.injEq, Prod.mk.injEq] at h
    rw [← h.2]
    exact H4
  split at h
  · exact absurd h (by simp)
  split at h
  · simp only [Option.some.injEq, Prod.mk.injEq] at h
    rw [← h.2]
    exact H5
  split at h
  · simp only [Option.some.injEq, Prod.mk.injEq] at h
    rw [← h.2]
    exact H6
  simp only [Option.some.injEq, Prod.mk.injEq] at h
  rw [← h.2]
  exact H7

theorem SetFullscreen_follows (desk : Desktop) (b : Bool) (g : Internal) :
    Follows g.calls (SetFullscreen desk b g).calls := by
  unfold SetFullscreen
  split
  · exact follows_refl _
  · simp only []
    split
    · exact follows_step (follows_refl _) rfl
    · exact follows_step (follows_refl _) rfl

theorem SetFullscreen_fence (desk : Desktop) (b : Bool) (g : Internal) :
    (SetFullscreen desk b g).fence = g.fence ∧
    (SetFullscreen desk b g).fenceValue = g.fenceValue := by
  unfold SetFullscreen
  split
  · exact ⟨rfl, rfl⟩
  · simp only []
    split <;> exact ⟨rfl, rfl⟩

theorem pre_initWindow (env : InitEnv) (width height : Nat) {g x : Internal}
    (h : Follows g.calls x.calls ∧ x.fence = g.fence ∧ x.fenceValue = g.fenceValue) :
    Follows g.calls (initWindow env width height x).calls ∧
    (initWindow env width height x).fence = g.fence ∧
    (initWindow env width height x).fenceValue = g.fenceValue :=
  ⟨follows_step h.1 rfl, h.2.1, h.2.2⟩

theorem pre_initDevice (env : InitEnv) {g x : Internal}
    (h : Follows g.calls x.calls ∧ x.fence = g.fence ∧ x.fenceValue = g.fenceValue) :
    Follows g.calls (initDevice env x).calls ∧ (initDevice env x).fence = g.fence ∧
    (initDevice env x).fenceValue = g.fenceValue :=
  ⟨follows_step h.1 rfl, h.2.1, h.2.2⟩

theorem pre_initCommandQueue (env : InitEnv) {g x : Internal}
    (h : Follows g.calls x.calls ∧ x.fence = g.fence ∧ x.fenceValue = g.fenceValue) :
    Follows g.calls (initCommandQueue env x).calls ∧
    (initCommandQueue env x).fence = g.fence ∧
    (initCommandQueue env x).fenceValue = g.fenceValue :=
  ⟨follows_step h.1 rfl, h.2.1, h.2.2⟩

theorem pre_initFactory (env : InitEnv) {g x : Internal}
    (h : Follows g.calls x.calls ∧ x.fence = g.fence ∧ x.fenceValue = g.fenceValue) :
    Follows g.calls (initFactory env x).calls ∧ (initFactory env x).fence = g.fence ∧
    (initFactory env x).fenceValue = g.fenceValue :=
  ⟨follows_step h.1 rfl, h.2.1, h.2.2⟩

theorem pre_initTearing (env : InitEnv) {g x : Internal}
    (h : Follows g.calls x.calls ∧ x.fence = g.fence ∧ x.fenceValue = g.fenceValue) :
    Follows g.calls (initTearing env x).calls ∧ (initTearing env x).fence = g.fence ∧
    (initTearing env x).fenceValue = g.fenceValue := by
  unfold initTearing
  split
  · split
    · exact ⟨follows_step h.1 rfl, h.2.1, h.2.2⟩
    · exact ⟨follows_step h.1 rfl, h.2.1, h.2.2⟩
  · exact h

theorem pre_initSwapChain1 (env : InitEnv) (width height : Nat) {g x : Internal}
    (h : Follows g.calls x.calls ∧ x.fence = g.fence ∧ x.fenceValue = g.fenceValue) :
    Follows g.calls (initSwapChain1 env width height x).calls ∧
    (initSwapChain1 env width height x).fence = g.fence ∧
    (initSwapChain1 env width height x).fenceValue = g.fenceValue :=
  ⟨follows_step h.1 rfl, h.2.1, h.2.2⟩

theorem pre_initSwapChain (env : InitEnv) {g x : Internal}
    (h : Follows g.calls x.calls ∧ x.fence = g.fence ∧ x.fenceValue = g.fenceValue) :
    Follows g.calls (initSwapChain env x).calls ∧ (initSwapChain env x).fence = g.fence ∧
    (initSwapChain env x).fenceValue = g.fenceValue :=
  ⟨follows_step h.1 rfl, h.2.1, h.2.2⟩

theorem pre_initRtvHeap (env : InitEnv) {g x : Internal}
    (h : Follows g.calls x.calls ∧ x.fence = g.fence ∧ x.fenceValue = g.fenceValue) :
    Follows g.calls (initRtvHeap env x).calls ∧ (initRtvHeap env x).fence = g.fence ∧
    (initRtvHeap env x).fenceValue = g.fenceValue :=
  ⟨follows_step h.1 rfl, h.2.1, h.2.2⟩

theorem pre_initRenderTarget0 (env : InitEnv) {g x : Internal}
    (h : Follows g.calls x.calls ∧ x.fence = g.fence ∧ x.fenceValue = g.fenceValue) :
    Follows g.calls (initRenderTarget0 env x).calls ∧
    (initRenderTarget0 env x).fence = g.fence ∧
    (initRenderTarget0 env x).fenceValue = g.fenceValue :=
  ⟨follows_step h.1 rfl, h.2.1, h.2.2⟩

theorem pre_initRenderTarget1 (env : InitEnv) {g x : Internal}
    (h : Follows g.calls x.calls ∧ x.fence = g.fence ∧ x.fenceValue = g.fenceValue) :
    Follows g.calls (initRenderTarget1 env x).calls ∧
    (initRenderTarget1 env x).fence = g.fence ∧
    (initRenderTarget1 env x).fenceValue = g.fenceValue :=
  ⟨follows_step h.1 rfl, h.2.1, h.2.2⟩

theorem pre_initCommandAllocator (env : InitEnv) {g x : Internal}
    (h : Follows g.calls x.calls ∧ x.fence = g.fence ∧ x.fenceValue = g.fenceValue) :
    Follows g.calls (initCommandAllocator env x).calls ∧
    (initCommandAllocator env x).fence = g.fence ∧
    (initCommandAllocator env x).fenceValue = g.fenceValue :=
  ⟨follows_step h.1 rfl, h.2.1, h.2.2⟩

theorem pre_initCommandList (env : InitEnv) {g x : Internal}
    (h : Follows g.calls x.calls ∧ x.fence = g.fence ∧ x.fenceValue = g.fenceValue) :
    Follows g.calls (initCommandList env x).calls ∧
    (initCommandList env x).fence = g.fence ∧
    (initCommandList env x).fenceValue = g.fenceValue :=
  ⟨follows_step h.1 rfl, h.2.1, h.2.2⟩

theorem pre_initUploadBuffer (env : InitEnv) (width height : Nat) {g x : Internal}
    (h : Follows g.calls x.calls ∧ x.fence = g.fence ∧ x.fenceValue = g.fenceValue) :
    Follows g.calls (initUploadBuffer env width height x).calls ∧
    (initUploadBuffer env width height x).fence = g.fence ∧
    (initUploadBuffer env width height x).fenceValue = g.fenceValue :=
  ⟨follows_step h.1 rfl, h.2.1, h.2.2⟩

theorem post_initFence (env : InitEnv) {g x : Internal}
    (h : Follows g.calls x.calls ∧ x.fence = g.fence ∧ x.fenceValue = g.fenceValue) :
    FollowsFence env.fence g.calls (initFence env x).calls ∧
    (initFence env x).fence = env.fence ∧ (initFence env x).fenceValue = g.fenceValue := by
  obtain ⟨⟨cs, hcs, hq⟩, -, hv⟩ := h
  refine ⟨⟨cs, [], ?_, hq, rfl⟩, rfl, hv⟩
  have e : (initFence env x).calls = x.calls ++ [.Create .fence env.fence] := rfl
  rw [e, hcs, List.append_nil]

theorem post_initFenceEvent (env : InitEnv) {g x : Internal}
    (h : FollowsFence env.fence g.calls x.calls ∧ x.fence = env.fence ∧
      x.fenceValue = g.fenceValue) :
    FollowsFence env.fence g.calls (initFenceEvent env x).calls ∧
    (initFenceEvent env x).fence = env.fence ∧ (initFenceEvent env x).fenceValue = 1 :=
  ⟨followsFence_step h.1 rfl, h.2.1, rfl⟩

theorem post_initFinish (env : InitEnv) (fullscreen : Bool) {g x : Internal}
    (h : FollowsFence env.fence g.calls x.calls ∧ x.fence = env.fence ∧ x.fenceValue = 1) :
    FollowsFence env.fence g.calls (initFinish env fullscreen x).calls ∧
    (initFinish env fullscreen x).fence = env.fence ∧
    (initFinish env fullscreen x).fenceValue = 1 := by
  unfold initFinish
  simp only []
  split
  · obtain ⟨cs, hcs, hq⟩ := SetFullscreen_follows env.desk true
      { x with perfFrequency := env.perfFrequency, lastFrameTime := env.perfCounter }
    obtain ⟨f1, f2⟩ := SetFullscreen_fence env.desk true
      { x with perfFrequency := env.perfFrequency, lastFrameTime := env.perfCounter }
    refine ⟨?_, f1.trans h.2.1, f2.trans h.2.2⟩
    rw [hcs]
    exact followsFence_step h.1 hq
  · exact h

/-- On every path on which it returns, `Init` neither submits a command list nor signals
the fence.  Either it does not reach `CreateFence` and leaves `fence` and `fenceValue` as
they are, or it logs one `CreateFence` call, stores its answer in `fence` and, if that is
a fence, sets `fenceValue` to 1. -/
theorem Init_track {env : InitEnv} {width height : Nat} {fullscreen : Bool}
    {g g' : Internal} {p : Option Block}
    (h : Init env width height fullscreen g = some (p, g')) :
    (Follows g.calls g'.calls ∧ g'.fence = g.fence ∧ g'.fenceValue = g.fenceValue) ∨
    (FollowsFence env.fence g.calls g'.calls ∧ g'.fence = env.fence ∧
      ((env.fence.isSome = true ∧ g'.fenceValue = 1) ∨
        (env.fence = none ∧ g'.fenceValue = g.fenceValue))) := by
  have H1 := pre_initWindow env width height
    (⟨follows_refl g.calls, rfl, rfl⟩ :
      Follows g.calls g.calls ∧ g.fence = g.fence ∧ g.fenceValue = g.fenceValue)
  have H2 := pre_initDevice env H1
  have H3 := pre_initCommandQueue env H2
  have H4 := pre_initFactory env H3
  have H5 := pre_initTearing env H4
  have H6 := pre_initSwapChain1 env width height H5
  have H7 := pre_initSwapChain env H6
  have H8 := pre_initRtvHeap env H7
  have H9 := pre_initRenderTarget0 env H8
  have H10 := pre_initRenderTarget1 env H9
  have H11 := pre_initCommandAllocator env H10
  have H12 := pre_initCommandList env H11
  have H13 := pre_initUploadBuffer env width height H12
  have H14 := post_initFence env H13
  have H15 := post_initFenceEvent env H14
  have H16 := post_initFinish env fullscreen H15
  obtain ⟨desk, malloc, garbage, hwnd, device, cq, factory, factory5, allowTearing, sc1, sc,
    bbi, rtvHeap, rds, rt0, rt1, ca, cl, ub, fence, fe, pf, pc⟩ := env
  rcases hwnd with _ | hwnd
  · cases h
    exact Or.inl H1
  rcases device with _ | device
  · cases h
    exact Or.inl H2
  rcases cq with _ | cq
  · cases h
    exact Or.inl H3
  rcases factory with _ | factory
  · cases h
    exact Or.inl H4
  rcases sc1 with _ | sc1
  · cases h
    exact Or.inl H6
  rcases sc with _ | sc
  · cases h
  rcases rtvHeap with _ | rtvHeap
  · cases h
    exact Or.inl H8
  rcases rt0 with _ | rt0
  · cases h
    exact Or.inl H9
  rcases rt1 with _ | rt1
  · cases h
    exact Or.inl H10
  rcases ca with _ | ca
  · cases h
    exact Or.inl H11
  rcases cl with _ | cl
  · cases h
    exact Or.inl H12
  rcases ub with _ | ub
  · cases h
    exact Or.inl H13
  rcases fence with _ | fence
  · cases h
    exact Or.inr ⟨H14.1, H14.2.1, Or.inr ⟨rfl, H14.2.2⟩⟩
  rcases fe with _ | fe
  · cases h
    exact Or.inr ⟨H15.1, H15.2.1, Or.inl ⟨rfl, H15.2.2⟩⟩
  injection h with h
  injection h with h1 h2
  subst h2
  exact Or.inr ⟨H16.1, H16.2.1, Or.inl ⟨rfl, H16.2.2⟩⟩

theorem Init_signals {env : InitEnv} {width height : Nat} {fullscreen : Bool}
    {g g' : Internal} {p : Option Block}
    (h : Init env width height fullscreen g = some (p, g')) :
    signalsOf g'.calls = signalsOf g.calls := by
  rcases Init_track h with ⟨h1, -, -⟩ | ⟨h1, -, -⟩
  · exact follows_signals h1
  · exact followsFence_signals h1

/-- After the guarded handshake of `SetSize` or `Shutdown`, followed by calls that neither
submit nor signal, the GPU is idle and the fence invariant holds. -/
theorem after_guardedWait {g g2 : Internal} {cv : Nat} (hg : FenceInv g)
    (hv : g.fenceValue + 1 < 2 ^ 64)
    (hfo : Follows (g.calls ++ guardedWaitCalls cv g) g2.calls) (hf : g2.fence = g.fence)
    (hval : g2.fenceValue = shutdownFenceValue g) :
    (FenceInv g2 ∧ (gpuTrack g2.calls).inFlight = false) ∧
    g2.fenceValue ≤ g.fenceValue + 1 := by
  obtain ⟨hs, hinc, hfl, ht⟩ := hg
  have hb := fold_guardedWait cv g (gpuTrack g.calls) hfl ht
  rw [← gpuTrack_append] at hb
  obtain ⟨b1, b2, b3, b4⟩ := hb
  obtain ⟨a1, a2, a3, a4⟩ := follows_track hfo b1
  unfold shutdownFenceValue at hval
  have hw : wrap64 (g.fenceValue + 1) = g.fenceValue + 1 := Nat.mod_eq_of_lt hv
  rw [hw] at hval
  refine ⟨⟨⟨by rw [a2, b2]; exact hs, by rw [a3, b3]; exact hinc, ?_, ?_⟩, a1⟩, ?_⟩
  · rw [a1]
    intro hc
    cases hc
  · intro hfs
    rw [hf] at hfs
    rw [a4, b4, hval]
    by_cases hgd : g.fence.isSome ∧ g.commandQueue.isSome
    · rw [if_pos hgd, if_pos hgd]
      omega
    · rw [if_neg hgd, if_neg hgd]
      exact ht hfs
  · rw [hval]
    split <;> omega

theorem perform_fence {g g1 : Internal} {c : Call} (hg : FenceInv g)
    (hi : c.isInit = true → (gpuTrack g.calls).inFlight = false)
    (hv : g.fenceValue + 1 < 2 ^ 64) (h : perform g c = some g1) :
    FenceInv g1 ∧ g1.fenceValue ≤ g.fenceValue + 1 := by
  have hw : wrap64 (g.fenceValue + 1) = g.fenceValue + 1 := Nat.mod_eq_of_lt hv
  cases c with
  | init env width height fullscreen =>
    obtain ⟨hs, hinc, hf, ht⟩ := hg
    obtain ⟨⟨p, g2⟩, h1, h2⟩ := Option.map_eq_some'.mp h
    simp only [] at h2
    subst h2
    rcases Init_track h1 with ⟨fo, e1, e2⟩ | ⟨fo, e1, e2⟩
    · obtain ⟨a1, a2, a3, a4⟩ := follows_track fo (hi rfl)
      refine ⟨⟨by rw [a2]; exact hs, by rw [a3]; exact hinc, ?_, ?_⟩, by rw [e2]; omega⟩
      · rw [a1]
        intro hc
        cases hc
      · rw [e1, e2, a4]
        exact ht
    · obtain ⟨a1, a2, a3, a4⟩ := followsFence_track fo (hi rfl)
      refine ⟨⟨by rw [a2]; exact hs, by rw [a3]; exact hinc, ?_, ?_⟩, ?_⟩
      · rw [a1]
        intro hc
        cases hc
      · rw [e1, a4]
        intro hfs
        rcases e2 with ⟨-, e2⟩ | ⟨e2, -⟩
        · rw [e2]
          exact Nat.one_pos
        · rw [e2] at hfs
          cases hfs
      · rcases e2 with ⟨-, e2⟩ | ⟨-, e2⟩ <;> rw [e2] <;> omega
  | render env =>
    obtain ⟨hs, hinc, hf, ht⟩ := hg
    obtain ⟨⟨r, g2⟩, h1, h2⟩ := Option.map_eq_some'.mp h
    simp only [] at h2
    subst h2
    obtain ⟨e1, e2, ⟨et, -, ev⟩ | ⟨f1, f2, ⟨x, xt, -, xv, hc⟩, ev⟩⟩ := Render_track h1
    · refine ⟨?_, by rw [ev]; omega⟩
      rw [FenceInv, et, e1, e2, ev]
      exact ⟨hs, hinc, hf, ht⟩
    · have hp := fold_presentCalls env x (gpuTrack x.calls) (by rw [xt, xv]; exact ht f1)
      rw [← gpuTrack_append, ← hc, xt, xv] at hp
      obtain ⟨a1, a2, a3, a4⟩ := hp
      rw [hw] at ev
      refine ⟨⟨by rw [a2]; exact hs, by rw [a3]; exact hinc, ?_, ?_⟩, by rw [ev]⟩
      · intro _
        rw [e1, e2]
        exact ⟨f1, f2⟩
      · intro _
        rw [a4, ev]
        omega
  | setSize env width height =>
    obtain ⟨⟨p, g2⟩, h1, h2⟩ := Option.map_eq_some'.mp h
    simp only [] at h2
    subst h2
    rcases SetSize_track h1 with rfl | ⟨r1, r2, r3⟩
    · exact ⟨hg, by omega⟩
    · have hf0 := congrArg Internal.fence r3
      obtain ⟨⟨a, -⟩, b⟩ := after_guardedWait hg hv r1 hf0 r2
      exact ⟨a, b⟩
  | shutdown env =>
    simp only [perform, Option.some.injEq] at h
    subst h
    obtain ⟨e1, -, e3, fo⟩ := Shutdown_track env g
    obtain ⟨⟨a, -⟩, b⟩ := after_guardedWait hg hv fo e1 e3
    exact ⟨a, b⟩

theorem perform_signals {g g1 : Internal} {c : Call} (hc : c.isInit = false)
    (h : perform g c = some g1) :
    (signalsOf g1.calls = signalsOf g.calls ∧ g1.fenceValue = g.fenceValue) ∨
    (signalsOf g1.calls = signalsOf g.calls ++ [g.fenceValue] ∧
      g1.fenceValue = wrap64 (g.fenceValue + 1)) := by
  cases c with
  | init env width height fullscreen => cases hc
  | render env =>
    obtain ⟨⟨r, g2⟩, h1, h2⟩ := Option.map_eq_some'.mp h
    simp only [] at h2
    subst h2
    obtain ⟨-, -, ⟨-, s1, s2⟩ | ⟨-, -, ⟨x, -, xs, xv, hx⟩, s2⟩⟩ := Render_track h1
    · exact Or.inl ⟨s1, s2⟩
    · refine Or.inr ⟨?_, s2⟩
      rw [hx, signalsOf_append, signalsOf_presentCalls, xs, xv]
  | setSize env width height =>
    obtain ⟨⟨p, g2⟩, h1, h2⟩ := Option.map_eq_some'.mp h
    simp only [] at h2
    subst h2
    rcases SetSize_track h1 with rfl | ⟨r1, r2, -⟩
    · exact Or.inl ⟨rfl, rfl⟩
    · have s := follows_signals r1
      rw [signalsOf_append, signalsOf_guardedWait] at s
      unfold shutdownFenceValue at r2
      by_cases hgd : g.fence.isSome ∧ g.commandQueue.isSome
      · rw [if_pos hgd] at s r2
        exact Or.inr ⟨s, r2⟩
      · rw [if_neg hgd] at s r2
        rw [List.append_nil] at s
        exact Or.inl ⟨s, r2⟩
  | shutdown env =>
    simp only [perform, Option.some.injEq] at h
    subst h
    obtain ⟨-, -, r2, fo⟩ := Shutdown_track env g
    have s := follows_signals fo
    rw [signalsOf_append, signalsOf_guardedWait] at s
    unfold shutdownFenceValue at r2
    by_cases hgd : g.fence.isSome ∧ g.commandQueue.isSome
    · rw [if_pos hgd] at s r2
      exact Or.inr ⟨s, r2⟩
    · rw [if_neg hgd] at s r2
      rw [List.append_nil] at s
      exact Or.inl ⟨s, r2⟩

theorem performAll_fence (cs : List Call) :
    ∀ (g g' : Internal), FenceInv g → orderly g cs = true → g.fenceValue + cs.length < 2 ^ 64 →
      performAll g cs = some g' → FenceInv g' := by
  induction cs with
  | nil =>
    intro g g' hg _ _ h
    simp only [performAll, Option.some.injEq] at h
    rw [← h]
    exact hg
  | cons c cs ih =>
    intro g g' hg ho hv h
    unfold performAll at h
    obtain ⟨g1, h1, h2⟩ := Option.bind_eq_some.mp h
    unfold orderly at ho
    rw [h1] at ho
    simp only [Bool.and_eq_true, Bool.or_eq_true, Bool.not_eq_true'] at ho
    rw [List.length_cons] at hv
    have hp := @perform_fence g g1 c hg (by
      intro hc
      rcases ho.1 with h3 | h3
      · rw [hc] at h3
        cases h3
      · exact h3) (by omega) h1
    exact ih g1 g' hp.1 ho.2 (by have := hp.2; omega) h2

theorem performAll_signals (cs : List Call) :
    ∀ (g g' : Internal), cs.all (fun c => !c.isInit) = true →
      g.fenceValue + cs.length < 2 ^ 64 → performAll g cs = some g' →
      ∃ n, n ≤ cs.length ∧
        signalsOf g'.calls =
          signalsOf g.calls ++ (List.range n).map (fun i => g.fenceValue + i) ∧
        g'.fenceValue = g.fenceValue + n := by
  induction cs with
  | nil =>
    intro g g' _ _ h
    simp only [performAll, Option.some.injEq] at h
    subst h
    exact ⟨0, Nat.le_refl _, by simp, rfl⟩
  | cons c cs ih =>
    intro g g' hn hv h
    unfold performAll at h
    obtain ⟨g1, h1, h2⟩ := Option.bind_eq_some.mp h
    rw [List.all_cons, Bool.and_eq_true, Bool.not_eq_true'] at hn
    rw [List.length_cons] at hv ⊢
    rcases perform_signals hn.1 h1 with ⟨s1, v1⟩ | ⟨s1, v1⟩
    · obtain ⟨n, hl, hs, hf⟩ := ih g1 g' hn.2 (by rw [v1]; omega) h2
      rw [s1, v1] at hs
      rw [v1] at hf
      exact ⟨n, by omega, hs, hf⟩
    · have hw : wrap64 (g.fenceValue + 1) = g.fenceValue + 1 := Nat.mod_eq_of_lt (by omega)
      rw [hw] at v1
      obtain ⟨n, hl, hs, hf⟩ := ih g1 g' hn.2 (by rw [v1]; omega) h2
      refine ⟨n + 1, by omega, ?_, by rw [hf, v1]; omega⟩
      rw [hs, s1, v1, List.range_succ_eq_map, List.map_cons, List.map_map, List.append_assoc]
      congr 1
      simp only [List.singleton_append, Nat.add_zero, List.cons.injEq, true_and]
      apply List.map_congr_left
      intro i _
      simp only [Function.comp]
      omega

theorem signals_increasing (a n : Nat) :
    ((List.range n).map fun i => a + i).Pairwise (· < ·) := by
  rw [List.pairwise_map]
  refine List.Pairwise.imp ?_ (List.pairwise_lt_range n)
  intro i j hij
  omega

/-! ## C16: the fence invariant -/

/-- C16.  Take any state in which the fence invariant holds (the startup state is one) and
any sequence of `Init`, `Render`, `SetSize` and `Shutdown` calls that return, in which
`Init` is only called while no command list is in flight (at process start, after
`Shutdown`, after a resize), and which is too short for the 64-bit fence value to wrap.
Then the invariant holds at the end, and so throughout, since `safe` and `increasing` never
turn true again.  Whenever a command list was submitted, the staging buffer rewritten, the
command allocator or the command list reset, a render target or the upload buffer released,
the CPU had seen the fence reach a value signalled after the previous submission and above
every earlier value of that fence: `GetCompletedValue` had answered such a value, or
`WaitForSingleObject` had returned on the event armed for it.  So at most one command list
is in flight.  The values signalled to each fence are increasing; in a sequence without
`Init` they are the consecutive values from the stored fence value on. -/
theorem C16_fence_invariant (g g' : Internal) (cs : List Call)
    (hg : FenceInv g) (ho : orderly g cs = true) (hv : g.fenceValue + cs.length < 2 ^ 64)
    (h : performAll g cs = some g') :
    ((gpuTrack g'.calls).safe = true ∧ (gpuTrack g'.calls).increasing = true ∧
      ((gpuTrack g'.calls).inFlight = true →
        g'.fence.isSome = true ∧ g'.commandQueue.isSome = true) ∧
      (g'.fence.isSome = true → (gpuTrack g'.calls).top < g'.fenceValue)) ∧
    (cs.all (fun c => !c.isInit) = true →
      ∃ n, n ≤ cs.length ∧
        signalsOf g'.calls =
          signalsOf g.calls ++ (List.range n).map (fun i => g.fenceValue + i) ∧
        g'.fenceValue = g.fenceValue + n ∧
        ((List.range n).map fun i => g.fenceValue + i).Pairwise (· < ·)) := by
  refine ⟨performAll_fence cs g g' hg ho hv h, ?_⟩
  intro hn
  obtain ⟨n, h0, h1, h2⟩ := performAll_signals cs g g' hn hv h
  exact ⟨n, h0, h1, h2, signals_increasing _ _⟩

/-- Witness for C16: the run `demoCalls` from the startup state, which ends with a command
list in flight, and the run `demoFrames` from the state after `Init`. -/
theorem C16_fence_invariant_witness :
    (FenceInv startup ∧ orderly startup demoCalls = true ∧
      startup.fenceValue + demoCalls.length < 2 ^ 64 ∧
      performAll startup demoCalls = some demoRun ∧ FenceInv demoRun ∧
      gpuTrack demoRun.calls = ⟨true, true, true, 1, none, none⟩ ∧
      signalsOf demoRun.calls = [1, 2, 3, 4, 1]) ∧
    (FenceInv demoState ∧ performAll demoState demoFrames = some demoFramesRun ∧
      demoState.fenceValue = 1 ∧
      ∃ n, n ≤ demoFrames.length ∧
        signalsOf demoFramesRun.calls =
          signalsOf demoState.calls ++ (List.range n).map (fun i => demoState.fenceValue + i) ∧
        demoFramesRun.fenceValue = demoState.fenceValue + n ∧
        ((List.range n).map fun i => demoState.fenceValue + i).Pairwise (· < ·)) :=
  have h1 := (C16_fence_invariant startup demoRun demoCalls
    ⟨rfl, rfl, fun hc => (by cases hc), fun hc => (by cases hc)⟩ (by decide) (by decide) rfl).1
  ⟨⟨⟨rfl, rfl, fun hc => (by cases hc), fun hc => (by cases hc)⟩, by decide, by decide, rfl,
      h1, by decide, by decide⟩,
   ⟨⟨rfl, rfl, fun hc => absurd hc (by decide), fun _ => (by decide)⟩, rfl, rfl,
    (C16_fence_invariant demoState demoFramesRun demoFrames
      ⟨rfl, rfl, fun hc => absurd hc (by decide), fun _ => (by decide)⟩
      (by decide) (by decide) rfl).2 (by decide)⟩⟩

/-! ## Rounding to 24 bits -/

theorem log2Fuel_spec : ∀ (fuel n : Nat), 1 ≤ n → n ≤ fuel →
    2 ^ log2Fuel fuel n ≤ n ∧ n < 2 ^ (log2Fuel fuel n + 1)
  | 0, n, h1, h2 => by omega
  | fuel + 1, n, h1, h2 => by
    unfold log2Fuel
    split
    · obtain ⟨a, b⟩ := log2Fuel_spec fuel (n / 2) (by omega) (by omega)
      constructor
      · rw [pow_succ]
        omega
      · rw [pow_succ]
        omega
    · simp
      omega

theorem ilog2_spec (n : Nat) (h : 1 ≤ n) : 2 ^ ilog2 n ≤ n ∧ n < 2 ^ (ilog2 n + 1) :=
  log2Fuel_spec n n h (Nat.le_refl n)

theorem roundPos_exp (n d : Nat) (hn : 0 < n) (hd : 0 < d) :
    ∃ x y : Nat,
      (if (if 0 ≤ (ilog2 n : Int) - (ilog2 d : Int) then
              decide (n < d * 2 ^ ((ilog2 n : Int) - (ilog2 d : Int)).toNat)
            else decide (n * 2 ^ (-((ilog2 n : Int) - (ilog2 d : Int))).toNat < d)) = true
        then (ilog2 n : Int) - (ilog2 d : Int) - 1
        else (ilog2 n : Int) - (ilog2 d : Int)) = (x : Int) - (y : Int) ∧
      d * 2 ^ x ≤ n * 2 ^ y ∧ n * 2 ^ y < 2 * (d * 2 ^ x) := by
  obtain ⟨a1, a2⟩ := ilog2_spec n hn
  obtain ⟨b1, b2⟩ := ilog2_spec d hd
  generalize ilog2 n = ln at a1 a2 ⊢
  generalize ilog2 d = ld at b1 b2 ⊢
  by_cases hle : ld ≤ ln
  · obtain ⟨t, rfl⟩ := Nat.exists_eq_add_of_le hle
    have e1 : (((ld + t : Nat) : Int) - (ld : Int)) = (t : Int) := by omega
    rw [e1]
    simp only [Int.toNat_ofNat, Int.ofNat_nonneg, if_true, decide_eq_true_eq]
    have hp : 2 ^ (ld + t + 1) = 2 * 2 ^ ld * 2 ^ t := by ring
    have hb : 2 ^ ld * 2 ^ t ≤ d * 2 ^ t := Nat.mul_le_mul_right _ b1
    have hc : d * 2 ^ t < 2 ^ (ld + 1) * 2 ^ t :=
      Nat.mul_lt_mul_of_pos_right b2 (pow_pos (by norm_num) _)
    have hq : 2 ^ (ld + 1) * 2 ^ t = 2 * 2 ^ ld * 2 ^ t := by ring
    have hr : 2 ^ (ld + t) = 2 ^ ld * 2 ^ t := by ring
    split
    · rename_i hb'
      refine ⟨t, 1, by omega, ?_, ?_⟩
      · rw [pow_one]
        omega
      · rw [pow_one]
        omega
    · rename_i hb'
      refine ⟨t, 0, by omega, ?_, ?_⟩
      · rw [pow_zero]
        omega
      · rw [pow_zero]
        omega
  · obtain ⟨t, rfl⟩ := Nat.exists_eq_add_of_le (Nat.le_of_lt (Nat.lt_of_not_le hle))
    have ht : 1 ≤ t := by omega
    have e1 : ((ln : Int) - ((ln + t : Nat) : Int)) = -(t : Int) := by omega
    rw [e1]
    have e2 : ¬ (0 ≤ -(t : Int)) := by omega
    simp only [e2, if_false, neg_neg, Int.toNat_ofNat, decide_eq_true_eq]
    have ha : 2 ^ ln * 2 ^ t ≤ n * 2 ^ t := Nat.mul_le_mul_right _ a1
    have hc : n * 2 ^ t < 2 ^ (ln + 1) * 2 ^ t :=
      Nat.mul_lt_mul_of_pos_right a2 (pow_pos (by norm_num) _)
    have hq : 2 ^ (ln + 1) * 2 ^ t = 2 * (2 ^ ln * 2 ^ t) := by ring
    have hr : 2 ^ (ln + t) = 2 ^ ln * 2 ^ t := by ring
    have hs : 2 ^ (ln + t + 1) = 2 * (2 ^ ln * 2 ^ t) := by ring
    have hu : n * 2 ^ (t + 1) = 2 * (n * 2 ^ t) := by ring
    split
    · rename_i hb'
      refine ⟨0, t + 1, by omega, ?_, ?_⟩
      · rw [pow_zero, hu]
        omega
      · rw [pow_zero, hu]
        omega
    · rename_i hb'
      refine ⟨0, t, by omega, ?_, ?_⟩
      · rw [pow_zero]
        omega
      · rw [pow_zero]
        omega

theorem rne_facts (N D : Nat) (hD : 0 < D) :
    N / D ≤ (if 2 * (N % D) < D then N / D else if D < 2 * (N % D) then N / D + 1
        else if N / D % 2 = 0 then N / D else N / D + 1) ∧
    (if 2 * (N % D) < D then N / D else if D < 2 * (N % D) then N / D + 1
        else if N / D % 2 = 0 then N / D else N / D + 1) ≤ N / D + 1 ∧
    ((if 2 * (N % D) < D then N / D else if D < 2 * (N % D) then N / D + 1
        else if N / D % 2 = 0 then N / D else N / D + 1) = N / D + 1 →
      D ≤ 2 * (N % D)) ∧
    (N % D = 0 → (if 2 * (N % D) < D then N / D else if D < 2 * (N % D) then N / D + 1
        else if N / D % 2 = 0 then N / D else N / D + 1) = N / D) := by
  generalize N / D = f
  generalize N % D = r
  split_ifs <;> omega

theorem pow_cancel_le {a b x y : Nat} (z : Nat) (h : a * 2 ^ (x + z) ≤ b * 2 ^ (y + z)) :
    a * 2 ^ x ≤ b * 2 ^ y := by
  rw [pow_add, pow_add, ← mul_assoc, ← mul_assoc] at h
  exact Nat.le_of_mul_le_mul_right h (pow_pos (by norm_num) _)

theorem pow_cancel_lt {a b x y : Nat} (z : Nat) (h : a * 2 ^ (x + z) < b * 2 ^ (y + z)) :
    a * 2 ^ x < b * 2 ^ y := by
  rw [pow_add, pow_add, ← mul_assoc, ← mul_assoc] at h
  exact Nat.lt_of_mul_lt_mul_right h

theorem roundPos_spec (p n d : Nat) (hp : 1 ≤ p) (hn : 0 < n) (hd : 0 < d) :
    ∃ (u v m : Nat), roundPos p n d = (m, (u : Int) - (v : Int)) ∧
      2 ^ (p - 1) * (d * 2 ^ u) ≤ n * 2 ^ v ∧ n * 2 ^ v < 2 ^ p * (d * 2 ^ u) ∧
      (n * 2 ^ v) / (d * 2 ^ u) ≤ m ∧ m ≤ (n * 2 ^ v) / (d * 2 ^ u) + 1 ∧
      (m = (n * 2 ^ v) / (d * 2 ^ u) + 1 → d * 2 ^ u ≤ 2 * ((n * 2 ^ v) % (d * 2 ^ u))) ∧
      ((n * 2 ^ v) % (d * 2 ^ u) = 0 → m = (n * 2 ^ v) / (d * 2 ^ u)) := by
  obtain ⟨x, y, he, h1, h2⟩ := roundPos_exp n d hn hd
  obtain ⟨q, rfl⟩ : ∃ q, p = q + 1 := ⟨p - 1, by omega⟩
  unfold roundPos
  simp only []
  rw [he]
  simp only [Nat.add_sub_cancel]
  by_cases hk : 0 ≤ (x : Int) - (y : Int) - (((q + 1 : Nat) : Int) - 1)
  · obtain ⟨u, hu⟩ : ∃ u : Nat, x = u + q + y := ⟨x - q - y, by omega⟩
    subst hu
    have ek : ((u + q + y : Nat) : Int) - (y : Int) - (((q + 1 : Nat) : Int) - 1) = (u : Int) := by
      omega
    rw [ek]
    simp only [Int.ofNat_nonneg, if_true, Int.toNat_ofNat]
    have hD : 0 < d * 2 ^ u := Nat.mul_pos hd (pow_pos (by norm_num) _)
    obtain ⟨f1, f2, f3, f4⟩ := rne_facts n (d * 2 ^ u) hD
    refine ⟨u, 0, _, Prod.ext rfl (by simp), ?_, ?_, ?_⟩
    · rw [pow_zero, mul_one]
      have h1' : (2 ^ q * (d * 2 ^ u)) * 2 ^ (0 + y) ≤ n * 2 ^ (0 + y) := by
        rw [zero_add]
        calc 2 ^ q * (d * 2 ^ u) * 2 ^ y = d * 2 ^ (u + q + y) := by ring
          _ ≤ n * 2 ^ y := h1
      simpa using pow_cancel_le y h1'
    · rw [pow_zero, mul_one]
      have h2' : n * 2 ^ (0 + y) < (2 ^ (q + 1) * (d * 2 ^ u)) * 2 ^ (0 + y) := by
        rw [zero_add]
        calc n * 2 ^ y < 2 * (d * 2 ^ (u + q + y)) := h2
          _ = 2 ^ (q + 1) * (d * 2 ^ u) * 2 ^ y := by ring
      simpa using pow_cancel_lt y h2'
    · rw [pow_zero, mul_one]
      exact ⟨f1, f2, f3, f4⟩
  · obtain ⟨v, hv⟩ : ∃ v : Nat, y + q = x + v := ⟨y + q - x, by omega⟩
    have hv1 : 1 ≤ v := by omega
    have ek : (x : Int) - (y : Int) - (((q + 1 : Nat) : Int) - 1) = -(v : Int) := by omega
    rw [ek]
    have e2 : ¬ (0 ≤ -(v : Int)) := by omega
    simp only [e2, if_false, neg_neg, Int.toNat_ofNat]
    obtain ⟨f1, f2, f3, f4⟩ := rne_facts (n * 2 ^ v) d hd
    refine ⟨0, v, _, Prod.ext rfl (by simp), ?_, ?_, ?_⟩
    · rw [pow_zero, mul_one]
      have h1' : (2 ^ q * d) * 2 ^ (0 + x) ≤ n * 2 ^ (v + x) := by
        rw [zero_add]
        calc 2 ^ q * d * 2 ^ x = (d * 2 ^ x) * 2 ^ q := by ring
          _ ≤ (n * 2 ^ y) * 2 ^ q := Nat.mul_le_mul_right _ h1
          _ = n * 2 ^ (y + q) := by ring
          _ = n * 2 ^ (v + x) := by rw [hv, Nat.add_comm x v]
      simpa using pow_cancel_le x h1'
    · rw [pow_zero, mul_one]
      have h2' : n * 2 ^ (v + x) < (2 ^ (q + 1) * d) * 2 ^ (0 + x) := by
        rw [zero_add]
        calc n * 2 ^ (v + x) = n * 2 ^ (y + q) := by rw [hv, Nat.add_comm x v]
          _ = (n * 2 ^ y) * 2 ^ q := by ring
          _ < (2 * (d * 2 ^ x)) * 2 ^ q :=
            Nat.mul_lt_mul_of_pos_right h2 (pow_pos (by norm_num) _)
          _ = 2 ^ (q + 1) * d * 2 ^ x := by ring
      simpa using pow_cancel_lt x h2'
    · rw [pow_zero, mul_one]
      exact ⟨f1, f2, f3, f4⟩

theorem mk_exact (c J : Nat) (hc : c < 2 ^ 24) :
    Exact c (Fp.mk 24 false (c * 2 ^ J) 1 (-(J : Int))) := by
  unfold Fp.mk
  by_cases h0 : c = 0
  · subst h0
    simp only [zero_mul, if_true]
    exact ⟨0, by simp⟩
  have hn : 0 < c * 2 ^ J := Nat.mul_pos (Nat.pos_of_ne_zero h0) (pow_pos (by norm_num) _)
  rw [if_neg (Nat.pos_iff_ne_zero.mp hn)]
  obtain ⟨u, v, m, hr, b1, b2, -, -, -, f4⟩ := roundPos_spec 24 (c * 2 ^ J) 1 (by norm_num) hn
    (by norm_num)
  simp only [hr, Bool.false_eq_true, if_false]
  simp only [one_mul, Nat.add_sub_cancel] at b1 b2 f4
  have hlt : 2 ^ (23 + u) < 2 ^ (24 + (J + v)) := by
    calc 2 ^ (23 + u) = 2 ^ (24 - 1) * 2 ^ u := by rw [pow_add 2 23 u]
      _ ≤ c * 2 ^ J * 2 ^ v := b1
      _ = c * 2 ^ (J + v) := by ring
      _ < 2 ^ 24 * 2 ^ (J + v) := Nat.mul_lt_mul_of_pos_right hc (pow_pos (by norm_num) _)
      _ = 2 ^ (24 + (J + v)) := by rw [pow_add 2 24 (J + v)]
  have hle : 23 + u < 24 + (J + v) := (Nat.pow_lt_pow_iff_right (by norm_num)).mp hlt
  obtain ⟨j, hj⟩ : ∃ j, J + v = j + u := ⟨J + v - u, by omega⟩
  have hN : c * 2 ^ J * 2 ^ v = c * 2 ^ j * 2 ^ u := by
    calc c * 2 ^ J * 2 ^ v = c * 2 ^ (J + v) := by ring
      _ = c * 2 ^ (j + u) := by rw [hj]
      _ = c * 2 ^ j * 2 ^ u := by ring
  rw [hN] at f4
  have hm : m = c * 2 ^ j := by
    rw [f4 (Nat.mul_mod_left _ _)]
    exact Nat.mul_div_cancel _ (pow_pos (by norm_num) _)
  refine ⟨j, ?_⟩
  rw [hm]
  congr 1
  omega

theorem ofInt_exact (c : Nat) (hc : c < 2 ^ 24) : Exact c (Fp.ofInt 24 (c : Int)) := by
  have h := mk_exact c 0 hc
  unfold Fp.ofInt
  have e1 : decide ((c : Int) < 0) = false := by simp
  rw [e1, Int.natAbs_ofNat]
  simpa using h

theorem ofInt_fin (p : Nat) (i : Int) : ∃ m e, Fp.ofInt p i = Fp.fin m e := by
  unfold Fp.ofInt Fp.mk
  split
  · exact ⟨_, _, rfl⟩
  · exact ⟨_, _, rfl⟩

theorem mul_exact {a b : Nat} {x y : Fp} (hx : Exact a x) (hy : Exact b y)
    (h : a * b < 2 ^ 24) : Exact (a * b) (Fp.mul 24 x y) := by
  obtain ⟨j1, rfl⟩ := hx
  obtain ⟨j2, rfl⟩ := hy
  have h1 := mk_exact (a * b) (j1 + j2) h
  unfold Fp.mul
  have e0 : ((a * 2 ^ j1 : Nat) : Int) * ((b * 2 ^ j2 : Nat) : Int) =
      ((a * b * 2 ^ (j1 + j2) : Nat) : Int) := by
    push_cast
    ring
  simp only [e0]
  have e1 : decide (((a * b * 2 ^ (j1 + j2) : Nat) : Int) < 0) = false := by
    simp only [decide_eq_false_iff_not, not_lt]
    exact Int.ofNat_nonneg _
  rw [e1, Int.natAbs_ofNat]
  have e2 : -(j1 : Int) + -(j2 : Int) = -((j1 + j2 : Nat) : Int) := by
    push_cast
    ring
  rw [e2]
  exact h1

theorem mul_zero_exact (w : Nat) :
    Exact 0 (Fp.mul 24 (Fp.ofInt 24 ((0 : Nat) : Int)) (Fp.ofInt 24 (w : Int))) := by
  obtain ⟨m, e, hw⟩ := ofInt_fin 24 (w : Int)
  rw [hw]
  have h0 : Fp.ofInt 24 ((0 : Nat) : Int) = Fp.fin 0 0 := by
    unfold Fp.ofInt Fp.mk
    simp
  rw [h0]
  unfold Fp.mul Fp.mk
  simp only [zero_mul, Int.natAbs_zero, if_true]
  exact ⟨0, by simp⟩

/-- The arithmetic core of the division step: rounding the scaled quotient cannot reach the
next integer while the dividend is below `2^24`. -/
theorem floor_of_rounded {P W N D T m : Nat} (hP : P < 2 ^ 24) (hW : 0 < W) (hD : 0 < D)
    (hT : 0 < T) (hNW : N * W = P * T * D) (b1 : 2 ^ 23 * D ≤ N)
    (f1 : N / D ≤ m) (f2 : m ≤ N / D + 1) (f3 : m = N / D + 1 → D ≤ 2 * (N % D)) :
    m / T = P / W := by
  have hK1 : P / W * W ≤ P := Nat.div_mul_le_self P W
  have hK2 : P < (P / W + 1) * W := by
    have := Nat.lt_succ_self (P / W)
    exact (Nat.div_lt_iff_lt_mul hW).mp this
  generalize P / W = K at hK1 hK2 ⊢
  have hdm := Nat.div_add_mod N D
  have hr : N % D < D := Nat.mod_lt N hD
  generalize N / D = f at f1 f2 f3 hdm
  generalize N % D = r at f3 hdm hr
  -- lower bound
  have hlow : K * T ≤ f := by
    by_contra hc
    push_neg at hc
    have h1 : D * (f + 1) ≤ D * (K * T) := Nat.mul_le_mul_left D hc
    have h2 : N < D * (K * T) := by
      calc N = D * f + r := hdm.symm
        _ < D * f + D := by omega
        _ = D * (f + 1) := by ring
        _ ≤ D * (K * T) := h1
    have h3 : N * W < D * (K * T) * W := Nat.mul_lt_mul_of_pos_right h2 hW
    have h4 : D * (K * T) * W ≤ P * T * D := by
      calc D * (K * T) * W = (K * W) * (T * D) := by ring
        _ ≤ P * (T * D) := Nat.mul_le_mul_right _ hK1
        _ = P * T * D := by ring
    omega
  -- upper bound
  have hup : m < (K + 1) * T := by
    by_contra hc
    push_neg at hc
    have hN1 : N * W < (K + 1) * W * (T * D) := by
      calc N * W = P * (T * D) := by rw [hNW]; ring
        _ < (K + 1) * W * (T * D) :=
          Nat.mul_lt_mul_of_pos_right hK2 (Nat.mul_pos hT hD)
    have hN2 : N < (K + 1) * T * D := by
      have : N * W < (K + 1) * T * D * W := by
        calc N * W < (K + 1) * W * (T * D) := hN1
          _ = (K + 1) * T * D * W := by ring
      exact Nat.lt_of_mul_lt_mul_right this
    have hf : f < (K + 1) * T := by
      by_contra hc2
      push_neg at hc2
      have : (K + 1) * T * D ≤ f * D := Nat.mul_le_mul_right D hc2
      have : f * D ≤ N := by
        calc f * D = D * f := by ring
          _ ≤ D * f + r := Nat.le_add_right _ _
          _ = N := hdm
      omega
    have hm : m = f + 1 := by omega
    have hf1 : f + 1 = (K + 1) * T := by omega
    have h3 := f3 hm
    -- 2 * ((K+1) * T * D) ≤ 2 * N + D
    have h4 : 2 * ((K + 1) * T * D) ≤ 2 * N + D := by
      calc 2 * ((K + 1) * T * D) = 2 * ((f + 1) * D) := by rw [hf1]
        _ = 2 * (D * f) + 2 * D := by ring
        _ ≤ 2 * (D * f) + (2 * r + D) := by omega
        _ = 2 * (D * f + r) + D := by ring
        _ = 2 * N + D := by rw [hdm]
    have h5 : 2 * ((K + 1) * T * D) * W ≤ (2 * N + D) * W := Nat.mul_le_mul_right W h4
    have h6 : (2 * N + D) * W = (2 * (P * T) + W) * D := by
      calc (2 * N + D) * W = 2 * (N * W) + D * W := by ring
        _ = 2 * (P * T * D) + D * W := by rw [hNW]
        _ = (2 * (P * T) + W) * D := by ring
    have h7 : 2 * ((K + 1) * W * T) * D ≤ (2 * (P * T) + W) * D := by
      calc 2 * ((K + 1) * W * T) * D = 2 * ((K + 1) * T * D) * W := by ring
        _ ≤ (2 * N + D) * W := h5
        _ = (2 * (P * T) + W) * D := h6
    have h8 : 2 * ((K + 1) * W * T) ≤ 2 * (P * T) + W := Nat.le_of_mul_le_mul_right h7 hD
    have h9 : (P + 1) * T ≤ (K + 1) * W * T := Nat.mul_le_mul_right T hK2
    have h10 : 2 * T ≤ W := by
      have : (P + 1) * T = P * T + T := by ring
      omega
    have h11 : 2 ^ 23 * D * W ≤ P * T * D := by
      calc 2 ^ 23 * D * W ≤ N * W := Nat.mul_le_mul_right W b1
        _ = P * T * D := hNW
    have h12 : 2 ^ 23 * W * D ≤ P * T * D := by
      calc 2 ^ 23 * W * D = 2 ^ 23 * D * W := by ring
        _ ≤ P * T * D := h11
    have h13 : 2 ^ 23 * W ≤ P * T := Nat.le_of_mul_le_mul_right h12 hD
    have h14 : 2 ^ 24 * T ≤ P * T := by
      calc 2 ^ 24 * T = 2 ^ 23 * (2 * T) := by ring
        _ ≤ 2 ^ 23 * W := Nat.mul_le_mul_left _ h10
        _ ≤ P * T := h13
    have h15 : 2 ^ 24 ≤ P := Nat.le_of_mul_le_mul_right h14 hT
    omega
  have hge : K ≤ m / T := (Nat.le_div_iff_mul_le hT).mpr (Nat.le_trans hlow f1)
  have hlt : m / T < K + 1 := (Nat.div_lt_iff_lt_mul hT).mpr hup
  omega

theorem toInt_small (m t : Nat) (h : m ≤ 2 ^ 24) :
    Fp.toInt (Fp.fin (m : Int) (-(t : Int))) = ((m / 2 ^ t : Nat) : Int) := by
  unfold Fp.toInt
  simp only []
  have hdiv : m / 2 ^ t ≤ m := Nat.div_le_self _ _
  by_cases ht : t = 0
  · subst ht
    simp only [Nat.cast_zero, neg_zero, le_refl, if_true, Int.toNat_zero, pow_zero, mul_one,
      Nat.div_one]
    rw [if_pos]
    constructor <;> omega
  · have hn : ¬ (0 ≤ -(t : Int)) := by omega
    simp only [hn, if_false, neg_neg, Int.toNat_ofNat]
    have e : Int.tdiv (m : Int) (2 ^ t) = ((m / 2 ^ t : Nat) : Int) := by
      have : ((2 : Int) ^ t) = ((2 ^ t : Nat) : Int) := by push_cast; rfl
      rw [this, ← Int.ofNat_tdiv]
    rw [e]
    generalize m / 2 ^ t = q at hdiv ⊢
    rw [if_pos]
    constructor <;> omega

theorem div_floor {P W : Nat} {x y : Fp} (hx : Exact P x) (hy : Exact W y) (hW : 0 < W)
    (hP : P < 2 ^ 24) : Fp.toInt (Fp.div 24 x y) = ((P / W : Nat) : Int) := by
  obtain ⟨j1, rfl⟩ := hx
  obtain ⟨j2, rfl⟩ := hy
  have hd : 0 < W * 2 ^ j2 := Nat.mul_pos hW (pow_pos (by norm_num) _)
  have hm2 : ((W * 2 ^ j2 : Nat) : Int) ≠ 0 := by
    exact_mod_cast Nat.pos_iff_ne_zero.mp hd
  unfold Fp.div
  simp only [hm2, if_false]
  have e1 : decide (((P * 2 ^ j1 : Nat) : Int) < 0) = false := by
    simp only [decide_eq_false_iff_not, not_lt]
    exact Int.ofNat_nonneg _
  have e2 : decide (((W * 2 ^ j2 : Nat) : Int) < 0) = false := by
    simp only [decide_eq_false_iff_not, not_lt]
    exact Int.ofNat_nonneg _
  rw [e1, e2, Int.natAbs_ofNat, Int.natAbs_ofNat]
  simp only [bne_self_eq_false]
  unfold Fp.mk
  by_cases h0 : P = 0
  · subst h0
    simp only [zero_mul, if_true, Nat.zero_div]
    rfl
  have hn : 0 < P * 2 ^ j1 := Nat.mul_pos (Nat.pos_of_ne_zero h0) (pow_pos (by norm_num) _)
  rw [if_neg (Nat.pos_iff_ne_zero.mp hn)]
  obtain ⟨u, v, m, hr, b1, b2, f1, f2, f3, -⟩ :=
    roundPos_spec 24 (P * 2 ^ j1) (W * 2 ^ j2) (by norm_num) hn hd
  simp only [hr, Bool.false_eq_true, if_false]
  replace b1 : 2 ^ 23 * (W * 2 ^ j2 * 2 ^ u) ≤ P * 2 ^ j1 * 2 ^ v := b1
  have hlt : 2 ^ (23 + (j2 + u)) < 2 ^ (24 + (j1 + v)) := by
    calc 2 ^ (23 + (j2 + u)) = 2 ^ 23 * (1 * 2 ^ j2 * 2 ^ u) := by ring
      _ ≤ 2 ^ 23 * (W * 2 ^ j2 * 2 ^ u) :=
        Nat.mul_le_mul_left _ (Nat.mul_le_mul_right _ (Nat.mul_le_mul_right _ hW))
      _ ≤ P * 2 ^ j1 * 2 ^ v := b1
      _ = P * 2 ^ (j1 + v) := by ring
      _ < 2 ^ 24 * 2 ^ (j1 + v) := Nat.mul_lt_mul_of_pos_right hP (pow_pos (by norm_num) _)
      _ = 2 ^ (24 + (j1 + v)) := by rw [pow_add 2 24 (j1 + v)]
  have hle : 23 + (j2 + u) < 24 + (j1 + v) := (Nat.pow_lt_pow_iff_right (by norm_num)).mp hlt
  obtain ⟨t, ht⟩ : ∃ t, j1 + v = t + (j2 + u) := ⟨j1 + v - (j2 + u), by omega⟩
  have hE : (u : Int) - (v : Int) + (-(j1 : Int) - -(j2 : Int)) = -(t : Int) := by omega
  rw [hE]
  have hD : 0 < W * 2 ^ j2 * 2 ^ u := Nat.mul_pos hd (pow_pos (by norm_num) _)
  have hNW : P * 2 ^ j1 * 2 ^ v * W = P * 2 ^ t * (W * 2 ^ j2 * 2 ^ u) := by
    calc P * 2 ^ j1 * 2 ^ v * W = P * W * 2 ^ (j1 + v) := by ring
      _ = P * W * 2 ^ (t + (j2 + u)) := by rw [ht]
      _ = P * 2 ^ t * (W * 2 ^ j2 * 2 ^ u) := by ring
  have hm24 : m ≤ 2 ^ 24 := by
    have : P * 2 ^ j1 * 2 ^ v / (W * 2 ^ j2 * 2 ^ u) < 2 ^ 24 :=
      (Nat.div_lt_iff_lt_mul hD).mpr b2
    omega
  rw [toInt_small m t hm24]
  congr 1
  exact floor_of_rounded hP hW hD (pow_pos (by norm_num) t) hNW b1 f1 f2 f3

/-- Below `2^24` the single-precision scaling is the exact integer quotient. -/
theorem scaleMouse_exact (a w W : Nat) (ha : a < 2 ^ 24) (hW : 0 < W) (hW24 : W < 2 ^ 24)
    (hP : a * w < 2 ^ 24) : scaleMouse (a : Int) w (W : Int) = ((a * w / W : Nat) : Int) := by
  unfold scaleMouse f32
  by_cases h0 : a = 0
  · subst h0
    rw [zero_mul]
    exact div_floor (mul_zero_exact w) (ofInt_exact W hW24) hW (by norm_num)
  · have hw : w < 2 ^ 24 := by
      have h1 : 1 * w ≤ a * w := Nat.mul_le_mul_right w (Nat.pos_of_ne_zero h0)
      omega
    exact div_floor (mul_exact (ofInt_exact a ha) (ofInt_exact w hw) hP) (ofInt_exact W hW24)
      hW hP

/-- The arithmetic of one rounding: the rounded significand `m` of `N / D` is within half a
unit of it, and a unit is at most `N / D / 2 ^ (p - 1)`. -/
theorem rounded_near {H D N m : Nat} (hD : 0 < D) (b1 : H * D ≤ N)
    (f1 : N / D ≤ m) (f2 : m ≤ N / D + 1) (f3 : m = N / D + 1 → D ≤ 2 * (N % D)) :
    m * D * (2 * H) ≤ N * (2 * H + 1) ∧ N * (2 * H) ≤ m * D * (2 * H) + 2 * N := by
  have hdm := Nat.div_add_mod N D
  have hr := Nat.mod_lt N hD
  have hq : D * (N / D) = (N / D) * D := Nat.mul_comm _ _
  have h2 : 2 * (m * D) ≤ 2 * N + D := by
    rcases Nat.lt_or_ge (N / D) m with hlt | hge
    · have em : m = N / D + 1 := by omega
      have h3 := f3 em
      rw [em, Nat.add_mul, Nat.one_mul]
      omega
    · have em : m = N / D := by omega
      rw [em]
      omega
  have h3 : N ≤ m * D + D := by
    have : (N / D) * D ≤ m * D := Nat.mul_le_mul_right D f1
    omega
  constructor
  · calc m * D * (2 * H) = H * (2 * (m * D)) := by ring
      _ ≤ H * (2 * N + D) := Nat.mul_le_mul_left H h2
      _ = N * (2 * H) + H * D := by ring
      _ ≤ N * (2 * H) + N := Nat.add_le_add_left b1 _
      _ = N * (2 * H + 1) := by ring
  · calc N * (2 * H) ≤ (m * D + D) * (2 * H) := Nat.mul_le_mul_right _ h3
      _ = m * D * (2 * H) + 2 * (H * D) := by ring
      _ ≤ m * D * (2 * H) + 2 * N := Nat.add_le_add_left (Nat.mul_le_mul_left 2 b1) _

/-- The value of a rounded quotient: `Fp.mk` yields a finite value with a non-negative
significand, within the relative error `2 ^ -p` above and `2 ^ -(p - 1)` below the exact
quotient. -/
theorem mk_val (p n d : Nat) (e : Int) (hp : 1 ≤ p) (hd : 0 < d) :
    ∃ (m : Nat) (k : Int), Fp.mk p false n d e = Fp.fin (m : Int) k ∧
      ((m : ℚ) * 2 ^ k) * 2 ^ p ≤ ((n : ℚ) / d * 2 ^ e) * (2 ^ p + 1) ∧
      ((n : ℚ) / d * 2 ^ e) * 2 ^ p ≤ ((m : ℚ) * 2 ^ k) * 2 ^ p + 2 * ((n : ℚ) / d * 2 ^ e) := by
  by_cases hn : n = 0
  · subst hn
    refine ⟨0, 0, by simp [Fp.mk], by simp, by simp⟩
  have hn' : 0 < n := Nat.pos_of_ne_zero hn
  obtain ⟨u, v, m, hr, b1, -, f1, f2, f3, -⟩ := roundPos_spec p n d hp hn' hd
  obtain ⟨q, rfl⟩ : ∃ q, p = q + 1 := ⟨p - 1, by omega⟩
  rw [Nat.add_sub_cancel] at b1
  have hD : 0 < d * 2 ^ u := Nat.mul_pos hd (pow_pos (by norm_num) _)
  obtain ⟨up, lo⟩ := rounded_near hD b1 f1 f2 f3
  refine ⟨m, (u : Int) - (v : Int) + e, ?_, ?_, ?_⟩
  · unfold Fp.mk
    rw [if_neg hn]
    simp only [hr, Bool.false_eq_true, if_false]
  all_goals
    have hk : (2 : ℚ) ^ ((u : Int) - (v : Int) + e) = 2 ^ u / 2 ^ v * 2 ^ e := by
      rw [zpow_add₀ (by norm_num), zpow_sub₀ (by norm_num), zpow_natCast, zpow_natCast]
    rw [hk]
    have hE : (0 : ℚ) < 2 ^ e := zpow_pos (by norm_num) e
    generalize (2 : ℚ) ^ e = E at hE ⊢
    have hV : (0 : ℚ) < 2 ^ v := pow_pos (by norm_num) v
    have hdq : (0 : ℚ) < d := by exact_mod_cast hd
    have hc : (0 : ℚ) < E / (d * 2 ^ v) := div_pos hE (mul_pos hdq hV)
    have e2 : (2 : ℚ) ^ (q + 1) = 2 * 2 ^ q := by ring
    have upq : (m : ℚ) * (d * 2 ^ u) * (2 * 2 ^ q) ≤ (n * 2 ^ v) * (2 * 2 ^ q + 1) := by
      exact_mod_cast up
    have loq : ((n : ℚ) * 2 ^ v) * (2 * 2 ^ q) ≤
        (m : ℚ) * (d * 2 ^ u) * (2 * 2 ^ q) + 2 * (n * 2 ^ v) := by
      exact_mod_cast lo
    rw [e2]
  · have a1 : (m : ℚ) * (2 ^ u / 2 ^ v * E) * (2 * 2 ^ q) =
        ((m : ℚ) * (d * 2 ^ u) * (2 * 2 ^ q)) * (E / (d * 2 ^ v)) := by
      field_simp
      ring
    have a2 : (n : ℚ) / d * E * (2 * 2 ^ q + 1) =
        ((n : ℚ) * 2 ^ v * (2 * 2 ^ q + 1)) * (E / (d * 2 ^ v)) := by
      field_simp
      ring
    rw [a1, a2]
    exact mul_le_mul_of_nonneg_right upq (le_of_lt hc)
  · have a1 : (m : ℚ) * (2 ^ u / 2 ^ v * E) * (2 * 2 ^ q) + 2 * ((n : ℚ) / d * E) =
        ((m : ℚ) * (d * 2 ^ u) * (2 * 2 ^ q) + 2 * (n * 2 ^ v)) * (E / (d * 2 ^ v)) := by
      field_simp
      ring
    have a2 : (n : ℚ) / d * E * (2 * 2 ^ q) =
        ((n : ℚ) * 2 ^ v * (2 * 2 ^ q)) * (E / (d * 2 ^ v)) := by
      field_simp
      ring
    rw [a1, a2]
    exact mul_le_mul_of_nonneg_right loq (le_of_lt hc)

theorem ofInt_val (p c : Nat) (hp : 1 ≤ p) :
    ∃ (m : Nat) (k : Int), Fp.ofInt p (c : Int) = Fp.fin (m : Int) k ∧
      ((m : ℚ) * 2 ^ k) * 2 ^ p ≤ (c : ℚ) * (2 ^ p + 1) ∧
      (c : ℚ) * 2 ^ p ≤ ((m : ℚ) * 2 ^ k) * 2 ^ p + 2 * (c : ℚ) := by
  obtain ⟨m, k, h, up, lo⟩ := mk_val p c 1 0 hp (by norm_num)
  refine ⟨m, k, ?_, ?_, ?_⟩
  · unfold Fp.ofInt
    have e1 : decide ((c : Int) < 0) = false := by simp
    rw [e1, Int.natAbs_ofNat]
    exact h
  · simpa using up
  · simpa using lo

theorem mul_val (p m1 m2 : Nat) (e1 e2 : Int) (hp : 1 ≤ p) :
    ∃ (m : Nat) (k : Int),
      Fp.mul p (Fp.fin (m1 : Int) e1) (Fp.fin (m2 : Int) e2) = Fp.fin (m : Int) k ∧
      ((m : ℚ) * 2 ^ k) * 2 ^ p ≤
        (((m1 : ℚ) * 2 ^ e1) * ((m2 : ℚ) * 2 ^ e2)) * (2 ^ p + 1) := by
  obtain ⟨m, k, h, up, -⟩ := mk_val p (m1 * m2) 1 (e1 + e2) hp (by norm_num)
  refine ⟨m, k, ?_, ?_⟩
  · unfold Fp.mul
    have e0 : ((m1 : Int) * (m2 : Int)) = ((m1 * m2 : Nat) : Int) := by push_cast; ring
    simp only [e0]
    have e1' : decide (((m1 * m2 : Nat) : Int) < 0) = false := by
      simp only [decide_eq_false_iff_not, not_lt]
      exact Int.ofNat_nonneg _
    rw [e1', Int.natAbs_ofNat]
    exact h
  · have e : ((m1 * m2 : Nat) : ℚ) / ((1 : Nat) : ℚ) * 2 ^ (e1 + e2) =
        ((m1 : ℚ) * 2 ^ e1) * ((m2 : ℚ) * 2 ^ e2) := by
      rw [zpow_add₀ (by norm_num)]
      push_cast
      ring
    rw [e] at up
    exact up

theorem div_val (p m1 m2 : Nat) (e1 e2 : Int) (hp : 1 ≤ p) (h2 : 0 < m2) :
    ∃ (m : Nat) (k : Int),
      Fp.div p (Fp.fin (m1 : Int) e1) (Fp.fin (m2 : Int) e2) = Fp.fin (m : Int) k ∧
      ((m : ℚ) * 2 ^ k) * 2 ^ p ≤
        (((m1 : ℚ) * 2 ^ e1) / ((m2 : ℚ) * 2 ^ e2)) * (2 ^ p + 1) := by
  obtain ⟨m, k, h, up, -⟩ := mk_val p m1 m2 (e1 - e2) hp h2
  refine ⟨m, k, ?_, ?_⟩
  · unfold Fp.div
    have hm2 : ((m2 : Nat) : Int) ≠ 0 := by
      exact_mod_cast Nat.pos_iff_ne_zero.mp h2
    simp only [hm2, if_false]
    have e1' : decide (((m1 : Nat) : Int) < 0) = false := by
      simp only [decide_eq_false_iff_not, not_lt]
      exact Int.ofNat_nonneg _
    have e2' : decide (((m2 : Nat) : Int) < 0) = false := by
      simp only [decide_eq_false_iff_not, not_lt]
      exact Int.ofNat_nonneg _
    rw [e1', e2', Int.natAbs_ofNat, Int.natAbs_ofNat]
    simp only [bne_self_eq_false]
    exact h
  · have hE : (0 : ℚ) < 2 ^ e2 := zpow_pos (by norm_num) e2
    have hq : (0 : ℚ) < m2 := by exact_mod_cast h2
    have e : (m1 : ℚ) / (m2 : ℚ) * 2 ^ (e1 - e2) =
        ((m1 : ℚ) * 2 ^ e1) / ((m2 : ℚ) * 2 ^ e2) := by
      rw [zpow_sub₀ (by norm_num)]
      field_simp
    rw [e] at up
    exact up

/-- The conversion to `int` of a non-negative finite value below `B` (itself in the range
of `int`) is its integer part, which is non-negative and below `B`. -/
theorem toInt_floor (m : Nat) (k : Int) (B : Nat) (hB : B ≤ 2 ^ 31)
    (h : (m : ℚ) * 2 ^ k < B) :
    0 ≤ Fp.toInt (Fp.fin (m : Int) k) ∧ Fp.toInt (Fp.fin (m : Int) k) < B := by
  unfold Fp.toInt
  simp only []
  by_cases hk : 0 ≤ k
  · obtain ⟨K, rfl⟩ := Int.eq_ofNat_of_zero_le hk
    simp only [Int.ofNat_nonneg, if_true, Int.toNat_ofNat]
    rw [zpow_natCast] at h
    have h1 : m * 2 ^ K < B := by exact_mod_cast h
    have e : (m : Int) * 2 ^ K = ((m * 2 ^ K : Nat) : Int) := by push_cast; ring
    rw [e]
    generalize m * 2 ^ K = t at h1 ⊢
    rw [if_pos (by constructor <;> omega)]
    constructor <;> omega
  · obtain ⟨K, hK⟩ : ∃ K : Nat, k = -(K : Int) := ⟨(-k).toNat, by omega⟩
    subst hK
    simp only [hk, if_false, neg_neg, Int.toNat_ofNat]
    have e : Int.tdiv (m : Int) (2 ^ K) = ((m / 2 ^ K : Nat) : Int) := by
      have : ((2 : Int) ^ K) = ((2 ^ K : Nat) : Int) := by push_cast; rfl
      rw [this, ← Int.ofNat_tdiv]
    rw [e]
    rw [zpow_neg, zpow_natCast, ← div_eq_mul_inv, div_lt_iff₀ (by positivity)] at h
    have h1 : m < B * 2 ^ K := by exact_mod_cast h
    have h2 : m / 2 ^ K < B := (Nat.div_lt_iff_lt_mul (pow_pos (by norm_num) K)).mpr h1
    generalize m / 2 ^ K = t at h2 ⊢
    rw [if_pos (by constructor <;> omega)]
    constructor <;> omega

/-- The error analysis of `raw * size / window` in single precision, in rationals: for a
raw coordinate of at most 32767 below the window size, the result of the three roundings
of the operands, the rounded product and the rounded quotient is below `size`. -/
theorem scale_bound {a w W A X P Dv Q : ℚ} (ha0 : 0 ≤ a) (ha : a ≤ 32767) (haW : a + 1 ≤ W)
    (hw : 0 < w) (hX0 : 0 ≤ X) (hD0 : 0 < Dv)
    (hA : A * 2 ^ 24 ≤ a * (2 ^ 24 + 1)) (hX : X * 2 ^ 24 ≤ w * (2 ^ 24 + 1))
    (hP : P * 2 ^ 24 ≤ A * X * (2 ^ 24 + 1)) (hD : W * 2 ^ 24 ≤ Dv * 2 ^ 24 + 2 * W)
    (hQ : Q * 2 ^ 24 ≤ P / Dv * (2 ^ 24 + 1)) : Q < w := by
  norm_num at hA hX hP hD hQ
  have h1 : A ≤ a * (16777217 / 16777216) := by linarith
  have h2 : X ≤ w * (16777217 / 16777216) := by linarith
  have h3 : A * X ≤ a * (16777217 / 16777216) * (w * (16777217 / 16777216)) :=
    mul_le_mul h1 h2 hX0 (by positivity)
  have h4 : P ≤ a * w * (16777217 / 16777216) ^ 3 := by
    have : P * 16777216 ≤ a * (16777217 / 16777216) * (w * (16777217 / 16777216)) * 16777217 := by
      nlinarith
    nlinarith
  have h5 : (a + 1) * (16777214 / 16777216) ≤ Dv := by nlinarith
  have hL : (0 : ℚ) < (a + 1) * (16777214 / 16777216) := by positivity
  have h6 : Q * 16777216 * Dv ≤ P * 16777217 := by
    have hq := mul_le_mul_of_nonneg_right hQ (le_of_lt hD0)
    have e : P / Dv * 16777217 * Dv = P * 16777217 := by
      field_simp
    rw [e] at hq
    exact hq
  by_contra hcon
  push_neg at hcon
  have hQ0 : 0 < Q := lt_of_lt_of_le hw hcon
  have h7 : w * 16777216 * ((a + 1) * (16777214 / 16777216)) ≤ Q * 16777216 * Dv := by
    apply mul_le_mul
    · linarith
    · exact h5
    · exact le_of_lt hL
    · positivity
  have h8 : w * 16777216 * ((a + 1) * (16777214 / 16777216)) ≤
      a * w * (16777217 / 16777216) ^ 3 * 16777217 := by linarith
  have h9 : w * (16777216 * ((a + 1) * (16777214 / 16777216)) -
      a * ((16777217 / 16777216) ^ 3 * 16777217)) ≤ 0 := by linarith
  have h10 : 0 < 16777216 * ((a + 1) * (16777214 / 16777216)) -
      a * ((16777217 / 16777216) ^ 3 * 16777217) := by
    have : 16777216 * ((a + 1) * (16777214 / 16777216)) -
        a * ((16777217 / 16777216) ^ 3 * 16777217) =
        16777214 - a * ((16777217 / 16777216) ^ 3 * 16777217 - 16777214) := by ring
    rw [this]
    have hc : (16777217 / 16777216 : ℚ) ^ 3 * 16777217 - 16777214 ≤ 8 := by norm_num
    have hc0 : (0 : ℚ) ≤ (16777217 / 16777216 : ℚ) ^ 3 * 16777217 - 16777214 := by norm_num
    nlinarith
  nlinarith

/-- The rescaled coordinate is a pixel: for a raw coordinate `a` of at most 32767 (every
16-bit coordinate is) below the window size `W`, and a positive buffer size `w` in the
range of `int`, `scaleMouse` yields a value in `[0, w)`, although its operations round. -/
theorem scaleMouse_range (a w W : Nat) (ha : a ≤ 32767) (haW : a < W) (hw0 : 0 < w)
    (hw : w ≤ 2 ^ 31) :
    0 ≤ scaleMouse (a : Int) w (W : Int) ∧ scaleMouse (a : Int) w (W : Int) < (w : Int) := by
  unfold scaleMouse f32
  obtain ⟨mA, kA, hA, uA, -⟩ := ofInt_val 24 a (by norm_num)
  obtain ⟨mX, kX, hX, uX, -⟩ := ofInt_val 24 w (by norm_num)
  obtain ⟨mD, kD, hD, -, lD⟩ := ofInt_val 24 W (by norm_num)
  rw [hA, hX, hD]
  obtain ⟨mP, kP, hP, uP⟩ := mul_val 24 mA mX kA kX (by norm_num)
  rw [hP]
  have hWq : (0 : ℚ) < W := by
    have : 0 < W := by omega
    exact_mod_cast this
  have hmD : 0 < mD := by
    rcases Nat.eq_zero_or_pos mD with h0 | h0
    · subst h0
      norm_num at lD
      linarith
    · exact h0
  obtain ⟨mQ, kQ, hQ, uQ⟩ := div_val 24 mP mD kP kD (by norm_num) hmD
  rw [hQ]
  apply toInt_floor mQ kQ w hw
  have hDv : (0 : ℚ) < (mD : ℚ) * 2 ^ kD :=
    mul_pos (by exact_mod_cast hmD) (zpow_pos (by norm_num) kD)
  have hX0 : (0 : ℚ) ≤ (mX : ℚ) * 2 ^ kX :=
    mul_nonneg (Nat.cast_nonneg mX) (le_of_lt (zpow_pos (by norm_num) kX))
  refine @scale_bound (a : ℚ) (w : ℚ) (W : ℚ) _ _ _ _ _ (Nat.cast_nonneg a) ?_ ?_ ?_ hX0 hDv
    uA uX uP lD uQ
  · exact_mod_cast ha
  · have : a + 1 ≤ W := haW
    exact_mod_cast this
  · exact_mod_cast hw0

theorem toInt16_le (n : Nat) (a : Nat) (h : toInt16 n = (a : Int)) : a ≤ 32767 := by
  unfold toInt16 at h
  split at h <;> omega

/-! ## C17: the mouse position in fullscreen -/

/-- C17, the claim refuted.  With a buffer and a client area both 4099 wide and high, a
mouse move to (4095, 4095) stores (4094, 4094), not (4095, 4095): the product 4095 * 4099
is not a single-precision number. -/
theorem C17_counterexample :
    GetFullscreen wideState = true ∧
    GetMousePosition (WndProc wideState wideMove) = (4094, 4094) ∧
    toInt16 (LOWORD wideMove.lParam) = 4095 ∧ toInt16 (HIWORD wideMove.lParam) = 4095 ∧
    wideMove.clientRect.right - wideMove.clientRect.left = 4099 ∧
    wideMove.clientRect.bottom - wideMove.clientRect.top = 4099 ∧
    GetWidth wideState = 4099 ∧ GetHeight wideState = 4099 ∧
    4095 * 4099 / 4099 = 4095 := by
  decide

/-- C17, amended: outside fullscreen a mouse move stores the raw coordinates.  In
fullscreen, with raw coordinates `0 <= rawX < windowWidth` and `0 <= rawY < windowHeight`,
it stores the single-precision results `scaleMouse rawX width windowWidth` and
`scaleMouse rawY height windowHeight`, and no other global changes.  For every positive
buffer size in the range of `int` and every window size these are pixels of the buffer:
`0 <= x < width` and `0 <= y < height`.  They are exactly the integer quotients
`rawX * width / windowWidth` and `rawY * height / windowHeight` whenever the window size
and the product `rawX * width`, or `rawY * height`, are below `2^24`. -/
theorem C17_mouse_scaling (g : Internal) (m : MSG) (hm : m.message = .WM_MOUSEMOVE) :
    (g.isFullscreen = false →
      WndProc g m = { g with mouseX := toInt16 (LOWORD m.lParam),
                             mouseY := toInt16 (HIWORD m.lParam) }) ∧
    (g.isFullscreen = true →
      ∀ (rawX rawY windowWidth windowHeight : Nat),
        toInt16 (LOWORD m.lParam) = (rawX : Int) → toInt16 (HIWORD m.lParam) = (rawY : Int) →
        toInt32 (m.clientRect.right - m.clientRect.left) = (windowWidth : Int) →
        toInt32 (m.clientRect.bottom - m.clientRect.top) = (windowHeight : Int) →
        rawX < windowWidth → rawY < windowHeight →
        WndProc g m = { g with mouseX := scaleMouse (rawX : Int) g.width (windowWidth : Int),
                               mouseY := scaleMouse (rawY : Int) g.height (windowHeight : Int) } ∧
        (0 < g.width → g.width ≤ 2 ^ 31 →
          0 ≤ (GetMousePosition (WndProc g m)).1 ∧
          (GetMousePosition (WndProc g m)).1 < (g.width : Int)) ∧
        (0 < g.height → g.height ≤ 2 ^ 31 →
          0 ≤ (GetMousePosition (WndProc g m)).2 ∧
          (GetMousePosition (WndProc g m)).2 < (g.height : Int)) ∧
        (windowWidth < 2 ^ 24 → rawX * g.width < 2 ^ 24 →
          (GetMousePosition (WndProc g m)).1 = ((rawX * g.width / windowWidth : Nat) : Int)) ∧
        (windowHeight < 2 ^ 24 → rawY * g.height < 2 ^ 24 →
          (GetMousePosition (WndProc g m)).2 =
            ((rawY * g.height / windowHeight : Nat) : Int))) := by
  constructor
  · intro hf
    unfold WndProc
    rw [hm]
    simp only [hf, Bool.false_eq_true, if_false]
  · intro hf rawX rawY windowWidth windowHeight hx hy hw hh hxw hyh
    have e : WndProc g m =
        { g with mouseX := scaleMouse (rawX : Int) g.width (windowWidth : Int),
                 mouseY := scaleMouse (rawY : Int) g.height (windowHeight : Int) } := by
      unfold WndProc
      rw [hm]
      simp only [hf, if_true, hx, hy, hw, hh]
    have e1 : (GetMousePosition (WndProc g m)).1 =
        scaleMouse (rawX : Int) g.width (windowWidth : Int) := by rw [e]; rfl
    have e2 : (GetMousePosition (WndProc g m)).2 =
        scaleMouse (rawY : Int) g.height (windowHeight : Int) := by rw [e]; rfl
    rw [e1, e2]
    refine ⟨e, ?_, ?_, ?_, ?_⟩
    · intro h0 hle
      exact scaleMouse_range rawX g.width windowWidth (toInt16_le _ _ hx) hxw h0 hle
    · intro h0 hle
      exact scaleMouse_range rawY g.height windowHeight (toInt16_le _ _ hy) hyh h0 hle
    · intro hw24 hp
      exact scaleMouse_exact rawX g.width windowWidth (by omega) (by omega) hw24 hp
    · intro hh24 hp
      exact scaleMouse_exact rawY g.height windowHeight (by omega) (by omega) hh24 hp

/-- Witness for C17: a buffer of 7680 x 2160 pixels shown in a client area of the same
size, the mouse at its bottom right corner (7679, 2159).  The product `7679 * 7680` exceeds
`2^24`; the stored position is the bottom right pixel. -/
theorem C17_mouse_scaling_witness :
    ultraState.isFullscreen = true ∧
    ¬ (7679 * ultraState.width < 2 ^ 24) ∧
    GetMousePosition (WndProc ultraState ultraMove) = (7679, 2159) ∧
    WndProc ultraState ultraMove =
      { ultraState with mouseX := scaleMouse ((7679 : Nat) : Int) ultraState.width ((7680 : Nat) : Int),
                        mouseY := scaleMouse ((2159 : Nat) : Int) ultraState.height ((2160 : Nat) : Int) } ∧
    (0 ≤ (GetMousePosition (WndProc ultraState ultraMove)).1 ∧
      (GetMousePosition (WndProc ultraState ultraMove)).1 < (ultraState.width : Int)) ∧
    (0 ≤ (GetMousePosition (WndProc ultraState ultraMove)).2 ∧
      (GetMousePosition (WndProc ultraState ultraMove)).2 < (ultraState.height : Int)) ∧
    (GetMousePosition (WndProc ultraState ultraMove)).2 =
      ((2159 * ultraState.height / 2160 : Nat) : Int) :=
  have h := (C17_mouse_scaling ultraState ultraMove rfl).2 rfl 7679 2159 7680 2160
    (by decide) (by decide) (by decide) (by decide) (by decide) (by decide)
  ⟨rfl, by decide, by decide, h.1, h.2.1 (by decide) (by decide),
    h.2.2.1 (by decide) (by decide), h.2.2.2.2 (by decide) (by decide)⟩

/-! ## Frame timing -/

theorem mk_finite (p : Nat) (neg : Bool) (n d : Nat) (e : Int) : (Fp.mk p neg n d e).Finite := by
  unfold Fp.mk
  split
  · exact ⟨_, _, rfl⟩
  · exact ⟨_, _, rfl⟩

theorem mk_regular (p : Nat) (neg : Bool) (n d : Nat) (e : Int) (hp : 1 ≤ p) (hn : n ≠ 0)
    (hd : 0 < d) : (Fp.mk p neg n d e).Regular := by
  unfold Fp.mk
  rw [if_neg hn]
  obtain ⟨u, v, m, hr, b1, -, f1, -⟩ := roundPos_spec p n d hp (Nat.pos_of_ne_zero hn) hd
  have hD : 0 < d * 2 ^ u := Nat.mul_pos hd (pow_pos (by norm_num) _)
  have h1 : 2 ^ (p - 1) ≤ n * 2 ^ v / (d * 2 ^ u) := (Nat.le_div_iff_mul_le hD).mpr b1
  have h2 : 0 < 2 ^ (p - 1) := pow_pos (by norm_num) _
  have hm : 0 < m := by omega
  simp only [hr]
  refine ⟨_, _, rfl, ?_⟩
  cases neg
  · simp only [Bool.false_eq_true, if_false]
    omega
  · simp only [if_true]
    omega

theorem ofInt_regular (p : Nat) (i : Int) (hp : 1 ≤ p) (hi : i ≠ 0) : (Fp.ofInt p i).Regular := by
  unfold Fp.ofInt
  exact mk_regular p _ _ 1 0 hp (by omega) (by norm_num)

theorem div_finite (p : Nat) {x y : Fp} (hx : x.Finite) (hy : y.Regular) :
    (Fp.div p x y).Finite := by
  obtain ⟨m1, e1, rfl⟩ := hx
  obtain ⟨m2, e2, rfl, h2⟩ := hy
  unfold Fp.div
  simp only [h2, if_false]
  exact mk_finite _ _ _ _ _

theorem div_regular (p : Nat) {x y : Fp} (hp : 1 ≤ p) (hx : x.Regular) (hy : y.Regular) :
    (Fp.div p x y).Regular := by
  obtain ⟨m1, e1, rfl, h1⟩ := hx
  obtain ⟨m2, e2, rfl, h2⟩ := hy
  unfold Fp.div
  simp only [h2, if_false]
  exact mk_regular p _ _ _ _ hp (by omega) (by omega)

theorem add_finite (p : Nat) {x y : Fp} (hx : x.Finite) (hy : y.Finite) :
    (Fp.add p x y).Finite := by
  obtain ⟨m1, e1, rfl⟩ := hx
  obtain ⟨m2, e2, rfl⟩ := hy
  unfold Fp.add
  exact mk_finite _ _ _ _ _

theorem regular_of_ge_one {x : Fp} (hx : x.Finite) (h : Fp.ge x (Fp.fin 1 0) = true) :
    x.Regular := by
  obtain ⟨m, e, rfl⟩ := hx
  refine ⟨m, e, rfl, ?_⟩
  rintro rfl
  unfold Fp.ge at h
  simp only [zero_mul, decide_eq_true_eq] at h
  have : (0 : Int) < 1 * 2 ^ ((0 : Int) - min e 0).toNat := by positivity
  omega

theorem frameDelta_finite (t : Int) (g : Internal) (h : g.perfFrequency ≠ 0) :
    (frameDelta t g).Finite := by
  unfold frameDelta
  obtain ⟨m, e, hm⟩ := ofInt_fin f64 (t - g.lastFrameTime)
  exact div_finite f64 ⟨m, e, hm⟩ (ofInt_regular f64 _ (by decide) h)

/-- The frame timing step of `Render`, field by field. -/
theorem frameTiming_fields (t : Int) (g : Internal) :
    (frameTiming t g).averageFPS =
      (if secondElapsed t g then
        Fp.div f64 (Fp.ofInt f64 (g.frameCount + 1)) (Fp.add f64 g.frameTimeSum (frameDelta t g))
       else g.averageFPS) ∧
    (frameTiming t g).frameCount = (if secondElapsed t g then 0 else g.frameCount + 1) ∧
    (frameTiming t g).frameTimeSum =
      (if secondElapsed t g then Fp.fin 0 0
       else Fp.add f64 g.frameTimeSum (frameDelta t g)) ∧
    (frameTiming t g).perfFrequency = g.perfFrequency ∧
    (frameTiming t g).calls =
      (if titleDue t g then
        g.calls ++ [.SetWindowTextA g.hwnd g.appName (frameTiming t g).averageFPS
          (Fp.div f64 (Fp.fin 1000 0) (frameTiming t g).averageFPS)]
       else g.calls) := by
  unfold frameTiming secondElapsed titleDue frameDelta
  simp only []
  split <;> split <;> exact ⟨rfl, rfl, rfl, rfl, rfl⟩

theorem presentCalls_title (env : RenderEnv) (g : Internal) :
    (presentCalls env g).filter isTitleCall = [] := by
  unfold presentCalls waitCalls
  split <;> simp [List.filter, isTitleCall]

/-- The timing globals and the title call that `Render` leaves. -/
theorem Render_timing {env : RenderEnv} {g g' : Internal} {r : Bool}
    (h : Render env g = some (r, g')) :
    g'.averageFPS =
      (if secondElapsed env.currentTime g then
        Fp.div f64 (Fp.ofInt f64 (g.frameCount + 1))
          (Fp.add f64 g.frameTimeSum (frameDelta env.currentTime g))
       else g.averageFPS) ∧
    g'.frameCount = (if secondElapsed env.currentTime g then 0 else g.frameCount + 1) ∧
    g'.frameTimeSum =
      (if secondElapsed env.currentTime g then Fp.fin 0 0
       else Fp.add f64 g.frameTimeSum (frameDelta env.currentTime g)) ∧
    g'.perfFrequency = g.perfFrequency ∧
    ∃ cs, g'.calls = g.calls ++ cs ∧
      cs.filter isTitleCall =
        (if titleDue env.currentTime g then
          [.SetWindowTextA g.hwnd g.appName g'.averageFPS
            (Fp.div f64 (Fp.fin 1000 0) g'.averageFPS)]
         else []) := by
  have e1 := eraseInput_processMessages env.messages
    (frameTiming env.currentTime (copyInputState g))
  have a1 := congrArg Internal.averageFPS e1
  have a2 := congrArg Internal.frameCount e1
  have a3 := congrArg Internal.frameTimeSum e1
  have a4 := congrArg Internal.perfFrequency e1
  have a5 := congrArg Internal.calls e1
  obtain ⟨f1, f2, f3, f4, f5⟩ := frameTiming_fields env.currentTime (copyInputState g)
  have p1 : (pollFrame env g).averageFPS =
      (frameTiming env.currentTime (copyInputState g)).averageFPS := a1
  have p2 : (pollFrame env g).frameCount =
      (frameTiming env.currentTime (copyInputState g)).frameCount := a2
  have p3 : (pollFrame env g).frameTimeSum =
      (frameTiming env.currentTime (copyInputState g)).frameTimeSum := a3
  have p4 : (pollFrame env g).perfFrequency =
      (frameTiming env.currentTime (copyInputState g)).perfFrequency := a4
  have p5 : (pollFrame env g).calls =
      (frameTiming env.currentTime (copyInputState g)).calls := a5
  rw [← p1] at f1 f5
  rw [← p2] at f2
  rw [← p3] at f3
  rw [← p4] at f4
  rw [← p5] at f5
  replace f1 : (pollFrame env g).averageFPS =
      (if secondElapsed env.currentTime g then
        Fp.div f64 (Fp.ofInt f64 (g.frameCount + 1))
          (Fp.add f64 g.frameTimeSum (frameDelta env.currentTime g))
       else g.averageFPS) := f1
  replace f2 : (pollFrame env g).frameCount =
      (if secondElapsed env.currentTime g then 0 else g.frameCount + 1) := f2
  replace f3 : (pollFrame env g).frameTimeSum =
      (if secondElapsed env.currentTime g then Fp.fin 0 0
       else Fp.add f64 g.frameTimeSum (frameDelta env.currentTime g)) := f3
  replace f4 : (pollFrame env g).perfFrequency = g.perfFrequency := f4
  replace f5 : (pollFrame env g).calls =
      (if titleDue env.currentTime g then
        g.calls ++ [.SetWindowTextA g.hwnd g.appName (pollFrame env g).averageFPS
          (Fp.div f64 (Fp.fin 1000 0) (pollFrame env g).averageFPS)]
       else g.calls) := f5
  have hq : ∀ rest : List Api, rest.filter isTitleCall = [] →
      ((pollFrame env g).calls ++ rest = g.calls ++
        ((pollFrame env g).calls.drop g.calls.length ++ rest)) ∧
      ((pollFrame env g).calls.drop g.calls.length ++ rest).filter isTitleCall =
        (if titleDue env.currentTime g then
          [.SetWindowTextA g.hwnd g.appName (pollFrame env g).averageFPS
            (Fp.div f64 (Fp.fin 1000 0) (pollFrame env g).averageFPS)]
         else []) := by
    intro rest hrest
    rw [List.filter_append, hrest, List.append_nil, f5]
    split
    · simp [isTitleCall]
    · simp
  rcases Render_cases h with ⟨-, -, rfl⟩ | ⟨-, h2⟩
  · refine ⟨f1, f2, f3, f4, (pollFrame env g).calls.drop g.calls.length, ?_, ?_⟩
    · have := (hq [] rfl).1
      rw [List.append_nil, List.append_nil] at this
      exact this
    · have := (hq [] rfl).2
      rw [List.append_nil] at this
      exact this
  · obtain ⟨-, e⟩ := presentFrame_eq h2
    obtain ⟨-, -, hc, -⟩ := presentFrame_spec h2
    have q1 : g'.averageFPS = (pollFrame env g).averageFPS := by rw [e]
    have q2 : g'.frameCount = (pollFrame env g).frameCount := by rw [e]
    have q3 : g'.frameTimeSum = (pollFrame env g).frameTimeSum := by rw [e]
    have q4 : g'.perfFrequency = (pollFrame env g).perfFrequency := by rw [e]
    refine ⟨q1.trans f1, q2.trans f2, q3.trans f3, q4.trans f4,
      (pollFrame env g).calls.drop g.calls.length ++ presentCalls env (pollFrame env g), ?_, ?_⟩
    · rw [hc]
      exact (hq _ (presentCalls_title env (pollFrame env g))).1
    · rw [q1]
      exact (hq _ (presentCalls_title env (pollFrame env g))).2

/-! ## C21: the FPS value of the title -/

/-- C21, the claim refuted: in the first `Render` call after `Init`, half a second later,
the title is updated while the accumulated frame time is below one second; the FPS value
is the initial `0.0` and the frame time figure `1000 / 0.0` is `+inf`. -/
theorem C21_counterexample :
    demoState.averageFPS = Fp.fin 0 0 ∧
    titleDue slowFrameEnv.currentTime demoState = true ∧
    secondElapsed slowFrameEnv.currentTime demoState = false ∧
    (Render slowFrameEnv demoState).map Prod.fst = some true ∧
    (afterRender slowFrameEnv demoState).calls.filter isTitleCall =
      [.SetWindowTextA (some 1) "ThirteenApp" (Fp.fin 0 0) (Fp.inf false)] ∧
    Fp.isZero (afterRender slowFrameEnv demoState).averageFPS = true := by
  decide

/-- C21, amended: a `Render` call that returns updates the title exactly when the title
timer reaches 0.25 s, with the stored average FPS and `1000` divided by it.  The stored
value is recomputed exactly in the calls in which the accumulated frame time reaches one
second; when the timing globals are in order, the recomputed value is finite and not zero,
and the globals stay in order.  So the value is not zero in every call from the first
recomputation on, and it is the initial value before. -/
theorem C21_title_fps (env : RenderEnv) (g g' : Internal) (r : Bool)
    (h : Render env g = some (r, g')) :
    (∃ cs, g'.calls = g.calls ++ cs ∧
      cs.filter isTitleCall =
        (if titleDue env.currentTime g then
          [.SetWindowTextA g.hwnd g.appName g'.averageFPS
            (Fp.div f64 (Fp.fin 1000 0) g'.averageFPS)]
         else [])) ∧
    (secondElapsed env.currentTime g = false → g'.averageFPS = g.averageFPS) ∧
    (Timed g → Timed g' ∧
      (secondElapsed env.currentTime g = true → g'.averageFPS.Regular) ∧
      (g.averageFPS.Regular → g'.averageFPS.Regular)) := by
  obtain ⟨t1, t2, t3, t4, hcs⟩ := Render_timing h
  refine ⟨hcs, ?_, ?_⟩
  · intro hs
    rw [t1, hs]
    rfl
  · rintro ⟨hp, hc, hf⟩
    have hd := frameDelta_finite env.currentTime g hp
    have hsum := add_finite f64 hf hd
    have hreg : secondElapsed env.currentTime g = true → g'.averageFPS.Regular := by
      intro hs
      rw [t1, hs]
      simp only [if_true]
      exact div_regular f64 (by decide) (ofInt_regular f64 _ (by decide) (by omega))
        (regular_of_ge_one hsum hs)
    refine ⟨⟨by rw [t4]; exact hp, ?_, ?_⟩, hreg, ?_⟩
    · rw [t2]
      split <;> omega
    · rw [t3]
      split
      · exact ⟨_, _, rfl⟩
      · exact hsum
    · intro ha
      cases hs : secondElapsed env.currentTime g
      · rw [t1, hs]
        exact ha
      · exact hreg hs

theorem C21_title_fps_witness :
    Render fullSecondEnv demoState = some (true, afterRender fullSecondEnv demoState) ∧
    Timed demoState ∧ secondElapsed fullSecondEnv.currentTime demoState = true ∧
    (afterRender fullSecondEnv demoState).averageFPS.Regular :=
  ⟨rfl, ⟨by decide, by decide, ⟨_, _, rfl⟩⟩, by decide,
    ((C21_title_fps fullSecondEnv demoState (afterRender fullSecondEnv demoState) true rfl).2.2
      ⟨by decide, by decide, ⟨_, _, rfl⟩⟩).2.1 (by decide)⟩

/-! ## C25: the mouse position in windowed mode -/

theorem toInt16_spec (n : Nat) :
    toInt16 n % 65536 = ((n % 65536 : Nat) : Int) ∧ -32768 ≤ toInt16 n ∧ toInt16 n ≤ 32767 ∧
    (toInt16 n < 0 ↔ 32768 ≤ n % 65536) := by
  unfold toInt16
  split <;> omega

/-- C25: in windowed mode a mouse move stores, as x, the integer in `[-32768, 32767]`
congruent modulo `2^16` to bits 0..15 of `lParam`, and as y the integer in
`[-32768, 32767]` congruent modulo `2^16` to bits 16..31 of `lParam`; x is negative exactly
when bit 15 is set, y exactly when bit 31 is set.  No other global changes. -/
theorem C25_windowed_mouse (g : Internal) (m : MSG) (hm : m.message = .WM_MOUSEMOVE)
    (hf : g.isFullscreen = false) :
    WndProc g m = { g with mouseX := (WndProc g m).mouseX, mouseY := (WndProc g m).mouseY } ∧
    GetMousePosition (WndProc g m) = ((WndProc g m).mouseX, (WndProc g m).mouseY) ∧
    (WndProc g m).mouseX % 65536 = ((m.lParam % 65536 : Nat) : Int) ∧
    -32768 ≤ (WndProc g m).mouseX ∧ (WndProc g m).mouseX ≤ 32767 ∧
    ((WndProc g m).mouseX < 0 ↔ m.lParam.testBit 15 = true) ∧
    (WndProc g m).mouseY % 65536 = ((m.lParam / 65536 % 65536 : Nat) : Int) ∧
    -32768 ≤ (WndProc g m).mouseY ∧ (WndProc g m).mouseY ≤ 32767 ∧
    ((WndProc g m).mouseY < 0 ↔ m.lParam.testBit 31 = true) := by
  have e : WndProc g m = { g with mouseX := toInt16 (LOWORD m.lParam),
                                  mouseY := toInt16 (HIWORD m.lParam) } := by
    unfold WndProc
    rw [hm]
    simp only [hf, Bool.false_eq_true, if_false]
  obtain ⟨x1, x2, x3, x4⟩ := toInt16_spec (LOWORD m.lParam)
  obtain ⟨y1, y2, y3, y4⟩ := toInt16_spec (HIWORD m.lParam)
  have ex : (WndProc g m).mouseX = toInt16 (LOWORD m.lParam) := by rw [e]
  have ey : (WndProc g m).mouseY = toInt16 (HIWORD m.lParam) := by rw [e]
  rw [ex, ey]
  refine ⟨e, by rw [e]; rfl, ?_, x2, x3, ?_, ?_, y2, y3, ?_⟩
  · rw [x1]
    unfold LOWORD
    omega
  · rw [x4, Nat.testBit_to_div_mod, decide_eq_true_eq]
    unfold LOWORD
    omega
  · rw [y1]
    unfold HIWORD
    omega
  · rw [y4, Nat.testBit_to_div_mod, decide_eq_true_eq]
    unfold HIWORD
    omega

theorem C25_windowed_mouse_witness :
    GetMousePosition (WndProc demoState signedMove) = (-32768, -1) ∧
    signedMove.lParam.testBit 15 = true ∧ signedMove.lParam.testBit 31 = true ∧
    ((WndProc demoState signedMove).mouseX < 0 ↔ signedMove.lParam.testBit 15 = true) :=
  ⟨by decide, by decide, by decide,
    (C25_windowed_mouse demoState signedMove rfl rfl).2.2.2.2.2.1⟩

/-! ## Minesweeper: indexes and loops -/

theorem cellIndex_spec (x y : Int) (hx : 0 ≤ x ∧ x < 16) (hy : 0 ≤ y ∧ y < 16) :
    cellIndex x y = y.toNat * 16 + x.toNat ∧ cellIndex x y < 256 := by
  unfold cellIndex
  have h : (y * 16 + x) % 2 ^ 32 = y * 16 + x := by
    apply Int.emod_eq_of_lt <;> omega
  rw [h]
  omega

theorem offBoard_eq_false (x y : Int) :
    offBoard x y = false ↔ (0 ≤ x ∧ x < 16) ∧ (0 ≤ y ∧ y < 16) := by
  unfold offBoard
  simp only [Bool.or_eq_false_iff, decide_eq_false_iff_not]
  omega

theorem index_coords (i : Nat) (h : i < 256) :
    (0 ≤ ((i % 16 : Nat) : Int) ∧ ((i % 16 : Nat) : Int) < 16) ∧
    (0 ≤ ((i / 16 : Nat) : Int) ∧ ((i / 16 : Nat) : Int) < 16) := by
  omega

/-- A fold in which every step returns and keeps `J` returns and keeps `J`. -/
theorem foldlM_inv {α β : Type} (J : β → Prop) (f : β → α → Option β) (l : List α)
    (hf : ∀ s a, a ∈ l → J s → ∃ s', f s a = some s' ∧ J s') (s : β) (hs : J s) :
    ∃ s', l.foldlM f s = some s' ∧ J s' := by
  induction l generalizing s with
  | nil => exact ⟨s, rfl, hs⟩
  | cons a l ih =>
    obtain ⟨s1, h1, j1⟩ := hf s a (List.mem_cons_self _ _) hs
    obtain ⟨s2, h2, j2⟩ := ih (fun s a ha => hf s a (List.mem_cons_of_mem _ ha)) s1 j1
    refine ⟨s2, ?_, j2⟩
    rw [List.foldlM_cons, h1]
    exact h2

/-- A counting fold: the counter does not decrease, and it is unchanged only if `P` holds
at every element. -/
theorem foldlM_count {α : Type} (P : α → Prop) (f : Int → α → Option Int) (l : List α)
    (hf : ∀ r a, a ∈ l → ∃ r', f r a = some r' ∧ r ≤ r' ∧ (r' = r → P a)) (r : Int) :
    ∃ r', l.foldlM f r = some r' ∧ r ≤ r' ∧ (r' = r → ∀ a ∈ l, P a) := by
  induction l generalizing r with
  | nil => exact ⟨r, rfl, le_refl r, fun _ a ha => by cases ha⟩
  | cons a l ih =>
    obtain ⟨r1, h1, l1, p1⟩ := hf r a (List.mem_cons_self _ _)
    obtain ⟨r2, h2, l2, p2⟩ := ih (fun r a ha => hf r a (List.mem_cons_of_mem _ ha)) r1
    refine ⟨r2, ?_, le_trans l1 l2, ?_⟩
    · rw [List.foldlM_cons, h1]
      exact h2
    · intro e b hb
      have e1 : r1 = r := by omega
      have e2 : r2 = r1 := by omega
      rcases List.mem_cons.mp hb with rfl | hb
      · exact p1 e1
      · exact p2 e2 b hb

/-- `NumNeighbors` returns, and returns zero only if no neighbour on the board is a
mine. -/
theorem NumNeighbors_spec (b : Board) (cx cy : Int) :
    ∃ n, b.NumNeighbors cx cy = some n ∧
      (n = 0 → ∀ iy ∈ ([-1, 0, 1] : List Int), ∀ ix ∈ ([-1, 0, 1] : List Int),
        ¬(ix = 0 ∧ iy = 0) → offBoard (cx + ix) (cy + iy) = false →
        b.s_mines (cellIndex (cx + ix) (cy + iy)) = false) := by
  unfold Board.NumNeighbors
  obtain ⟨n, h1, -, h3⟩ := foldlM_count
    (fun iy => ∀ ix ∈ ([-1, 0, 1] : List Int), ¬(ix = 0 ∧ iy = 0) →
      offBoard (cx + ix) (cy + iy) = false →
      b.s_mines (cellIndex (cx + ix) (cy + iy)) = false)
    (fun ret iy => ([-1, 0, 1] : List Int).foldlM (fun ret ix =>
      if ix = 0 ∧ iy = 0 then some ret
      else
        let x := cx + ix
        let y := cy + iy
        if offBoard x y then some ret
        else (b.Mine x y).map fun m => if m then ret + 1 else ret) ret)
    ([-1, 0, 1] : List Int)
    (by
      intro r iy _
      refine foldlM_count (fun ix => ¬(ix = 0 ∧ iy = 0) →
        offBoard (cx + ix) (cy + iy) = false →
        b.s_mines (cellIndex (cx + ix) (cy + iy)) = false) _ _ ?_ r
      intro r ix _
      by_cases hc : ix = 0 ∧ iy = 0
      · rw [if_pos hc]
        exact ⟨r, rfl, le_refl r, fun _ hn => absurd hc hn⟩
      · rw [if_neg hc]
        simp only []
        cases ho : offBoard (cx + ix) (cy + iy)
        · simp only [Bool.false_eq_true, if_false]
          obtain ⟨hx', hy'⟩ := (offBoard_eq_false _ _).mp ho
          obtain ⟨-, hlt⟩ := cellIndex_spec _ _ hx' hy'
          unfold Board.Mine readCell
          rw [if_pos hlt]
          cases hm : b.s_mines (cellIndex (cx + ix) (cy + iy))
          · exact ⟨r, rfl, le_refl r, fun _ _ _ => rfl⟩
          · refine ⟨r + 1, rfl, by omega, fun e => ?_⟩
            omega
        · simp only [if_true]
          exact ⟨r, rfl, le_refl r, fun _ _ h => by cases h⟩)
    0
  exact ⟨n, h1, fun hn => h3 hn⟩

theorem nodup_length_le (l : List Nat) (hn : l.Nodup) (hb : ∀ i ∈ l, i < 256) :
    l.length ≤ 256 := by
  have h1 : l.toFinset ⊆ Finset.range 256 := by
    intro i hi
    exact Finset.mem_range.mpr (hb i (List.mem_toFinset.mp hi))
  have h2 := Finset.card_le_card h1
  rw [List.toFinset_card_of_nodup hn, Finset.card_range] at h2
  exact h2

theorem FloodInv_length {mines rev0 : Nat → Bool} {c : Nat} {s : Flood}
    (h : FloodInv mines rev0 c s) : s.pushed.length ≤ 256 :=
  nodup_length_le s.pushed h.2.2.2.1 (fun i hi => (h.2.2.2.2.1 i hi).1)

/-- The body of the neighbour loops keeps the invariant, when the neighbour is no mine. -/
theorem revealNeighbor_inv {mines rev0 : Nat → Bool} {c : Nat} (cx cy iy ix : Int) (s : Flood)
    (hs : FloodInv mines rev0 c s)
    (hn : ¬(ix = 0 ∧ iy = 0) → offBoard (cx + ix) (cy + iy) = false →
      mines (cellIndex (cx + ix) (cy + iy)) = false) :
    ∃ s', revealNeighbor cx cy iy ix s = some s' ∧ FloodInv mines rev0 c s' ∧
      s'.iterations = s.iterations := by
  unfold revealNeighbor
  by_cases hc : ix = 0 ∧ iy = 0
  · rw [if_pos hc]
    exact ⟨s, rfl, hs, rfl⟩
  rw [if_neg hc]
  simp only []
  cases ho : offBoard (cx + ix) (cy + iy)
  swap
  · simp only [if_true]
    exact ⟨s, rfl, hs, rfl⟩
  simp only [Bool.false_eq_true, if_false]
  obtain ⟨hx', hy'⟩ := (offBoard_eq_false _ _).mp ho
  obtain ⟨-, hlt⟩ := cellIndex_spec _ _ hx' hy'
  have hm := hn hc ho
  generalize cellIndex (cx + ix) (cy + iy) = idx at hlt hm
  unfold readCell writeCell
  rw [if_pos hlt, if_pos hlt]
  simp only [Option.some_bind, Option.map_some']
  cases hr : s.s_revealed idx
  swap
  · simp only [Bool.not_true, Bool.false_eq_true, if_false]
    exact ⟨s, rfl, hs, rfl⟩
  simp only [Bool.not_false, if_true]
  obtain ⟨i1, i2, i3, i4, i5, ⟨l, i6, i6'⟩, i7⟩ := hs
  refine ⟨_, rfl, ⟨?_, ?_, ?_, ?_, ?_, ?_, ?_⟩, rfl⟩
  · intro i hi
    show Function.update s.s_revealed idx true i = true
    by_cases e : i = idx
    · rw [e, Function.update_same]
    · rw [Function.update_noteq e]
      exact i1 i hi
  · intro i hi
    have hi' : Function.update s.s_revealed idx true i = true := hi
    by_cases e : i = idx
    · rw [e]
      exact Or.inr ⟨hlt, hm⟩
    · rw [Function.update_noteq e] at hi'
      exact i2 i hi'
  · intro i hi
    rcases List.mem_cons.mp hi with rfl | hi
    · exact hlt
    · exact i3 i hi
  · show (idx :: s.pushed).Nodup
    refine List.nodup_cons.mpr ⟨?_, i4⟩
    intro hmem
    have := (i5 idx hmem).2
    rw [hr] at this
    cases this
  · intro i hi
    show i < 256 ∧ Function.update s.s_revealed idx true i = true
    rcases List.mem_cons.mp hi with rfl | hi
    · exact ⟨hlt, Function.update_same _ _ _⟩
    · refine ⟨(i5 i hi).1, ?_⟩
      by_cases e : i = idx
      · rw [e, Function.update_same]
      · rw [Function.update_noteq e]
        exact (i5 i hi).2
  · refine ⟨idx :: l, ?_, ?_⟩
    · show idx :: s.pushed = idx :: l ++ [c]
      rw [i6]
      rfl
    · intro i hi
      rcases List.mem_cons.mp hi with rfl | hi
      · cases h0 : rev0 i
        · rfl
        · have := i1 i h0
          rw [hr] at this
          cases this
      · exact i6' i hi
  · show (idx :: s.pushed).length = (idx :: s.checkForReveal).length + s.iterations
    simp only [List.length_cons]
    omega

/-- One iteration of the worklist loop returns, keeps the invariant and counts once. -/
theorem floodStep_inv (b : Board) {rev0 : Nat → Bool} {c : Nat} (s : Flood)
    (hs : FloodInv b.s_mines rev0 c s) (hne : s.checkForReveal ≠ []) :
    ∃ s', floodStep b s = some s' ∧ FloodInv b.s_mines rev0 c s' ∧
      s'.iterations = s.iterations + 1 := by
  obtain ⟨rv, st, pu, it⟩ := s
  cases st with
  | nil => exact absurd rfl hne
  | cons ci rest =>
    obtain ⟨i1, i2, i3, i4, i5, i6, i7⟩ := hs
    have hp : FloodInv b.s_mines rev0 c ⟨rv, rest, pu, it + 1⟩ := by
      refine ⟨i1, i2, fun i hi => i3 i (List.mem_cons_of_mem _ hi), i4, i5, i6, ?_⟩
      have : pu.length = (ci :: rest).length + it := i7
      simp only [List.length_cons] at this
      show pu.length = rest.length + (it + 1)
      omega
    obtain ⟨n, hn, hz⟩ := NumNeighbors_spec b ((ci % 16 : Nat) : Int) ((ci / 16 : Nat) : Int)
    unfold floodStep
    simp only [hn, Option.some_bind]
    by_cases h0 : n = 0
    · rw [if_pos h0]
      obtain ⟨s', h1, h2, h3⟩ := foldlM_inv
        (fun s => FloodInv b.s_mines rev0 c s ∧ s.iterations = it + 1)
        (fun s iy => ([-1, 0, 1] : List Int).foldlM (fun s ix =>
          revealNeighbor ((ci % 16 : Nat) : Int) ((ci / 16 : Nat) : Int) iy ix s) s)
        ([-1, 0, 1] : List Int)
        (by
          intro s iy hiy hJ
          refine foldlM_inv (fun s => FloodInv b.s_mines rev0 c s ∧ s.iterations = it + 1)
            _ _ ?_ s hJ
          intro s ix hix hJ
          obtain ⟨s', e1, e2, e3⟩ := revealNeighbor_inv ((ci % 16 : Nat) : Int)
            ((ci / 16 : Nat) : Int) iy ix s hJ.1 (hz h0 iy hiy ix hix)
          exact ⟨s', e1, e2, e3.trans hJ.2⟩)
        ⟨rv, rest, pu, it + 1⟩ ⟨hp, rfl⟩
      exact ⟨s', h1, h2, h3⟩
    · rw [if_neg h0]
      exact ⟨_, rfl, hp, rfl⟩

/-- The worklist loop returns with an empty vector once the fuel covers the iterations that
are left. -/
theorem floodLoop_spec (b : Board) {rev0 : Nat → Bool} {c : Nat} (fuel : Nat) :
    ∀ s : Flood, FloodInv b.s_mines rev0 c s → 256 ≤ fuel + s.iterations →
      ∃ s', floodLoop b fuel s = some s' ∧ FloodInv b.s_mines rev0 c s' ∧
        s'.checkForReveal = [] := by
  induction fuel with
  | zero =>
    intro s hs hf
    have hl := FloodInv_length hs
    have h7 := hs.2.2.2.2.2.2
    have he : s.checkForReveal = [] := by
      apply List.eq_nil_of_length_eq_zero
      omega
    exact ⟨s, by simp [floodLoop, he], hs, he⟩
  | succ fuel ih =>
    intro s hs hf
    by_cases he : s.checkForReveal = []
    · exact ⟨s, by simp [floodLoop, he], hs, he⟩
    · obtain ⟨s1, h1, j1, k1⟩ := floodStep_inv b s hs he
      obtain ⟨s2, h2, j2, k2⟩ := ih s1 j1 (by omega)
      refine ⟨s2, ?_, j2, k2⟩
      have hemp : s.checkForReveal.isEmpty = false := by
        cases hc : s.checkForReveal with
        | nil => exact absurd hc he
        | cons _ _ => rfl
      unfold floodLoop
      rw [hemp]
      simp only [Bool.false_eq_true, if_false, h1, Option.some_bind]
      exact h2

/-- More fuel does not change the result of the worklist loop. -/
theorem floodLoop_mono (b : Board) (fuel : Nat) :
    ∀ (s s' : Flood), floodLoop b fuel s = some s' → floodLoop b (fuel + 1) s = some s' := by
  induction fuel with
  | zero =>
    intro s s' h
    unfold floodLoop at h ⊢
    split at h
    · rename_i he
      rw [if_pos he]
      exact h
    · cases h
  | succ fuel ih =>
    intro s s' h
    unfold floodLoop at h
    unfold floodLoop
    split at h
    · rename_i he
      rw [if_pos he]
      exact h
    · rename_i he
      rw [if_neg he]
      obtain ⟨s1, h1, h2⟩ := Option.bind_eq_some.mp h
      rw [h1]
      exact ih s1 s' h2

theorem floodLoop_fuel (b : Board) (fuel extra : Nat) (s s' : Flood)
    (h : floodLoop b fuel s = some s') : floodLoop b (fuel + extra) s = some s' := by
  induction extra with
  | zero => exact h
  | succ k ih => exact floodLoop_mono b (fuel + k) s s' ih

/-- `OnLeftClick` on a cell of the board: with fuel for 256 iterations it returns, whatever
the fuel beyond, and the loop ends with an empty vector in a state that satisfies the loop
invariant (or has not run, when the cell is a mine). -/
theorem OnLeftClick_spec (b : Board) (x y : Int) (hx : 0 ≤ x ∧ x < 16) (hy : 0 ≤ y ∧ y < 16)
    (fuel : Nat) (hf : 256 ≤ fuel) :
    ∃ s, b.OnLeftClick fuel x y = some ({ b with s_revealed := s.s_revealed }, s) ∧
      b.OnLeftClick 256 x y = some ({ b with s_revealed := s.s_revealed }, s) ∧
      s.checkForReveal = [] ∧
      ((b.s_mines (cellIndex x y) = true ∧
          s = ⟨Function.update b.s_revealed (cellIndex x y) true, [], [], 0⟩) ∨
       (b.s_mines (cellIndex x y) = false ∧
          FloodInv b.s_mines (Function.update b.s_revealed (cellIndex x y) true)
            (cellIndex x y) s)) := by
  obtain ⟨-, hlt⟩ := cellIndex_spec x y hx hy
  have hopen : ∀ fuel, b.OnLeftClick fuel x y =
      (if b.s_mines (cellIndex x y) then
        some ({ b with s_revealed := Function.update b.s_revealed (cellIndex x y) true },
          ⟨Function.update b.s_revealed (cellIndex x y) true, [], [], 0⟩)
       else
        (floodLoop { b with s_revealed := Function.update b.s_revealed (cellIndex x y) true }
          fuel ⟨Function.update b.s_revealed (cellIndex x y) true, [cellIndex x y],
            [cellIndex x y], 0⟩).map fun s =>
          ({ b with s_revealed := s.s_revealed }, s)) := by
    intro fuel
    unfold Board.OnLeftClick Board.Mine writeCell readCell
    rw [if_pos hlt]
    simp only [Option.some_bind, if_pos hlt]
  rw [hopen fuel, hopen 256]
  cases hm : b.s_mines (cellIndex x y)
  · simp only [Bool.false_eq_true, if_false]
    have h0 : FloodInv b.s_mines (Function.update b.s_revealed (cellIndex x y) true)
        (cellIndex x y)
        ⟨Function.update b.s_revealed (cellIndex x y) true, [cellIndex x y],
          [cellIndex x y], 0⟩ := by
      refine ⟨fun i hi => hi, fun i hi => Or.inl hi, ?_, List.nodup_singleton _, ?_,
        ⟨[], rfl, fun i hi => by cases hi⟩, rfl⟩
      · intro i hi
        rw [List.mem_singleton.mp hi]
        exact hlt
      · intro i hi
        rw [List.mem_singleton.mp hi]
        exact ⟨hlt, Function.update_same _ _ _⟩
    obtain ⟨s, h1, h2, h3⟩ := floodLoop_spec
      { b with s_revealed := Function.update b.s_revealed (cellIndex x y) true } 256 _ h0
      (by simp)
    obtain ⟨extra, rfl⟩ := Nat.exists_eq_add_of_le hf
    have h1' := floodLoop_fuel _ 256 extra _ _ h1
    refine ⟨s, ?_, ?_, h3, Or.inr ⟨trivial, h2⟩⟩
    · rw [h1']
      rfl
    · rw [h1]
      rfl
  · simp only [if_true]
    exact ⟨_, rfl, rfl, rfl, Or.inl ⟨trivial, rfl⟩⟩

/-! ## C22: the flood fill exposes no mine -/

/-- C22: for a cell `(x, y)` of the board, `OnLeftClick` returns (given fuel for 256
iterations of its loop); it leaves `s_mines` and `s_flagged` as they are, clears no
revealed cell, reveals the clicked cell, and reveals no mine other than the clicked cell.
If the clicked cell is no mine and no cell of the board was a revealed mine, none is
afterwards. -/
theorem C22_flood_fill (b : Board) (x y : Int) (hx : 0 ≤ x ∧ x < 16) (hy : 0 ≤ y ∧ y < 16)
    (fuel : Nat) (hf : 256 ≤ fuel) :
    ∃ b' s, b.OnLeftClick fuel x y = some (b', s) ∧
      b'.s_mines = b.s_mines ∧ b'.s_flagged = b.s_flagged ∧
      (∀ i, b.s_revealed i = true → b'.s_revealed i = true) ∧
      b'.s_revealed (cellIndex x y) = true ∧
      (∀ i, b'.s_revealed i = true → b.s_revealed i = false → b.s_mines i = true →
        i = cellIndex x y) ∧
      (b.s_mines (cellIndex x y) = false →
        (∀ i, i < 256 → ¬(b.s_revealed i = true ∧ b.s_mines i = true)) →
        ∀ i, i < 256 → ¬(b'.s_revealed i = true ∧ b'.s_mines i = true)) := by
  obtain ⟨s, h1, -, -, hcase⟩ := OnLeftClick_spec b x y hx hy fuel hf
  have key : (∀ i, Function.update b.s_revealed (cellIndex x y) true i = true →
        s.s_revealed i = true) ∧
      (∀ i, s.s_revealed i = true →
        Function.update b.s_revealed (cellIndex x y) true i = true ∨
          (i < 256 ∧ b.s_mines i = false)) := by
    rcases hcase with ⟨-, rfl⟩ | ⟨-, hinv⟩
    · exact ⟨fun i hi => hi, fun i hi => Or.inl hi⟩
    · exact ⟨hinv.1, hinv.2.1⟩
  obtain ⟨k1, k2⟩ := key
  have up : ∀ i, b.s_revealed i = true →
      Function.update b.s_revealed (cellIndex x y) true i = true := by
    intro i hi
    by_cases e : i = cellIndex x y
    · rw [e, Function.update_same]
    · rw [Function.update_noteq e]
      exact hi
  have newly : ∀ i, s.s_revealed i = true → b.s_revealed i = false → b.s_mines i = true →
      i = cellIndex x y := by
    intro i hi hb hm
    rcases k2 i hi with h | ⟨-, h⟩
    · by_contra e
      rw [Function.update_noteq e, hb] at h
      cases h
    · rw [hm] at h
      cases h
  refine ⟨_, s, h1, rfl, rfl, fun i hi => k1 i (up i hi),
    k1 _ (Function.update_same _ _ _), newly, ?_⟩
  intro hc hno i hi ⟨hr, hm⟩
  cases hb : b.s_revealed i
  · have := newly i hr hb hm
    rw [this, hc] at hm
    cases hm
  · exact hno i hi ⟨hb, hm⟩

theorem C22_flood_fill_witness :
    (cornerBoard.OnLeftClick 256 0 0).map (fun r => r.2.pushed) = some [17, 16, 1, 0] ∧
    cornerBoard.s_mines (cellIndex 0 0) = false ∧
    ∃ b' s, cornerBoard.OnLeftClick 256 0 0 = some (b', s) ∧
      b'.s_mines = cornerBoard.s_mines ∧ b'.s_flagged = cornerBoard.s_flagged ∧
      (∀ i, cornerBoard.s_revealed i = true → b'.s_revealed i = true) ∧
      b'.s_revealed (cellIndex 0 0) = true ∧
      (∀ i, b'.s_revealed i = true → cornerBoard.s_revealed i = false →
        cornerBoard.s_mines i = true → i = cellIndex 0 0) ∧
      (cornerBoard.s_mines (cellIndex 0 0) = false →
        (∀ i, i < 256 → ¬(cornerBoard.s_revealed i = true ∧ cornerBoard.s_mines i = true)) →
        ∀ i, i < 256 → ¬(b'.s_revealed i = true ∧ b'.s_mines i = true)) :=
  ⟨by decide, by decide,
    C22_flood_fill cornerBoard 0 0 (by decide) (by decide) 256 (by decide)⟩

/-! ## C24: the worklist loop terminates -/

/-- C24: for a cell `(x, y)` of the board, `OnLeftClick` returns once its loop may run 256
times, with the same result whatever the fuel beyond: the loop ends with an empty vector
and no index was out of bounds (an out-of-bounds access has no result).  The loop has run
as many times as indexes were pushed, at most 256 (so at most 257).  The indexes pushed are
distinct cells of the board and are revealed; each but the first was unrevealed before the
call and is not the clicked cell; the first, if any, is the clicked cell. -/
theorem C24_flood_terminates (b : Board) (x y : Int) (hx : 0 ≤ x ∧ x < 16)
    (hy : 0 ≤ y ∧ y < 16) (fuel : Nat) (hf : 256 ≤ fuel) :
    ∃ b' s, b.OnLeftClick fuel x y = some (b', s) ∧
      b.OnLeftClick 256 x y = some (b', s) ∧
      s.checkForReveal = [] ∧
      s.iterations = s.pushed.length ∧ s.iterations ≤ 256 ∧ s.iterations ≤ 257 ∧
      s.pushed.Nodup ∧
      (∀ i ∈ s.pushed, i < 256 ∧ b'.s_revealed i = true) ∧
      (∀ i ∈ s.pushed.dropLast, b.s_revealed i = false ∧ i ≠ cellIndex x y) ∧
      (∀ i ∈ s.pushed.getLast?, i = cellIndex x y) := by
  obtain ⟨s, h1, h2, h3, hcase⟩ := OnLeftClick_spec b x y hx hy fuel hf
  refine ⟨_, s, h1, h2, h3, ?_⟩
  rcases hcase with ⟨-, rfl⟩ | ⟨-, hinv⟩
  · refine ⟨rfl, by simp, by simp, List.nodup_nil, ?_, ?_, ?_⟩
    · intro i hi
      cases hi
    · intro i hi
      cases hi
    · intro i hi
      cases hi
  · have hl := FloodInv_length hinv
    obtain ⟨i1, -, -, i4, i5, ⟨l, i6, i6'⟩, i7⟩ := hinv
    rw [h3] at i7
    simp only [List.length_nil, Nat.zero_add] at i7
    refine ⟨i7.symm, by omega, by omega, i4, i5, ?_, ?_⟩
    · intro i hi
      rw [i6, List.dropLast_concat] at hi
      have hr := i6' i hi
      constructor
      · cases hb : b.s_revealed i
        · rfl
        · by_cases e : i = cellIndex x y
          · rw [e, Function.update_same] at hr
            cases hr
          · rw [Function.update_noteq e, hb] at hr
            cases hr
      · intro e
        rw [e, Function.update_same] at hr
        cases hr
    · intro i hi
      rw [i6, List.getLast?_concat] at hi
      simp only [Option.mem_def, Option.some.injEq] at hi
      exact hi.symm

theorem C24_flood_terminates_witness :
    (cornerBoard.OnLeftClick 256 0 0).map (fun r => (r.2.iterations, r.2.pushed)) =
      some (4, [17, 16, 1, 0]) ∧
    ∃ b' s, cornerBoard.OnLeftClick 300 0 0 = some (b', s) ∧
      cornerBoard.OnLeftClick 256 0 0 = some (b', s) ∧
      s.checkForReveal = [] ∧
      s.iterations = s.pushed.length ∧ s.iterations ≤ 256 ∧ s.iterations ≤ 257 ∧
      s.pushed.Nodup ∧
      (∀ i ∈ s.pushed, i < 256 ∧ b'.s_revealed i = true) ∧
      (∀ i ∈ s.pushed.dropLast, cornerBoard.s_revealed i = false ∧ i ≠ cellIndex 0 0) ∧
      (∀ i ∈ s.pushed.getLast?, i = cellIndex 0 0) :=
  ⟨by decide, C24_flood_terminates cornerBoard 0 0 (by decide) (by decide) 300 (by decide)⟩

/-! ## C23: the game result -/

/-- C23: `GetGameResult` is `Lose` exactly when some cell of the board is revealed and a
mine; `Win` exactly when no mine is revealed and every cell that is no mine is revealed;
`Undecided` exactly when no mine is revealed and some cell that is no mine is unrevealed.
The flags do not enter the result. -/
theorem C23_game_result (b : Board) :
    (b.GetGameResult = GameResult.Lose ↔
      ∃ i, i < 256 ∧ b.s_revealed i = true ∧ b.s_mines i = true) ∧
    (b.GetGameResult = GameResult.Win ↔
      (¬ ∃ i, i < 256 ∧ b.s_revealed i = true ∧ b.s_mines i = true) ∧
      ∀ i, i < 256 → b.s_mines i = false → b.s_revealed i = true) ∧
    (b.GetGameResult = GameResult.Undecided ↔
      (¬ ∃ i, i < 256 ∧ b.s_revealed i = true ∧ b.s_mines i = true) ∧
      ∃ i, i < 256 ∧ b.s_mines i = false ∧ b.s_revealed i = false) ∧
    ∀ f, ({ b with s_flagged := f } : Board).GetGameResult = b.GetGameResult := by
  have hL : (List.range 256).any (fun i => b.s_revealed i && b.s_mines i) = true ↔
      ∃ i, i < 256 ∧ b.s_revealed i = true ∧ b.s_mines i = true := by
    rw [List.any_eq_true]
    constructor
    · rintro ⟨i, hi, h⟩
      rw [Bool.and_eq_true] at h
      exact ⟨i, List.mem_range.mp hi, h⟩
    · rintro ⟨i, hi, h⟩
      exact ⟨i, List.mem_range.mpr hi, by rw [Bool.and_eq_true]; exact h⟩
  have hU : (List.range 256).any (fun i => !b.s_revealed i && !b.s_mines i) = true ↔
      ∃ i, i < 256 ∧ b.s_mines i = false ∧ b.s_revealed i = false := by
    rw [List.any_eq_true]
    constructor
    · rintro ⟨i, hi, h⟩
      rw [Bool.and_eq_true, Bool.not_eq_true', Bool.not_eq_true'] at h
      exact ⟨i, List.mem_range.mp hi, h.2, h.1⟩
    · rintro ⟨i, hi, h1, h2⟩
      refine ⟨i, List.mem_range.mpr hi, ?_⟩
      rw [h1, h2]
      rfl
  have hW : (∀ i, i < 256 → b.s_mines i = false → b.s_revealed i = true) ↔
      ¬ ∃ i, i < 256 ∧ b.s_mines i = false ∧ b.s_revealed i = false := by
    constructor
    · rintro h ⟨i, hi, h1, h2⟩
      rw [h i hi h1] at h2
      cases h2
    · intro h i hi h1
      cases h2 : b.s_revealed i
      · exact absurd ⟨i, hi, h1, h2⟩ h
      · rfl
  rw [hW, ← hL, ← hU]
  refine ⟨?_, ?_, ?_, fun f => rfl⟩
  · unfold Board.GetGameResult
    generalize (List.range 256).any (fun i => b.s_revealed i && b.s_mines i) = A
    generalize (List.range 256).any (fun i => !b.s_revealed i && !b.s_mines i) = B
    cases A <;> cases B <;> decide
  · unfold Board.GetGameResult
    generalize (List.range 256).any (fun i => b.s_revealed i && b.s_mines i) = A
    generalize (List.range 256).any (fun i => !b.s_revealed i && !b.s_mines i) = B
    cases A <;> cases B <;> decide
  · unfold Board.GetGameResult
    generalize (List.range 256).any (fun i => b.s_revealed i && b.s_mines i) = A
    generalize (List.range 256).any (fun i => !b.s_revealed i && !b.s_mines i) = B
    cases A <;> cases B <;> decide

end Thirteen
